import Mathlib

/-!
# BatteryBot: battery manager, countdown timer and settings menus

A shallow embedding of `src/src/main.c` (with the macros of `src/defs.h`).

* The global variables and the output pins the program drives are the fields
  of `State`.  Display calls and port commands are also appended, in program
  order, to the logs `lcd` and `out`.
* `float` values are rationals.  The readings and the SOC are exact; in
  `float_to_string`, whose output depends on the last bit, every `float`
  operation returns its exact result rounded to binary32 (`binary32_round`).
  Conversions to integer types discard the fractional part, as in C.
* `uint8_t` / `uint16_t` arithmetic is arithmetic on `Nat` modulo `2^8` / `2^16`.
* The value returned by `battery_voltage_level()` during one call of
  `battery_manager` is a parameter of the tick (the reading is held constant
  during the tick); `battery_voltage_level` itself maps an ADC reading to it.
* The results of successive `scan_keypad_input(-1)` calls are a list of key
  characters.  A routine that needs a key when the list is empty is blocked in
  `scan_keypad_input(-1)`, which waits indefinitely.
* The keypad lines are a function of the number of the read of PINB and of
  the output line driven at that read; loops that wait on a line take a bound
  on the number of reads and return `none` when it is exceeded.
* `_delay_ms` is not modelled.
-/

namespace BatteryBot

/-! ## Data model -/

/-- One call on the character display. -/
inductive LcdOp
  | clear
  | writeString (x y : Nat) (msg : String)
  | writeInt (x y : Nat) (val : Nat) (fl : Nat)
  deriving DecidableEq

/-- One port command macro of `defs.h`. -/
inductive PortCmd
  | buzzerOn
  | buzzerOff
  | batteryChargeOn
  | batteryChargeOff
  | loadSupplyOn
  | loadSupplyOff
  | enableLed (pin : Nat)
  | disableLed (pin : Nat)
  deriving DecidableEq

/-- The global variables of `main.c`, the output pins they shadow, the
compare-match interrupt enable bit, and the two output logs. -/
structure State where
  gBuzzer_On : Bool
  gLoad_Supply_On : Bool
  gBattery_Charging : Bool
  gCountdown_In_Progress : Bool
  gCountdown_Time : Nat
  gSeconds_Count : Nat
  gMilli_Seconds : Nat
  gSOC_Limit : Nat
  PA0 : Bool
  PA1 : Bool
  PA3 : Bool
  PC0 : Bool
  PC1 : Bool
  PC2 : Bool
  PC3 : Bool
  OCIE1A : Bool
  lcd : List LcdOp
  out : List PortCmd

def DEFAULT_SOC_VALUE : Nat := 50

def BATTERY_MAX_VOLTAGE : ℚ := 12

/-- The state after the initialisers of the globals and the start of `main`:
all flags FALSE, `gSeconds_Count = 59`, `gSOC_Limit = DEFAULT_SOC_VALUE`,
LEDs disabled, interrupt not enabled. -/
def State.init : State :=
  { gBuzzer_On := false, gLoad_Supply_On := false, gBattery_Charging := false,
    gCountdown_In_Progress := false, gCountdown_Time := 0, gSeconds_Count := 59,
    gMilli_Seconds := 0, gSOC_Limit := DEFAULT_SOC_VALUE,
    PA0 := false, PA1 := false, PA3 := false,
    PC0 := false, PC1 := false, PC2 := false, PC3 := false,
    OCIE1A := false, lcd := [], out := [] }

/-! ## Port and display macros (`defs.h`) -/

def BUZZER_ON (s : State) : State :=
  { s with PA3 := true, out := s.out ++ [PortCmd.buzzerOn] }

def BUZZER_OFF (s : State) : State :=
  { s with PA3 := false, out := s.out ++ [PortCmd.buzzerOff] }

def BATTERY_CHARGE_ON (s : State) : State :=
  { s with PA1 := true, out := s.out ++ [PortCmd.batteryChargeOn] }

def BATTERY_CHARGE_OFF (s : State) : State :=
  { s with PA1 := false, out := s.out ++ [PortCmd.batteryChargeOff] }

def LOAD_SUPPLY_ON (s : State) : State :=
  { s with PA0 := true, out := s.out ++ [PortCmd.loadSupplyOn] }

def LOAD_SUPPLY_OFF (s : State) : State :=
  { s with PA0 := false, out := s.out ++ [PortCmd.loadSupplyOff] }

/-- Sets bit `pin` (0..3) of PORTC. -/
def ENABLE_LED (pin : Nat) (s : State) : State :=
  let s1 := { s with out := s.out ++ [PortCmd.enableLed pin] }
  match pin with
  | 0 => { s1 with PC0 := true }
  | 1 => { s1 with PC1 := true }
  | 2 => { s1 with PC2 := true }
  | 3 => { s1 with PC3 := true }
  | _ => s1

/-- Clears bit `pin` (0..3) of PORTC. -/
def DISABLE_LED (pin : Nat) (s : State) : State :=
  let s1 := { s with out := s.out ++ [PortCmd.disableLed pin] }
  match pin with
  | 0 => { s1 with PC0 := false }
  | 1 => { s1 with PC1 := false }
  | 2 => { s1 with PC2 := false }
  | 3 => { s1 with PC3 := false }
  | _ => s1

def LCDClear (s : State) : State :=
  { s with lcd := s.lcd ++ [LcdOp.clear] }

def LCDWriteStringXY (x y : Nat) (msg : String) (s : State) : State :=
  { s with lcd := s.lcd ++ [LcdOp.writeString x y msg] }

def LCDWriteIntXY (x y : Nat) (val : Nat) (fl : Nat) (s : State) : State :=
  { s with lcd := s.lcd ++ [LcdOp.writeInt x y val fl] }

/-! ## Numeric conversions -/

/-- C conversion of a floating value to an integer: the fractional part is
discarded (rounding toward zero). -/
def truncToInt (q : ℚ) : Int :=
  if 0 ≤ q then ⌊q⌋ else -⌊-q⌋

/-- The cast `(uint16_t)value`. -/
def toU16 (q : ℚ) : Nat :=
  (truncToInt q % 65536).toNat

/-- The conversion to `uint8_t`. -/
def toU8 (q : ℚ) : Nat :=
  (truncToInt q % 256).toNat

/-- The value a `float` (binary32) operation returns when its exact result is
`x`: the nearest number of the form `m * 2 ^ (e - 23)` with `e` the binary
exponent of `x` (at least -126, the subnormal range below), ties to the even
`m` (IEEE 754 round to nearest even).  Overflow is not modelled (the operands
in this program are far below `2 ^ 128`). -/
def binary32_round (x : ℚ) : ℚ :=
  let e : Int := max (Int.log 2 |x|) (-126)
  let ulp : ℚ := 2 ^ (e - 23)
  let n : Int := ⌊|x| / ulp⌋
  let r : ℚ := |x| / ulp - n
  let m : Int :=
    if r < 1 / 2 then n else if 1 / 2 < r then n + 1 else if n % 2 = 0 then n else n + 1
  (if x < 0 then -1 else 1) * (m * ulp)

/-- The character with code `n` reduced to one byte. -/
def byteChar (n : Int) : Char :=
  Char.ofNat (n % 256).toNat

/-! ## String operations -/

/-- The NUL character. -/
def NUL : Char := Char.ofNat 0

/-- The C string stored at the start of a character array: the characters
before the first NUL. -/
def cstring (buf : List Char) : List Char :=
  buf.takeWhile (fun c => c ≠ NUL)

/-- The C library `strlen`. -/
def strlen (buf : List Char) : Nat :=
  (cstring buf).length

/-- Source `string_to_integer`: left-to-right `integer *= 10; integer +=
string[i] - '0'` on a `uint16_t`. -/
def string_to_integer (string : List Char) : Nat :=
  (cstring string).foldl
    (fun integer c => ((((integer * 10 % 65536 : Nat) : Int) + ((c.toNat : Int) - 48)) % 65536).toNat)
    0

/-- The spec's conversion, to compare `string_to_integer` with: the
left-to-right accumulation `acc = acc*10 + digit` over the characters of a
digit string, in unbounded arithmetic. -/
def decimal_value (string : List Char) : Nat :=
  string.foldl (fun acc c => acc * 10 + (c.toNat - 48)) 0

/-- First `do ... while(dummy)` loop of `float_to_string`: counts the decimal
digits of `dummy` into the `uint8_t` `count`. -/
def float_to_string_count : Nat → Int → Nat → Nat
  | 0, _, count => count
  | fuel + 1, dummy, count =>
    let count1 := (count + 1) % 256
    let dummy1 := dummy.tdiv 10
    if dummy1 ≠ 0 then float_to_string_count fuel dummy1 count1 else count1

/-- Second `do ... while(real_part)` loop of `float_to_string`: the writes
`gString[--count] = (real_part % 10) + '0'`, as (index, character) pairs. -/
def float_to_string_digits : Nat → Int → Nat → List (Nat × Char)
  | 0, _, _ => []
  | fuel + 1, real_part, count =>
    let count1 := (count + 255) % 256
    let w := (count1, byteChar (real_part.tmod 10 + 48))
    let real_part1 := real_part.tdiv 10
    if real_part1 ≠ 0 then w :: float_to_string_digits fuel real_part1 count1 else [w]

/-- The writes `float_to_string` makes into `gString`, in program order, as
(index, character) pairs.  `(value - real_part) * 10` is two `float`
operations, each rounded to binary32, before the conversion to `uint8_t`. -/
def float_to_string_writes (value : ℚ) (unit : Char) : List (Nat × Char) :=
  let real_part : Int := truncToInt value
  let imag_part : Nat := toU8 (binary32_round (binary32_round (value - real_part) * 10))
  let fuel := real_part.natAbs + 1
  let count0 := float_to_string_count fuel real_part 0
  let count := (count0 + 2) % 256
  let count1 := (count + 255) % 256
  let count2 := (count1 + 255) % 256
  [(0, NUL)]
    ++ (if unit ≠ ' ' then [(count, unit)] else [])
    ++ [(count + 1, NUL)]
    ++ [(count1, byteChar ((imag_part % 10 : Nat) + 48))]
    ++ [(count2, '.')]
    ++ float_to_string_digits fuel real_part count2

/-- The 7 byte block `calloc(7, 1)` returns. -/
def gString_calloc : List Char :=
  List.replicate 7 NUL

/-- The content of the 7 byte block after the writes (a write outside the
block does not change the block). -/
def gString_after (writes : List (Nat × Char)) : List Char :=
  writes.foldl (fun buf w => buf.set w.1 w.2) gString_calloc

/-- Source `float_to_string`: the NUL terminated string held in `gString`
on return. -/
def float_to_string (value : ℚ) (unit : Char) : String :=
  String.mk (cstring (gString_after (float_to_string_writes value unit)))

/-! ## Battery management -/

/-- Source `battery_voltage_level`: the ADC reading scaled to 0 V .. 12 V. -/
def battery_voltage_level (adc : Nat) : ℚ :=
  ((adc : ℚ) * BATTERY_MAX_VOLTAGE) / 1023

/-- Source `soc_calculator`, applied to the value `battery_voltage_level()`
returned. -/
def soc_calculator (v : ℚ) : ℚ :=
  (v / BATTERY_MAX_VOLTAGE) * 100

/-- Source `led_display`. -/
def led_display (level : ℚ) (s : State) : State :=
  if level ≥ 85 then
    DISABLE_LED 3 (DISABLE_LED 2 (DISABLE_LED 1 (ENABLE_LED 0 s)))
  else if level < 85 ∧ level ≥ 70 then
    DISABLE_LED 3 (DISABLE_LED 2 (ENABLE_LED 1 (DISABLE_LED 0 s)))
  else if level < 70 ∧ level ≥ 55 then
    DISABLE_LED 3 (ENABLE_LED 2 (DISABLE_LED 1 (DISABLE_LED 0 s)))
  else if level < 55 then
    ENABLE_LED 3 (DISABLE_LED 2 (DISABLE_LED 1 (DISABLE_LED 0 s)))
  else s

/-- Source `terminate_countdown`. -/
def terminate_countdown (s : State) : State :=
  { LOAD_SUPPLY_OFF s with gLoad_Supply_On := false, OCIE1A := false }

/-- Source `init_countdown`. -/
def init_countdown (s : State) : State :=
  let s1 := { s with gMilli_Seconds := 0, gSeconds_Count := 59 }
  let hours := s1.gCountdown_Time / 60
  let mins := s1.gCountdown_Time % 60
  let s2 := LCDClear s1
  let s3 := LCDWriteIntXY 4 0 hours 2 s2
  let s4 := LCDWriteStringXY 6 0 ":" s3
  let s5 := LCDWriteIntXY 7 0 mins 2 s4
  let s6 := LCDWriteStringXY 9 0 ":" s5
  let s7 := LCDWriteIntXY 10 0 s6.gSeconds_Count 2 s6
  let s8 := LCDWriteStringXY 4 1 "HH:" s7
  let s9 := LCDWriteStringXY 7 1 "MM:" s8
  let s10 := LCDWriteStringXY 10 1 "SS" s9
  { s10 with gCountdown_In_Progress := true, OCIE1A := true }

/-- Lines 217-251 of `battery_manager`: the body of the low battery block. -/
def low_battery_block (soc : ℚ) (s : State) : State :=
  let s1 :=
    if s.gBattery_Charging = false ∧ s.gBuzzer_On = false ∧ toU16 soc < 45 then
      { BUZZER_ON s with gBuzzer_On := true }
    else s
  let s2 :=
    if s1.gLoad_Supply_On = true then
      if s1.gCountdown_In_Progress = true then terminate_countdown s1
      else { LOAD_SUPPLY_OFF s1 with gLoad_Supply_On := false }
    else s1
  let s3 := LCDClear s2
  let s4 := LCDWriteStringXY 2 0 "BATTERY LOW" s3
  LCDWriteStringXY 4 1 (float_to_string soc '%') s4

/-- Lines 252-268 of `battery_manager`: the body of the sufficient battery
block. -/
def sufficient_battery_block (s : State) : State :=
  let s1 := if s.gBuzzer_On = true then { BUZZER_OFF s with gBuzzer_On := false } else s
  { LOAD_SUPPLY_ON s1 with gLoad_Supply_On := true }

/-- Lines 217-268 of `battery_manager`: the `if / else if` on the truncated
SOC. -/
def load_block (soc : ℚ) (s : State) : State :=
  if toU16 soc < s.gSOC_Limit ∧ s.gBattery_Charging = false then
    low_battery_block soc s
  else if s.gCountdown_In_Progress = false ∧ toU16 soc > s.gSOC_Limit
      ∧ s.gLoad_Supply_On = false then
    sufficient_battery_block s
  else s

/-- Lines 270-298 of `battery_manager`: the charging block, entered when
`EXTERNAL_POWER_AVAILABLE` reads non-zero. -/
def charging_block (soc : ℚ) (extPower : Bool) (s : State) : State :=
  if extPower = true then
    let s1 :=
      if soc ≥ 95 ∧ s.gBattery_Charging = true then
        { BATTERY_CHARGE_OFF s with gBattery_Charging := false }
      else if soc < 90 ∧ s.gBattery_Charging = false then
        let a := { BATTERY_CHARGE_ON s with gBattery_Charging := true }
        if a.gBuzzer_On = true then { BUZZER_OFF a with gBuzzer_On := false } else a
      else s
    let s2 := LCDClear s1
    let s3 := LCDWriteStringXY 0 0 "BATT CHARGING" s2
    let s4 := LCDWriteStringXY 2 1 "SOC = " s3
    LCDWriteStringXY 8 1 (float_to_string soc '%') s4
  else s

/-- Lines 300-318 of `battery_manager`: the status screens shown when no
countdown is in progress. -/
def status_block (v soc : ℚ) (s : State) : State :=
  if s.gCountdown_In_Progress = false then
    let s1 := LCDClear s
    let s2 := LCDWriteStringXY 0 0 "SOC = " s1
    let s3 := LCDWriteStringXY 6 0 (float_to_string soc '%') s2
    let s4 := LCDWriteStringXY 0 1 "BATT = " s3
    let s5 := LCDWriteStringXY 7 1 (float_to_string v 'V') s4
    let s6 := LCDClear s5
    let s7 := LCDWriteStringXY 0 0 "SOC LIMIT = " s6
    let s8 := LCDWriteIntXY 12 0 s7.gSOC_Limit 2 s7
    LCDWriteStringXY 14 0 "%" s8
  else s

/-- Source `battery_manager`, for a tick during which `battery_voltage_level()`
returns `v` and `EXTERNAL_POWER_AVAILABLE` reads `extPower`. -/
def battery_manager (v : ℚ) (extPower : Bool) (s : State) : State :=
  let soc := soc_calculator v
  let s1 := led_display soc s
  let s2 := load_block soc s1
  let s3 := charging_block soc extPower s2
  status_block v soc s3

/-- Successive calls of `battery_manager`, one per pair of readings
(value of `battery_voltage_level()`, `EXTERNAL_POWER_AVAILABLE`): the state
after the last tick. -/
def battery_manager_ticks : List (ℚ × Bool) → State → State
  | [], s => s
  | t :: ts, s => battery_manager_ticks ts (battery_manager t.1 t.2 s)

/-- Whether a port command drives the buzzer or the charge relay. -/
def is_toggle : PortCmd → Bool
  | PortCmd.buzzerOn => true
  | PortCmd.buzzerOff => true
  | PortCmd.batteryChargeOn => true
  | PortCmd.batteryChargeOff => true
  | _ => false

/-- Replays a sequence of port commands against the pair of flags
(`gBuzzer_On`, `gBattery_Charging`): `none` when a buzzer or charge command
finds its flag already holding the value the command sets (a redundant
toggle), otherwise the flags after the last command. -/
def replay_toggles : List PortCmd → Bool × Bool → Option (Bool × Bool)
  | [], f => some f
  | PortCmd.buzzerOn :: cs, f =>
    if f.1 = false then replay_toggles cs (true, f.2) else none
  | PortCmd.buzzerOff :: cs, f =>
    if f.1 = true then replay_toggles cs (false, f.2) else none
  | PortCmd.batteryChargeOn :: cs, f =>
    if f.2 = false then replay_toggles cs (f.1, true) else none
  | PortCmd.batteryChargeOff :: cs, f =>
    if f.2 = true then replay_toggles cs (f.1, false) else none
  | _ :: cs, f => replay_toggles cs f

/-! ## Countdown timer interrupt -/

/-- What one invocation of the interrupt handler did: executed
`--gSeconds_Count` (line 595), executed `--gCountdown_Time` (line 619),
entered the expired branch (line 609). -/
inductive IsrEvent
  | secondDecrement
  | minuteDecrement
  | expired
  deriving DecidableEq

/-- The outcome of one invocation of the interrupt handler: the state, the
keys not yet read, what the invocation did, and whether it returned
(`returned = false`: every supplied key was read and the handler is still in
the loop `while(scan_keypad_input(-1) != '#')`). -/
structure IsrResult where
  state : State
  keys : List Char
  events : List IsrEvent
  returned : Bool

/-- The loop `while(scan_keypad_input(-1) != '#');` of line 611: the keys left
after the first `'#'`, or `none` when the keys run out first. -/
def wait_for_hash : List Char → Option (List Char)
  | [] => none
  | k :: keys => if k ≠ '#' then wait_for_hash keys else some keys

/-- Lines 588-598 of the handler: the millisecond count and the one second
decrement. -/
def isr_millis (s : State) : State × List IsrEvent :=
  let s1 := { s with gMilli_Seconds := (s.gMilli_Seconds + 1) % 65536 }
  if s1.gMilli_Seconds = 1000 then
    let s2 := { s1 with gSeconds_Count := (s1.gSeconds_Count + 255) % 256 }
    let s3 := LCDWriteIntXY 10 0 s2.gSeconds_Count 2 s2
    ({ s3 with gMilli_Seconds := 0 }, [IsrEvent.secondDecrement])
  else (s1, [])

/-- Lines 604-612 of the handler: the expired branch. -/
def isr_expired (keys : List Char) (s : State) (ev : List IsrEvent) : IsrResult :=
  let s1 := terminate_countdown s
  let s2 := LCDWriteStringXY 0 1 "PRESS # TO STOP" s1
  match wait_for_hash keys with
  | none =>
    { state := s2, keys := [], events := ev ++ [IsrEvent.expired], returned := false }
  | some rest =>
    { state := { s2 with gCountdown_In_Progress := false }, keys := rest,
      events := ev ++ [IsrEvent.expired], returned := true }

/-- Lines 616-630 of the handler: the minute decrement. -/
def isr_minute (s : State) : State :=
  let s1 := { s with gCountdown_Time := (s.gCountdown_Time + 65535) % 65536 }
  let s2 := { s1 with gSeconds_Count := 59 }
  let hours := s2.gCountdown_Time / 60
  let mins := s2.gCountdown_Time % 60
  let s3 := LCDWriteIntXY 4 0 hours 2 s2
  let s4 := LCDWriteIntXY 7 0 mins 2 s3
  LCDWriteIntXY 10 0 s4.gSeconds_Count 2 s4

/-- Source `ISR(TIMER1_COMPA_vect)`. -/
def TIMER1_COMPA_vect (keys : List Char) (s : State) : IsrResult :=
  let r := isr_millis s
  if r.1.gSeconds_Count = 0 then
    if r.1.gCountdown_Time = 0 then
      isr_expired keys r.1 r.2
    else
      { state := isr_minute r.1, keys := keys,
        events := r.2 ++ [IsrEvent.minuteDecrement], returned := true }
  else
    { state := r.1, keys := keys, events := r.2, returned := true }

/-- Up to `n` successive invocations of the handler with no key pressed: the
state reached and what the invocations did.  The run stops at the invocation
that does not return. -/
def countdown_run : Nat → State → State × List IsrEvent
  | 0, s => (s, [])
  | n + 1, s =>
    let r := TIMER1_COMPA_vect [] s
    if r.returned = true then
      let q := countdown_run n r.state
      (q.1, r.events ++ q.2)
    else (r.state, r.events)

/-! ## Settings menus -/

/-- The ten digit characters `scan_keypad_input` can return. -/
def digitKeys : List Char :=
  ['0', '1', '2', '3', '4', '5', '6', '7', '8', '9']

/-- The thirteen key characters `scan_keypad_input` can return. -/
def keyCodes : List Char :=
  digitKeys ++ ['*', '#', '$']

/-- Source `set_soc_limit` from the `do` of line 434 on: `input` holds the
`count = input.length` characters stored so far.  The result is the state on
return and the keys not read; `none` when the keys run out before the routine
returns. -/
def set_soc_limit_loop : List Char → List Char → State → Option (State × List Char)
  | [], _, _ => none
  | temp_input :: keys, input, s =>
    if (temp_input = '0' ∨ temp_input = '1' ∨ temp_input = '2' ∨ temp_input = '3'
        ∨ temp_input = '4') ∧ input.length = 0 then
      if input.length < 2 then set_soc_limit_loop keys input s
      else some ({ s with gSOC_Limit := string_to_integer input }, keys)
    else if temp_input = '*' ∨ temp_input = '$' then
      if input.length < 2 then set_soc_limit_loop keys input s
      else some ({ s with gSOC_Limit := string_to_integer input }, keys)
    else if temp_input = '#' then
      some (s, keys)
    else
      let input1 := input ++ [temp_input]
      let s1 := LCDWriteStringXY 0 1 "                " s
      let s2 := LCDWriteStringXY 6 1 (String.mk (cstring input1)) s1
      let s3 := LCDWriteStringXY (6 + strlen input1) 1 "%        " s2
      if input1.length < 2 then set_soc_limit_loop keys input1 s3
      else some ({ s3 with gSOC_Limit := string_to_integer input1 }, keys)

/-- Source `set_soc_limit`. -/
def set_soc_limit (keys : List Char) (s : State) : Option (State × List Char) :=
  let s1 := LCDClear s
  let s2 := LCDWriteStringXY 0 0 "SOC LIMIT VALUE:" s1
  set_soc_limit_loop keys [] s2

/-- Lines 507-510 of `set_countdown_time`: the commit. -/
def set_countdown_commit (input : List Char) (s : State) : State :=
  init_countdown { s with gCountdown_Time := (string_to_integer input + 65535) % 65536 }

/-- Source `set_countdown_time` from the `do` of line 479 on: `input` holds
the `count = input.length` characters stored so far.  The result is the state
on return and the keys not read; `none` when the keys run out before the
routine returns. -/
def set_countdown_time_loop : List Char → List Char → State → Option (State × List Char)
  | [], _, _ => none
  | temp_input :: keys, input, s =>
    if temp_input = '0' ∧ input.length = 0 then
      if input.length < 3 then set_countdown_time_loop keys input s
      else some (set_countdown_commit input s, keys)
    else if temp_input = '*' then
      if input.length < 3 then set_countdown_time_loop keys input s
      else some (set_countdown_commit input s, keys)
    else if temp_input = '#' then
      some (s, keys)
    else if temp_input = '$' ∧ input.length > 0 then
      some (set_countdown_commit input s, keys)
    else if temp_input = '$' ∧ input.length = 0 then
      if input.length < 3 then set_countdown_time_loop keys input s
      else some (set_countdown_commit input s, keys)
    else
      let input1 := input ++ [temp_input]
      let s1 := LCDWriteStringXY 0 0 "                " s
      let s2 := LCDWriteStringXY 3 0 (String.mk (cstring input1)) s1
      let s3 := LCDWriteStringXY (3 + strlen input1) 0 " MIN(S)" s2
      if input1.length < 3 then set_countdown_time_loop keys input1 s3
      else some (set_countdown_commit input1 s3, keys)

/-- Source `set_countdown_time`. -/
def set_countdown_time (keys : List Char) (s : State) : Option (State × List Char) :=
  let s1 := LCDClear s
  let s2 := LCDWriteStringXY 0 0 "PRESS # > CANCEL" s1
  let s3 := LCDWriteStringXY 0 1 "HOLD * TO START" s2
  set_countdown_time_loop keys [] s3

/-- The loop of lines 398-401 of `settings`: reads keys until one is `'1'`,
`'2'` or `'#'`; the key found and the keys not read, or `none` when the keys
run out first. -/
def settings_choice : List Char → Option (Char × List Char)
  | [] => none
  | input :: keys =>
    if input ≠ '1' ∧ input ≠ '2' ∧ input ≠ '#' then settings_choice keys
    else some (input, keys)

/-- Source `settings`. -/
def settings (keys : List Char) (s : State) : Option (State × List Char) :=
  let s1 := LCDClear s
  let s2 := LCDWriteStringXY 0 0 "1. SET SOC LIMIT" s1
  let s3 := LCDWriteStringXY 0 1 "2. SET TIMER (m)" s2
  let s4 := LCDClear s3
  let s5 := LCDWriteStringXY 0 0 "PRESS # > CANCEL" s4
  match settings_choice keys with
  | none => none
  | some (input, rest) =>
    if input = '1' then set_soc_limit rest (LCDWriteStringXY 7 1 "1" s5)
    else if input = '2' then set_countdown_time rest (LCDWriteStringXY 7 1 "2" s5)
    else some (s5, rest)

/-- The variables a settings menu can commit hold the same values in `s1` as
in `s`. -/
def settings_unchanged (s s1 : State) : Prop :=
  s1.gSOC_Limit = s.gSOC_Limit ∧ s1.gCountdown_Time = s.gCountdown_Time
    ∧ s1.gSeconds_Count = s.gSeconds_Count ∧ s1.gMilli_Seconds = s.gMilli_Seconds
    ∧ s1.gCountdown_In_Progress = s.gCountdown_In_Progress

/-- Successive calls of `settings`, `n` of them, reading from one stream of
keys: the state after the last call and the keys not read; `none` when the
keys run out before the last call returns. -/
def settings_sessions : Nat → List Char → State → Option (State × List Char)
  | 0, keys, s => some (s, keys)
  | n + 1, keys, s =>
    match settings keys s with
    | none => none
    | some (s1, rest) => settings_sessions n rest s1

/-! ## Matrix keypad -/

/-- What the program reads on the keypad lines: `pin t c r` is the value of
`MATRIX_KEYPAD_INPUT_ENABLED(PBr)` (r = 4, 5, 6) at the `t`-th read of PINB,
taken while the output line PBc (c = 0, 1, 2, 3) is driven high. -/
abbrev KeypadPins := Nat → Nat → Nat → Bool

/-- The character the block for driven line PBc and sampled line PBr stores in
`input` (the PB3/PB4 block stores `'*'` or `'$'`, see `scan_key`). -/
def key_char : Nat → Nat → Char
  | 0, 4 => '1'
  | 0, 5 => '2'
  | 0, 6 => '3'
  | 1, 4 => '4'
  | 1, 5 => '5'
  | 1, 6 => '6'
  | 2, 4 => '7'
  | 2, 5 => '8'
  | 2, 6 => '9'
  | 3, 5 => '0'
  | 3, 6 => '#'
  | _, _ => NUL

/-- The loop `while(MATRIX_KEYPAD_INPUT_ENABLED(PBr));` with PBc driven, from
read `t` on: the number of the read after the one that ends the loop, or `none`
when the line is still active after `fuel` reads. -/
def wait_release (pin : KeypadPins) (c r : Nat) : Nat → Nat → Option Nat
  | 0, _ => none
  | fuel + 1, t =>
    if pin t c r = true then wait_release pin c r fuel (t + 1) else some (t + 1)

/-- The loop of lines 748-752, `while((MATRIX_KEYPAD_INPUT_ENABLED(PB4)) &&
internal_counts < 600) ++internal_counts;`, from read `t` on: the final
`internal_counts` and the number of the next read.  Every evaluation of the
condition reads PINB first.  With `fuel = 601` and `internal_counts = 0` the
loop always ends within the fuel. -/
def hold_loop (pin : KeypadPins) : Nat → Nat → Nat → Nat × Nat
  | 0, internal_counts, t => (internal_counts, t)
  | fuel + 1, internal_counts, t =>
    if pin t 3 4 = true ∧ internal_counts < 600 then
      hold_loop pin fuel (internal_counts + 1) (t + 1)
    else (internal_counts, t + 1)

/-- The body of the block `if(MATRIX_KEYPAD_INPUT_ENABLED(PBr)) { ... break; }`
with PBc driven, entered at read `t`: the character stored in `input` and the
number of the next read; `none` when the release wait does not end within
`fuel` reads. -/
def scan_key (pin : KeypadPins) (fuel : Nat) (c r t : Nat) : Option (Char × Nat) :=
  if c = 3 ∧ r = 4 then
    let h := hold_loop pin 601 0 t
    some (if h.1 > 599 then '$' else '*', h.2)
  else
    match wait_release pin c r fuel t with
    | none => none
    | some t1 => some (key_char c r, t1)

/-- One of the four blocks of the `while(count)` body: with PBc driven, test
PB4, PB5, PB6 in turn, from read `t` on.  `some (some input, t1)`: a key block
ran and the loop is left by `break`; `some (none, t1)`: no line read active. -/
def scan_column (pin : KeypadPins) (fuel : Nat) (c t : Nat) : Option (Option Char × Nat) :=
  if pin t c 4 = true then
    (scan_key pin fuel c 4 (t + 1)).map (fun p => (some p.1, p.2))
  else if pin (t + 1) c 5 = true then
    (scan_key pin fuel c 5 (t + 2)).map (fun p => (some p.1, p.2))
  else if pin (t + 2) c 6 = true then
    (scan_key pin fuel c 6 (t + 3)).map (fun p => (some p.1, p.2))
  else some (none, t + 3)

/-- The blocks for the driven lines in `cs`, in order, up to the first key. -/
def scan_columns (pin : KeypadPins) (fuel : Nat) : List Nat → Nat → Option (Option Char × Nat)
  | [], t => some (none, t)
  | c :: cs, t =>
    match scan_column pin fuel c t with
    | none => none
    | some (some input, t1) => some (some input, t1)
    | some (none, t1) => scan_columns pin fuel cs t1

/-- The loop `while(count)` of `scan_keypad_input`: the character returned and
the number of the next read, or `none` when the routine has not returned after
`fuel` column-scan cycles (or a release wait has not ended, see `scan_key`). -/
def scan_loop (pin : KeypadPins) (wait : Nat) : Nat → Int → Int → Nat → Option (Char × Nat)
  | 0, _, _, _ => none
  | fuel + 1, cycles, count, t =>
    if count = 0 then some (NUL, t)
    else
      match scan_columns pin wait [0, 1, 2, 3] t with
      | none => none
      | some (some input, t1) => some (input, t1)
      | some (none, t1) =>
        scan_loop pin wait fuel cycles (if cycles > 0 then count - 1 else count) t1

/-- The value of an `int16_t` expression: reduction to -32768 .. 32767. -/
def int16 (x : Int) : Int :=
  (x + 32768) % 65536 - 32768

/-- Source `scan_keypad_input(cycles)`, started at read `t`. -/
def scan_keypad_input (pin : KeypadPins) (fuel : Nat) (cycles : Int) (t : Nat) :
    Option (Char × Nat) :=
  let count := if cycles < 0 then int16 (-1 * cycles) else cycles
  scan_loop pin fuel fuel cycles count t

/-! ## Helper lemmas -/

theorem truncToInt_of_nonneg (q : ℚ) (h : 0 ≤ q) : truncToInt q = ⌊q⌋ := by
  simp [truncToInt, h]

theorem toU16_lt_of_lt (q : ℚ) (L : Nat) (h0 : 0 ≤ q) (h : q < (L : ℚ)) : toU16 q < L := by
  have hf : ⌊q⌋ < (L : Int) := Int.floor_lt.mpr (by exact_mod_cast h)
  have hn : 0 ≤ ⌊q⌋ := Int.floor_nonneg.mpr h0
  rw [toU16, truncToInt_of_nonneg q h0]
  omega

theorem toU16_eq_floor (q : ℚ) (h0 : 0 ≤ q) (h : q < 65536) : ((toU16 q : Nat) : Int) = ⌊q⌋ := by
  have hf : ⌊q⌋ < (65536 : Int) := Int.floor_lt.mpr (by exact_mod_cast h)
  have hn : 0 ≤ ⌊q⌋ := Int.floor_nonneg.mpr h0
  rw [toU16, truncToInt_of_nonneg q h0]
  omega

theorem soc_calculator_nonneg (v : ℚ) (h : 0 ≤ v) : 0 ≤ soc_calculator v := by
  unfold soc_calculator BATTERY_MAX_VOLTAGE
  positivity

theorem soc_calculator_adc (adc : Nat) :
    soc_calculator (battery_voltage_level adc) = 100 * (adc : ℚ) / 1023 := by
  unfold soc_calculator battery_voltage_level BATTERY_MAX_VOLTAGE
  ring

@[simp] theorem led_display_gBuzzer_On (level : ℚ) (s : State) :
    (led_display level s).gBuzzer_On = s.gBuzzer_On := by
  unfold led_display; split_ifs <;> simp [ENABLE_LED, DISABLE_LED]

@[simp] theorem led_display_gLoad_Supply_On (level : ℚ) (s : State) :
    (led_display level s).gLoad_Supply_On = s.gLoad_Supply_On := by
  unfold led_display; split_ifs <;> simp [ENABLE_LED, DISABLE_LED]

@[simp] theorem led_display_gBattery_Charging (level : ℚ) (s : State) :
    (led_display level s).gBattery_Charging = s.gBattery_Charging := by
  unfold led_display; split_ifs <;> simp [ENABLE_LED, DISABLE_LED]

@[simp] theorem led_display_gCountdown_In_Progress (level : ℚ) (s : State) :
    (led_display level s).gCountdown_In_Progress = s.gCountdown_In_Progress := by
  unfold led_display; split_ifs <;> simp [ENABLE_LED, DISABLE_LED]

@[simp] theorem led_display_gSOC_Limit (level : ℚ) (s : State) :
    (led_display level s).gSOC_Limit = s.gSOC_Limit := by
  unfold led_display; split_ifs <;> simp [ENABLE_LED, DISABLE_LED]

@[simp] theorem led_display_OCIE1A (level : ℚ) (s : State) :
    (led_display level s).OCIE1A = s.OCIE1A := by
  unfold led_display; split_ifs <;> simp [ENABLE_LED, DISABLE_LED]

@[simp] theorem status_block_gBuzzer_On (v soc : ℚ) (s : State) :
    (status_block v soc s).gBuzzer_On = s.gBuzzer_On := by
  unfold status_block; split_ifs <;> simp [LCDClear, LCDWriteStringXY, LCDWriteIntXY]

@[simp] theorem status_block_gLoad_Supply_On (v soc : ℚ) (s : State) :
    (status_block v soc s).gLoad_Supply_On = s.gLoad_Supply_On := by
  unfold status_block; split_ifs <;> simp [LCDClear, LCDWriteStringXY, LCDWriteIntXY]

@[simp] theorem status_block_gBattery_Charging (v soc : ℚ) (s : State) :
    (status_block v soc s).gBattery_Charging = s.gBattery_Charging := by
  unfold status_block; split_ifs <;> simp [LCDClear, LCDWriteStringXY, LCDWriteIntXY]

@[simp] theorem status_block_gCountdown_In_Progress (v soc : ℚ) (s : State) :
    (status_block v soc s).gCountdown_In_Progress = s.gCountdown_In_Progress := by
  unfold status_block; split_ifs <;> simp [LCDClear, LCDWriteStringXY, LCDWriteIntXY]

@[simp] theorem status_block_OCIE1A (v soc : ℚ) (s : State) :
    (status_block v soc s).OCIE1A = s.OCIE1A := by
  unfold status_block; split_ifs <;> simp [LCDClear, LCDWriteStringXY, LCDWriteIntXY]

@[simp] theorem status_block_PA0 (v soc : ℚ) (s : State) :
    (status_block v soc s).PA0 = s.PA0 := by
  unfold status_block; split_ifs <;> simp [LCDClear, LCDWriteStringXY, LCDWriteIntXY]

theorem status_block_lcd_mem (v soc : ℚ) (s : State) (op : LcdOp) (h : op ∈ s.lcd) :
    op ∈ (status_block v soc s).lcd := by
  unfold status_block
  split_ifs
  · simp [LCDClear, LCDWriteStringXY, LCDWriteIntXY, h]
  · exact h

@[simp] theorem charging_block_gLoad_Supply_On (soc : ℚ) (e : Bool) (s : State) :
    (charging_block soc e s).gLoad_Supply_On = s.gLoad_Supply_On := by
  simp only [charging_block, BUZZER_OFF, BATTERY_CHARGE_ON, BATTERY_CHARGE_OFF, LCDClear, LCDWriteStringXY]; split_ifs <;> rfl

@[simp] theorem charging_block_gCountdown_In_Progress (soc : ℚ) (e : Bool) (s : State) :
    (charging_block soc e s).gCountdown_In_Progress = s.gCountdown_In_Progress := by
  simp only [charging_block, BUZZER_OFF, BATTERY_CHARGE_ON, BATTERY_CHARGE_OFF, LCDClear, LCDWriteStringXY]; split_ifs <;> rfl

@[simp] theorem charging_block_OCIE1A (soc : ℚ) (e : Bool) (s : State) :
    (charging_block soc e s).OCIE1A = s.OCIE1A := by
  simp only [charging_block, BUZZER_OFF, BATTERY_CHARGE_ON, BATTERY_CHARGE_OFF, LCDClear, LCDWriteStringXY]; split_ifs <;> rfl

@[simp] theorem charging_block_PA0 (soc : ℚ) (e : Bool) (s : State) :
    (charging_block soc e s).PA0 = s.PA0 := by
  simp only [charging_block, BUZZER_OFF, BATTERY_CHARGE_ON, BATTERY_CHARGE_OFF, LCDClear, LCDWriteStringXY]; split_ifs <;> rfl

theorem charging_block_no_power (soc : ℚ) (s : State) : charging_block soc false s = s := by
  simp [charging_block]

theorem charging_block_buzzer_off (soc : ℚ) (e : Bool) (s : State)
    (h : s.gBuzzer_On = false) : (charging_block soc e s).gBuzzer_On = false := by
  by_cases h1 : soc ≥ 95 <;> by_cases h2 : soc < 90 <;> cases e <;>
    cases h3 : s.gBattery_Charging <;>
    simp [charging_block, BUZZER_OFF, BATTERY_CHARGE_ON, BATTERY_CHARGE_OFF, LCDClear,
      LCDWriteStringXY, h, h1, h2, h3]

theorem charging_block_lcd_mem (soc : ℚ) (e : Bool) (s : State) (op : LcdOp) (h : op ∈ s.lcd) :
    op ∈ (charging_block soc e s).lcd := by
  by_cases h1 : soc ≥ 95 <;> by_cases h2 : soc < 90 <;> cases e <;>
    cases h3 : s.gBattery_Charging <;> cases h4 : s.gBuzzer_On <;>
    simp [charging_block, BUZZER_OFF, BATTERY_CHARGE_ON, BATTERY_CHARGE_OFF, LCDClear,
      LCDWriteStringXY, h, h1, h2, h3, h4]

@[simp] theorem load_block_gBattery_Charging (soc : ℚ) (s : State) :
    (load_block soc s).gBattery_Charging = s.gBattery_Charging := by
  simp only [load_block, low_battery_block, sufficient_battery_block, terminate_countdown,
    BUZZER_ON, BUZZER_OFF, LOAD_SUPPLY_ON, LOAD_SUPPLY_OFF, LCDClear, LCDWriteStringXY]
  split_ifs <;> rfl

@[simp] theorem low_battery_block_gLoad_Supply_On (soc : ℚ) (s : State) :
    (low_battery_block soc s).gLoad_Supply_On = false := by
  by_cases h1 : toU16 soc < 45 <;> cases h2 : s.gBattery_Charging <;>
    cases h3 : s.gBuzzer_On <;> cases h4 : s.gLoad_Supply_On <;>
    cases h5 : s.gCountdown_In_Progress <;>
    simp [low_battery_block, terminate_countdown, LOAD_SUPPLY_OFF, BUZZER_ON, LCDClear,
      LCDWriteStringXY, h1, h2, h3, h4, h5]

theorem low_battery_block_terminate (soc : ℚ) (s : State)
    (hl : s.gLoad_Supply_On = true) (hc : s.gCountdown_In_Progress = true) :
    (low_battery_block soc s).OCIE1A = false ∧ (low_battery_block soc s).PA0 = false
      ∧ PortCmd.loadSupplyOff ∈ (low_battery_block soc s).out := by
  by_cases h1 : toU16 soc < 45 <;> cases h2 : s.gBattery_Charging <;>
    cases h3 : s.gBuzzer_On <;>
    simp [low_battery_block, terminate_countdown, LOAD_SUPPLY_OFF, BUZZER_ON, LCDClear,
      LCDWriteStringXY, h1, h2, h3, hl, hc]

theorem low_battery_block_lcd (soc : ℚ) (s : State) :
    LcdOp.writeString 2 0 "BATTERY LOW" ∈ (low_battery_block soc s).lcd := by
  simp [low_battery_block, LCDClear, LCDWriteStringXY]

theorem low_battery_block_buzzer (soc : ℚ) (s : State) (hc : s.gBattery_Charging = false)
    (h : toU16 soc < 45) : (low_battery_block soc s).gBuzzer_On = true := by
  cases h3 : s.gBuzzer_On <;> cases h4 : s.gLoad_Supply_On <;>
    cases h5 : s.gCountdown_In_Progress <;>
    simp [low_battery_block, terminate_countdown, LOAD_SUPPLY_OFF, BUZZER_ON, LCDClear,
      LCDWriteStringXY, h, hc, h3, h4, h5]

theorem sufficient_battery_block_spec (s : State) :
    (sufficient_battery_block s).gLoad_Supply_On = true
      ∧ (sufficient_battery_block s).gBuzzer_On = false := by
  cases h : s.gBuzzer_On <;> simp [sufficient_battery_block, BUZZER_OFF, LOAD_SUPPLY_ON, h]

theorem toU16_eq_of_bounds (q : ℚ) (n : Nat) (h1 : (n : ℚ) ≤ q) (h2 : q < (n : ℚ) + 1)
    (hn : n < 65536) : toU16 q = n := by
  have h0 : 0 ≤ q := le_trans (Nat.cast_nonneg n) h1
  have hf : ⌊q⌋ = (n : Int) := by
    rw [Int.floor_eq_iff]
    exact ⟨by exact_mod_cast h1, by exact_mod_cast h2⟩
  rw [toU16, truncToInt_of_nonneg q h0, hf]
  omega

/-! ## Battery manager: load cutoff and connection -/

/-- C1. Low-battery cutoff: if at entry gBattery_Charging is FALSE and the SOC
reading (non-negative, constant during the tick) is below gSOC_Limit, then
gLoad_Supply_On is FALSE when battery_manager returns, whether or not a
countdown is in progress; and if the load was on with a countdown in progress,
the cutoff is the one of terminate_countdown: the load pin is driven low by
LOAD_SUPPLY_OFF and the compare-match interrupt is disabled on return. -/
theorem low_battery_cutoff (v : ℚ) (extPower : Bool) (s : State)
    (hv : 0 ≤ v) (hc : s.gBattery_Charging = false)
    (hlow : soc_calculator v < (s.gSOC_Limit : ℚ)) :
    (battery_manager v extPower s).gLoad_Supply_On = false
      ∧ (s.gLoad_Supply_On = true → s.gCountdown_In_Progress = true →
          (battery_manager v extPower s).OCIE1A = false
            ∧ (battery_manager v extPower s).PA0 = false
            ∧ load_block (soc_calculator v) (led_display (soc_calculator v) s)
                = low_battery_block (soc_calculator v) (led_display (soc_calculator v) s)
            ∧ PortCmd.loadSupplyOff ∈
                (load_block (soc_calculator v) (led_display (soc_calculator v) s)).out) := by
  have h16 : toU16 (soc_calculator v) < s.gSOC_Limit :=
    toU16_lt_of_lt _ _ (soc_calculator_nonneg v hv) hlow
  have hlb : load_block (soc_calculator v) (led_display (soc_calculator v) s)
      = low_battery_block (soc_calculator v) (led_display (soc_calculator v) s) := by
    simp [load_block, h16, hc]
  refine ⟨?_, ?_⟩
  · simp [battery_manager, hlb]
  · intro hl hcd
    have ht := low_battery_block_terminate (soc_calculator v)
      (led_display (soc_calculator v) s) (by simpa using hl) (by simpa using hcd)
    refine ⟨?_, ?_, hlb, ?_⟩
    · simpa [battery_manager, hlb] using ht.1
    · simpa [battery_manager, hlb] using ht.2.1
    · rw [hlb]; exact ht.2.2

/-- Witness of `low_battery_cutoff`: SOC 40 against the limit 50 with the load
on and a countdown running. -/
theorem low_battery_cutoff_witness :
    (battery_manager (24 / 5) false
        { State.init with gLoad_Supply_On := true, gCountdown_In_Progress := true,
                          OCIE1A := true, PA0 := true }).gLoad_Supply_On = false :=
  (low_battery_cutoff (24 / 5) false
    { State.init with gLoad_Supply_On := true, gCountdown_In_Progress := true,
                      OCIE1A := true, PA0 := true }
    (by norm_num) rfl
    (by simp [soc_calculator, BATTERY_MAX_VOLTAGE, State.init, DEFAULT_SOC_VALUE]; norm_num)).1

theorem low_battery_tick_not_charging (v : ℚ) (s : State)
    (hsoc : toU16 (soc_calculator v) = 40) (hlim : s.gSOC_Limit = 50)
    (hc : s.gBattery_Charging = false) :
    (battery_manager v false s).gLoad_Supply_On = false
      ∧ (battery_manager v false s).gBuzzer_On = true
      ∧ LcdOp.writeString 2 0 "BATTERY LOW" ∈ (battery_manager v false s).lcd := by
  have hlb : load_block (soc_calculator v) (led_display (soc_calculator v) s)
      = low_battery_block (soc_calculator v) (led_display (soc_calculator v) s) := by
    simp [load_block, hsoc, hc, hlim]
  refine ⟨?_, ?_, ?_⟩
  · simp [battery_manager, hlb]
  · simp only [battery_manager, hlb, charging_block_no_power, status_block_gBuzzer_On]
    exact low_battery_block_buzzer _ _ (by simpa using hc) (by rw [hsoc]; norm_num)
  · simp only [battery_manager, hlb, charging_block_no_power]
    exact status_block_lcd_mem _ _ _ _ (low_battery_block_lcd _ _)

theorem led_display_lcd (level : ℚ) (s : State) : (led_display level s).lcd = s.lcd := by
  unfold led_display; split_ifs <;> simp [ENABLE_LED, DISABLE_LED]

theorem status_block_lcd_not_mem (v soc : ℚ) (s : State)
    (h : LcdOp.writeString 2 0 "BATTERY LOW" ∉ s.lcd) :
    LcdOp.writeString 2 0 "BATTERY LOW" ∉ (status_block v soc s).lcd := by
  unfold status_block
  split_ifs
  · simp [LCDClear, LCDWriteStringXY, LCDWriteIntXY, h]
  · exact h

theorem stale_charging_tick (v : ℚ) (s : State)
    (hsoc : toU16 (soc_calculator v) < s.gSOC_Limit) (hc : s.gBattery_Charging = true) :
    (battery_manager v false s).gBattery_Charging = true
      ∧ (battery_manager v false s).gLoad_Supply_On = s.gLoad_Supply_On
      ∧ (battery_manager v false s).gBuzzer_On = s.gBuzzer_On
      ∧ (LcdOp.writeString 2 0 "BATTERY LOW" ∉ s.lcd →
          LcdOp.writeString 2 0 "BATTERY LOW" ∉ (battery_manager v false s).lcd) := by
  have h2 : ¬ toU16 (soc_calculator v) > s.gSOC_Limit := by omega
  have hlb : load_block (soc_calculator v) (led_display (soc_calculator v) s)
      = led_display (soc_calculator v) s := by
    simp [load_block, hc, h2]
  refine ⟨?_, ?_, ?_, ?_⟩
  · simp [battery_manager, hlb, charging_block_no_power, hc]
  · simp [battery_manager, hlb, charging_block_no_power]
  · simp [battery_manager, hlb, charging_block_no_power]
  · intro h
    simp only [battery_manager, hlb, charging_block_no_power]
    apply status_block_lcd_not_mem
    rw [led_display_lcd]
    exact h

theorem first_tick_charging (v : ℚ) (h58 : toU16 (soc_calculator v) = 58)
    (hlt : soc_calculator v < 90) :
    (battery_manager v true State.init).gSOC_Limit = 50
      ∧ (battery_manager v true State.init).gLoad_Supply_On = true
      ∧ (battery_manager v true State.init).gBattery_Charging = true
      ∧ (battery_manager v true State.init).gBuzzer_On = false
      ∧ LcdOp.writeString 2 0 "BATTERY LOW" ∉ (battery_manager v true State.init).lcd := by
  have hge : ¬ soc_calculator v ≥ 95 := by
    intro h
    have : (95 : ℚ) < 90 := lt_of_le_of_lt h hlt
    norm_num at this
  have hl : load_block (soc_calculator v) (led_display (soc_calculator v) State.init)
      = sufficient_battery_block (led_display (soc_calculator v) State.init) := by
    simp [load_block, h58, State.init, DEFAULT_SOC_VALUE]
  simp only [battery_manager, hl]
  simp [charging_block, status_block, sufficient_battery_block, hlt, hge, LCDClear,
    LCDWriteStringXY, LCDWriteIntXY, LOAD_SUPPLY_ON, BATTERY_CHARGE_ON, BUZZER_OFF,
    led_display_lcd]
  simp [State.init, DEFAULT_SOC_VALUE, led_display_lcd]

/-- C2, in the code: two ticks from power-up.  The first tick, at the ADC
reading 600 (SOC 58) with external power, connects the load and starts
charging; external power is then removed.  The second tick is the tick of the
claim: ADC reading 410, whose SOC 41000/1023 = 40.07.. is compared and shown as
40, gSOC_Limit = 50, no external power.  gBattery_Charging is still TRUE, and
the tick ends with gLoad_Supply_On = TRUE and gBuzzer_On = FALSE, and no
BATTERY LOW has been rendered. -/
theorem end_to_end_low_battery_stale_charging :
    toU16 (soc_calculator (battery_voltage_level 410)) = 40
      ∧ (battery_manager (battery_voltage_level 600) true State.init).gSOC_Limit = 50
      ∧ (battery_manager (battery_voltage_level 600) true State.init).gLoad_Supply_On = true
      ∧ (battery_manager (battery_voltage_level 600) true State.init).gBattery_Charging = true
      ∧ (battery_manager_ticks
          [(battery_voltage_level 600, true), (battery_voltage_level 410, false)]
          State.init).gBattery_Charging = true
      ∧ (battery_manager_ticks
          [(battery_voltage_level 600, true), (battery_voltage_level 410, false)]
          State.init).gLoad_Supply_On = true
      ∧ (battery_manager_ticks
          [(battery_voltage_level 600, true), (battery_voltage_level 410, false)]
          State.init).gBuzzer_On = false
      ∧ LcdOp.writeString 2 0 "BATTERY LOW" ∉
          (battery_manager_ticks
            [(battery_voltage_level 600, true), (battery_voltage_level 410, false)]
            State.init).lcd := by
  have h410 : toU16 (soc_calculator (battery_voltage_level 410)) = 40 := by
    apply toU16_eq_of_bounds <;> (try rw [soc_calculator_adc]) <;> norm_num
  have h600 : toU16 (soc_calculator (battery_voltage_level 600)) = 58 := by
    apply toU16_eq_of_bounds <;> (try rw [soc_calculator_adc]) <;> norm_num
  have hlt : soc_calculator (battery_voltage_level 600) < 90 := by
    rw [soc_calculator_adc]; norm_num
  have hs1 := first_tick_charging (battery_voltage_level 600) h600 hlt
  obtain ⟨a1, a2, a3, a4, a5⟩ := hs1
  have hst := stale_charging_tick (battery_voltage_level 410)
    (battery_manager (battery_voltage_level 600) true State.init) (by rw [h410, a1]; norm_num) a3
  refine ⟨h410, a1, a2, a3, ?_, ?_, ?_, ?_⟩
  · simp only [battery_manager_ticks, hst.1]
  · simp only [battery_manager_ticks, hst.2.1, a2]
  · simp only [battery_manager_ticks, hst.2.2.1, a4]
  · simp only [battery_manager_ticks]
    exact hst.2.2.2 a5

/-- C3, as stated, fails: at the ADC reading 512 the SOC is 51200/1023, above
the limit 50 as a real number, but its integer part is 50, and a tick entered
with no countdown and the load off leaves the load off. -/
theorem sufficient_battery_counterexample :
    (512 : Nat) ≤ 1023
      ∧ ((State.init).gSOC_Limit : ℚ) < soc_calculator (battery_voltage_level 512)
      ∧ (State.init).gCountdown_In_Progress = false
      ∧ (State.init).gLoad_Supply_On = false
      ∧ (battery_manager (battery_voltage_level 512) false State.init).gLoad_Supply_On = false := by
  have h512 : toU16 (soc_calculator (battery_voltage_level 512)) = 50 := by
    apply toU16_eq_of_bounds <;> (try rw [soc_calculator_adc]) <;> norm_num
  refine ⟨by norm_num, ?_, rfl, rfl, ?_⟩
  · rw [soc_calculator_adc]; norm_num [State.init, DEFAULT_SOC_VALUE]
  · simp [battery_manager, load_block, charging_block_no_power, State.init, h512,
      DEFAULT_SOC_VALUE]

/-- C3, amended: for every tick entered with no countdown in progress,
gLoad_Supply_On FALSE, and an ADC reading adc in 0..1023 whose SOC
100*adc/1023 has an integer part strictly greater than gSOC_Limit (that is,
SOC >= gSOC_Limit + 1), the tick ends with gLoad_Supply_On = TRUE and
gBuzzer_On = FALSE. -/
theorem sufficient_battery_connects (adc : Nat) (extPower : Bool) (s : State)
    (hadc : adc ≤ 1023) (hcd : s.gCountdown_In_Progress = false)
    (hl : s.gLoad_Supply_On = false)
    (hsoc : (s.gSOC_Limit : ℚ) + 1 ≤ 100 * (adc : ℚ) / 1023) :
    (battery_manager (battery_voltage_level adc) extPower s).gLoad_Supply_On = true
      ∧ (battery_manager (battery_voltage_level adc) extPower s).gBuzzer_On = false := by
  have hq : soc_calculator (battery_voltage_level adc) = 100 * (adc : ℚ) / 1023 :=
    soc_calculator_adc adc
  have hadc' : (adc : ℚ) ≤ 1023 := by exact_mod_cast hadc
  have h0 : (0 : ℚ) ≤ 100 * (adc : ℚ) / 1023 := by positivity
  have hlt : 100 * (adc : ℚ) / 1023 < 65536 := by
    rw [div_lt_iff₀ (by norm_num)]; linarith
  have hfl := toU16_eq_floor _ h0 hlt
  have hge : ((s.gSOC_Limit : Int) + 1) ≤ ⌊100 * (adc : ℚ) / 1023⌋ :=
    Int.le_floor.mpr (by push_cast; exact hsoc)
  have hgt : toU16 (100 * (adc : ℚ) / 1023) > s.gSOC_Limit := by omega
  have hsb : load_block (100 * (adc : ℚ) / 1023) (led_display (100 * (adc : ℚ) / 1023) s)
      = sufficient_battery_block (led_display (100 * (adc : ℚ) / 1023) s) := by
    have hnlt : ¬ toU16 (100 * (adc : ℚ) / 1023) < s.gSOC_Limit := by omega
    simp [load_block, hnlt, hgt, hcd, hl]
  have hsp := sufficient_battery_block_spec (led_display (100 * (adc : ℚ) / 1023) s)
  refine ⟨?_, ?_⟩
  · simp [battery_manager, hq, hsb, hsp.1]
  · simp only [battery_manager, hq, hsb, status_block_gBuzzer_On]
    exact charging_block_buzzer_off _ _ _ hsp.2

/-- Witness of `sufficient_battery_connects`: ADC reading 600 (SOC about 58.6)
against the limit 50. -/
theorem sufficient_battery_connects_witness :
    (battery_manager (battery_voltage_level 600) true
        { State.init with gBuzzer_On := true }).gLoad_Supply_On = true
      ∧ (battery_manager (battery_voltage_level 600) true
        { State.init with gBuzzer_On := true }).gBuzzer_On = false :=
  sufficient_battery_connects 600 true { State.init with gBuzzer_On := true }
    (by norm_num) rfl rfl (by norm_num [State.init, DEFAULT_SOC_VALUE])

/-! ## Battery manager: charging -/

theorem charging_block_gBattery_Charging (soc : ℚ) (e : Bool) (s : State) :
    (charging_block soc e s).gBattery_Charging =
      if e = true ∧ soc ≥ 95 ∧ s.gBattery_Charging = true then false
      else if e = true ∧ soc < 90 ∧ s.gBattery_Charging = false then true
      else s.gBattery_Charging := by
  by_cases h1 : soc ≥ 95 <;> by_cases h2 : soc < 90 <;> cases e <;>
    cases h3 : s.gBattery_Charging <;> cases h4 : s.gBuzzer_On <;>
    simp [charging_block, BUZZER_OFF, BATTERY_CHARGE_ON, BATTERY_CHARGE_OFF, LCDClear,
      LCDWriteStringXY, h1, h2, h3, h4]

theorem battery_manager_gBattery_Charging (v : ℚ) (e : Bool) (s : State) :
    (battery_manager v e s).gBattery_Charging =
      if e = true ∧ soc_calculator v ≥ 95 ∧ s.gBattery_Charging = true then false
      else if e = true ∧ soc_calculator v < 90 ∧ s.gBattery_Charging = false then true
      else s.gBattery_Charging := by
  simp [battery_manager, charging_block_gBattery_Charging]

theorem battery_manager_ticks_stays_charging (ts : List (ℚ × Bool)) :
    ∀ s : State, (∀ t ∈ ts, soc_calculator t.1 < 95) → s.gBattery_Charging = true →
      (battery_manager_ticks ts s).gBattery_Charging = true := by
  induction ts with
  | nil => intro s _ h; exact h
  | cons t ts ih =>
    intro s hall hs
    have ht : soc_calculator t.1 < 95 := hall t (List.mem_cons_self _ _)
    have hnot : ¬ soc_calculator t.1 ≥ 95 := not_le.mpr ht
    apply ih
    · intro u hu; exact hall u (List.mem_cons_of_mem _ hu)
    · rw [battery_manager_gBattery_Charging]; simp [hs, hnot]

/-- C4. Charge hysteresis over every sequence of battery_manager ticks: at the
tick that follows any sequence of ticks, gBattery_Charging changes from FALSE to
TRUE only with external power present and SOC < 90; it stays TRUE when the SOC
is below 95; it changes from TRUE to FALSE only with SOC >= 95; and once TRUE
it is TRUE after every further sequence of ticks whose SOC readings are all
below 95. -/
theorem charge_hysteresis (s0 : State) (before : List (ℚ × Bool)) (v : ℚ) (extPower : Bool)
    (after : List (ℚ × Bool)) :
    ((battery_manager_ticks before s0).gBattery_Charging = false →
        (battery_manager v extPower (battery_manager_ticks before s0)).gBattery_Charging = true →
        extPower = true ∧ soc_calculator v < 90)
      ∧ ((battery_manager_ticks before s0).gBattery_Charging = true →
        soc_calculator v < 95 →
        (battery_manager v extPower (battery_manager_ticks before s0)).gBattery_Charging = true)
      ∧ ((battery_manager_ticks before s0).gBattery_Charging = true →
        (battery_manager v extPower (battery_manager_ticks before s0)).gBattery_Charging = false →
        soc_calculator v ≥ 95)
      ∧ ((battery_manager_ticks before s0).gBattery_Charging = true →
        (∀ t ∈ after, soc_calculator t.1 < 95) →
        (battery_manager_ticks after (battery_manager_ticks before s0)).gBattery_Charging
          = true) := by
  refine ⟨?_, ?_, ?_, ?_⟩
  · intro h0 h1
    rw [battery_manager_gBattery_Charging] at h1
    by_cases hc : extPower = true ∧ soc_calculator v < 90
    · exact hc
    · simp [h0] at h1
      exact absurd ⟨h1.1, h1.2⟩ hc
  · intro h0 hlt
    rw [battery_manager_gBattery_Charging]
    have hnot : ¬ soc_calculator v ≥ 95 := not_le.mpr hlt
    simp [h0, hnot]
  · intro h0 h1
    rw [battery_manager_gBattery_Charging] at h1
    by_contra hnot
    simp [h0, hnot] at h1
  · intro h0 hall
    exact battery_manager_ticks_stays_charging after _ hall h0

/-- Witness of `charge_hysteresis`: charging starts at SOC 50 with external
power, and is still on after two ticks at SOC 92 (one of them without external
power) and at the next tick at SOC 94. -/
theorem charge_hysteresis_witness :
    (battery_manager_ticks [(6, true)] State.init).gBattery_Charging = true
      ∧ (battery_manager (1128 / 100) true
          (battery_manager_ticks [(6, true)] State.init)).gBattery_Charging = true
      ∧ (battery_manager_ticks [(1104 / 100, true), (1104 / 100, false)]
          (battery_manager_ticks [(6, true)] State.init)).gBattery_Charging = true := by
  have h6 : (battery_manager_ticks [(6, true)] State.init).gBattery_Charging = true := by
    simp only [battery_manager_ticks]
    rw [battery_manager_gBattery_Charging]
    norm_num [soc_calculator, BATTERY_MAX_VOLTAGE, State.init]
  have h := charge_hysteresis State.init [(6, true)] (1128 / 100) true
    [(1104 / 100, true), (1104 / 100, false)]
  refine ⟨h6, h.2.1 h6 (by norm_num [soc_calculator, BATTERY_MAX_VOLTAGE]), h.2.2.2 h6 ?_⟩
  intro t ht
  simp only [List.mem_cons, List.mem_singleton, List.not_mem_nil, or_false] at ht
  rcases ht with rfl | rfl <;> norm_num [soc_calculator, BATTERY_MAX_VOLTAGE]

/-! ## Countdown timer -/

theorem isr_idle (s : State) (hS : s.gSeconds_Count ≠ 0) (hM : s.gMilli_Seconds + 1 < 1000) :
    TIMER1_COMPA_vect [] s =
      { state := { s with gMilli_Seconds := s.gMilli_Seconds + 1 }, keys := [], events := [],
        returned := true } := by
  have h1 : (s.gMilli_Seconds + 1) % 65536 = s.gMilli_Seconds + 1 := by omega
  have h2 : s.gMilli_Seconds + 1 ≠ 1000 := by omega
  simp [TIMER1_COMPA_vect, isr_millis, h1, h2, hS]

theorem countdown_run_idle (k : Nat) :
    ∀ s : State, s.gSeconds_Count ≠ 0 → s.gMilli_Seconds + k < 1000 →
      countdown_run k s = ({ s with gMilli_Seconds := s.gMilli_Seconds + k }, []) := by
  induction k with
  | zero => intro s _ _; simp [countdown_run]
  | succ k ih =>
    intro s hS hM
    have h := isr_idle s hS (by omega)
    simp only [countdown_run, h]
    rw [ih _ (by simpa using hS) (by simp; omega)]
    simp [Nat.add_assoc, Nat.add_comm 1 k]

theorem isr_not_returned (keys : List Char) (s : State)
    (h : (TIMER1_COMPA_vect keys s).returned = false) :
    IsrEvent.expired ∈ (TIMER1_COMPA_vect keys s).events := by
  simp only [TIMER1_COMPA_vect] at h ⊢
  split_ifs at h ⊢
  unfold isr_expired
  split <;> simp

theorem countdown_run_add (a b : Nat) :
    ∀ s : State, IsrEvent.expired ∉ (countdown_run a s).2 →
      countdown_run (a + b) s =
        ((countdown_run b (countdown_run a s).1).1,
          (countdown_run a s).2 ++ (countdown_run b (countdown_run a s).1).2) := by
  induction a with
  | zero => intro s _; simp [countdown_run]
  | succ a ih =>
    intro s hne
    have e : a + 1 + b = (a + b) + 1 := by omega
    rw [e]
    simp only [countdown_run] at hne ⊢
    by_cases hr : (TIMER1_COMPA_vect [] s).returned = true
    · simp only [hr, if_true] at hne ⊢
      have hne' : IsrEvent.expired ∉ (countdown_run a (TIMER1_COMPA_vect [] s).state).2 := by
        intro hc; exact hne (List.mem_append_right _ hc)
      rw [ih _ hne']
      simp [List.append_assoc]
    · exfalso
      have hf : (TIMER1_COMPA_vect [] s).returned = false := by simpa using hr
      simp only [hf] at hne
      exact hne (by simpa using isr_not_returned [] s hf)

theorem countdown_run_expired_mono (a b : Nat) :
    ∀ s : State, IsrEvent.expired ∈ (countdown_run a s).2 →
      IsrEvent.expired ∈ (countdown_run (a + b) s).2 := by
  induction a with
  | zero => intro s h; simp [countdown_run] at h
  | succ a ih =>
    intro s h
    have e : a + 1 + b = (a + b) + 1 := by omega
    rw [e]
    simp only [countdown_run] at h ⊢
    by_cases hr : (TIMER1_COMPA_vect [] s).returned = true
    · simp only [hr, if_true] at h ⊢
      rcases List.mem_append.mp h with h1 | h1
      · exact List.mem_append_left _ h1
      · exact List.mem_append_right _ (ih _ h1)
    · have hf : (TIMER1_COMPA_vect [] s).returned = false := by simpa using hr
      simp only [hf] at h ⊢
      exact h

theorem isr_second (s : State) (hM : s.gMilli_Seconds = 999) (hS : 2 ≤ s.gSeconds_Count)
    (hS2 : s.gSeconds_Count ≤ 255) :
    ∃ s1 : State, TIMER1_COMPA_vect [] s =
        { state := s1, keys := [], events := [IsrEvent.secondDecrement], returned := true }
      ∧ s1.gCountdown_Time = s.gCountdown_Time
      ∧ s1.gSeconds_Count = s.gSeconds_Count - 1 ∧ s1.gMilli_Seconds = 0 := by
  have h1 : (s.gSeconds_Count + 255) % 256 = s.gSeconds_Count - 1 := by omega
  have h2 : s.gSeconds_Count - 1 ≠ 0 := by omega
  refine ⟨(TIMER1_COMPA_vect [] s).state, ?_, ?_, ?_, ?_⟩ <;>
    simp [TIMER1_COMPA_vect, isr_millis, hM, h1, h2, LCDWriteIntXY]

theorem isr_minute_step (s : State) (hM : s.gMilli_Seconds = 999) (hS : s.gSeconds_Count = 1)
    (hT : 0 < s.gCountdown_Time) (hT2 : s.gCountdown_Time < 65536) :
    ∃ s1 : State, TIMER1_COMPA_vect [] s =
        { state := s1, keys := [],
          events := [IsrEvent.secondDecrement, IsrEvent.minuteDecrement], returned := true }
      ∧ s1.gCountdown_Time = s.gCountdown_Time - 1
      ∧ s1.gSeconds_Count = 59 ∧ s1.gMilli_Seconds = 0 := by
  have h1 : (s.gCountdown_Time + 65535) % 65536 = s.gCountdown_Time - 1 := by omega
  have h2 : s.gCountdown_Time ≠ 0 := by omega
  refine ⟨(TIMER1_COMPA_vect [] s).state, ?_, ?_, ?_, ?_⟩ <;>
    simp [TIMER1_COMPA_vect, isr_millis, isr_minute, hM, hS, h1, h2, LCDWriteIntXY]

theorem isr_expire (s : State) (hM : s.gMilli_Seconds = 999) (hS : s.gSeconds_Count = 1)
    (hT : s.gCountdown_Time = 0) :
    ∃ s1 : State, TIMER1_COMPA_vect [] s =
        { state := s1, keys := [],
          events := [IsrEvent.secondDecrement, IsrEvent.expired], returned := false }
      ∧ s1.gCountdown_Time = 0 ∧ s1.gSeconds_Count = 0 ∧ s1.gMilli_Seconds = 0 := by
  refine ⟨(TIMER1_COMPA_vect [] s).state, ?_, ?_, ?_, ?_⟩ <;>
    simp [TIMER1_COMPA_vect, isr_millis, isr_expired, wait_for_hash, terminate_countdown,
      LOAD_SUPPLY_OFF, hM, hS, hT, LCDWriteIntXY, LCDWriteStringXY]

theorem countdown_run_one (s : State) :
    countdown_run 1 s = ((TIMER1_COMPA_vect [] s).state, (TIMER1_COMPA_vect [] s).events) := by
  simp only [countdown_run]
  split_ifs <;> simp

theorem countdown_run_1000 (s : State) (hS : s.gSeconds_Count ≠ 0) (hM : s.gMilli_Seconds = 0) :
    countdown_run 1000 s =
      ((TIMER1_COMPA_vect [] { s with gMilli_Seconds := 999 }).state,
        (TIMER1_COMPA_vect [] { s with gMilli_Seconds := 999 }).events) := by
  have h999 := countdown_run_idle 999 s hS (by omega)
  have hadd := countdown_run_add 999 1 s (by rw [h999]; simp)
  rw [h999] at hadd
  simp only [hM, Nat.zero_add, List.nil_append] at hadd
  have e : 999 + 1 = 1000 := rfl
  rw [e] at hadd
  rw [hadd, countdown_run_one]

theorem countdown_run_seconds (j : Nat) :
    ∀ s : State, s.gMilli_Seconds = 0 → j < s.gSeconds_Count → s.gSeconds_Count ≤ 255 →
      ∃ s1 : State, countdown_run (1000 * j) s = (s1, List.replicate j IsrEvent.secondDecrement)
        ∧ s1.gCountdown_Time = s.gCountdown_Time
        ∧ s1.gSeconds_Count = s.gSeconds_Count - j ∧ s1.gMilli_Seconds = 0 := by
  induction j with
  | zero => intro s hM _ _; exact ⟨s, by simp [countdown_run], rfl, rfl, hM⟩
  | succ j ih =>
    intro s hM hj hS
    obtain ⟨s1, hrun, hT1, hS1, hM1⟩ := ih s hM (by omega) hS
    have hadd := countdown_run_add (1000 * j) 1000 s (by rw [hrun]; simp)
    rw [hrun] at hadd
    simp only at hadd
    rw [countdown_run_1000 s1 (by omega) hM1] at hadd
    obtain ⟨s2, hisr, hT2, hS2, hM2⟩ :=
      isr_second { s1 with gMilli_Seconds := 999 } rfl (by simp; omega) (by simp; omega)
    rw [hisr] at hadd
    refine ⟨s2, ?_, ?_, ?_, hM2⟩
    · have e : 1000 * (j + 1) = 1000 * j + 1000 := by ring
      rw [e, hadd]
      simp [List.replicate_succ']
    · rw [hT2]; exact hT1
    · rw [hS2]; simp; omega

theorem countdown_run_minute (s : State) (hM : s.gMilli_Seconds = 0)
    (hS : s.gSeconds_Count = 59) (hT : 0 < s.gCountdown_Time) (hT2 : s.gCountdown_Time < 65536) :
    ∃ s1 : State, ∃ evs : List IsrEvent, countdown_run 59000 s = (s1, evs)
      ∧ s1.gCountdown_Time = s.gCountdown_Time - 1
      ∧ s1.gSeconds_Count = 59 ∧ s1.gMilli_Seconds = 0
      ∧ evs.count IsrEvent.secondDecrement = 59 ∧ IsrEvent.expired ∉ evs := by
  obtain ⟨s1, hrun, hT1, hS1, hM1⟩ := countdown_run_seconds 58 s hM (by omega) (by omega)
  have hadd := countdown_run_add (1000 * 58) 1000 s (by rw [hrun]; simp)
  rw [hrun] at hadd
  simp only at hadd
  rw [countdown_run_1000 s1 (by omega) hM1] at hadd
  obtain ⟨s2, hisr, hT2', hS2, hM2⟩ :=
    isr_minute_step { s1 with gMilli_Seconds := 999 } rfl (by simp; omega) (by simp; omega)
      (by simp; omega)
  rw [hisr] at hadd
  refine ⟨s2, _, hadd, ?_, hS2, hM2, ?_, ?_⟩
  · rw [hT2']; simp; omega
  · simp [List.count_append, List.count_replicate]
  · simp

theorem countdown_run_minutes (k : Nat) :
    ∀ s : State, s.gMilli_Seconds = 0 → s.gSeconds_Count = 59 → k ≤ s.gCountdown_Time →
      s.gCountdown_Time < 65536 →
      ∃ s1 : State, ∃ evs : List IsrEvent, countdown_run (59000 * k) s = (s1, evs)
        ∧ s1.gCountdown_Time = s.gCountdown_Time - k
        ∧ s1.gSeconds_Count = 59 ∧ s1.gMilli_Seconds = 0
        ∧ evs.count IsrEvent.secondDecrement = 59 * k ∧ IsrEvent.expired ∉ evs := by
  induction k with
  | zero => intro s hM hS _ _; exact ⟨s, [], by simp [countdown_run], rfl, hS, hM, by simp, by simp⟩
  | succ k ih =>
    intro s hM hS hk hT
    obtain ⟨s1, evs1, hrun, hT1, hS1, hM1, hc1, he1⟩ := ih s hM hS (by omega) hT
    obtain ⟨s2, evs2, hrun2, hT2, hS2, hM2, hc2, he2⟩ :=
      countdown_run_minute s1 hM1 hS1 (by omega) (by omega)
    have hadd := countdown_run_add (59000 * k) 59000 s (by rw [hrun]; exact he1)
    rw [hrun] at hadd
    simp only at hadd
    rw [hrun2] at hadd
    refine ⟨s2, evs1 ++ evs2, ?_, ?_, hS2, hM2, ?_, ?_⟩
    · have e : 59000 * (k + 1) = 59000 * k + 59000 := by ring
      rw [e, hadd]
    · rw [hT2, hT1]; omega
    · rw [List.count_append, hc1, hc2]; ring
    · simp [he1, he2]

theorem countdown_run_last_minute (s : State) (hM : s.gMilli_Seconds = 0)
    (hS : s.gSeconds_Count = 59) (hT : s.gCountdown_Time = 0) :
    (∃ s1 : State, countdown_run 58999 s = (s1, List.replicate 58 IsrEvent.secondDecrement))
      ∧ ∃ s2 : State, countdown_run 59000 s =
          (s2, List.replicate 58 IsrEvent.secondDecrement
                ++ [IsrEvent.secondDecrement, IsrEvent.expired])
        ∧ s2.gCountdown_Time = 0 ∧ s2.gSeconds_Count = 0 ∧ s2.gMilli_Seconds = 0 := by
  obtain ⟨s1, hrun, hT1, hS1, hM1⟩ := countdown_run_seconds 58 s hM (by omega) (by omega)
  have hS1' : s1.gSeconds_Count ≠ 0 := by omega
  constructor
  · have hadd := countdown_run_add (1000 * 58) 999 s (by rw [hrun]; simp)
    rw [hrun] at hadd
    simp only at hadd
    rw [countdown_run_idle 999 s1 hS1' (by omega)] at hadd
    exact ⟨_, by simpa using hadd⟩
  · have hadd := countdown_run_add (1000 * 58) 1000 s (by rw [hrun]; simp)
    rw [hrun] at hadd
    simp only at hadd
    rw [countdown_run_1000 s1 hS1' hM1] at hadd
    obtain ⟨s2, hisr, hT2, hS2, hM2⟩ :=
      isr_expire { s1 with gMilli_Seconds := 999 } rfl (by simp; omega) (by simp; omega)
    rw [hisr] at hadd
    exact ⟨s2, hadd, hT2, hS2, hM2⟩

theorem countdown_run_expiry (N : Nat) (s : State) (h1 : 1 ≤ N) (h2 : N ≤ 65536)
    (hT : s.gCountdown_Time = N - 1) (hS : s.gSeconds_Count = 59)
    (hM : s.gMilli_Seconds = 0) :
    (∀ n, n < 59000 * N → IsrEvent.expired ∉ (countdown_run n s).2)
      ∧ (countdown_run (59000 * N) s).2.count IsrEvent.secondDecrement = 59 * N
      ∧ IsrEvent.expired ∈ (countdown_run (59000 * N) s).2
      ∧ (countdown_run (59000 * N) s).1.gCountdown_Time = 0
      ∧ (countdown_run (59000 * N) s).1.gSeconds_Count = 0 := by
  obtain ⟨s1, evs1, hrun1, hT1, hS1, hM1, hc1, he1⟩ :=
    countdown_run_minutes (N - 1) s hM hS (by omega) (by omega)
  have hT1' : s1.gCountdown_Time = 0 := by omega
  obtain ⟨⟨s2, hrun2⟩, s3, hrun3, hT3, hS3, hM3⟩ := countdown_run_last_minute s1 hM1 hS1 hT1'
  have hne : IsrEvent.expired ∉ (countdown_run (59000 * (N - 1)) s).2 := by rw [hrun1]; exact he1
  have hA := countdown_run_add (59000 * (N - 1)) 58999 s hne
  have hB := countdown_run_add (59000 * (N - 1)) 59000 s hne
  rw [hrun1] at hA hB
  simp only at hA hB
  rw [hrun2] at hA
  rw [hrun3] at hB
  have eA : 59000 * (N - 1) + 58999 = 59000 * N - 1 := by omega
  have eB : 59000 * (N - 1) + 59000 = 59000 * N := by omega
  rw [eA] at hA
  rw [eB] at hB
  have hlast : IsrEvent.expired ∉ (countdown_run (59000 * N - 1) s).2 := by
    rw [hA]; simp [he1]
  refine ⟨?_, ?_, ?_, ?_, ?_⟩
  · intro n hn hmem
    have hmono := countdown_run_expired_mono n (59000 * N - 1 - n) s hmem
    have e : n + (59000 * N - 1 - n) = 59000 * N - 1 := by omega
    rw [e] at hmono
    exact hlast hmono
  · rw [hB]
    simp only [List.count_append, hc1, List.count_replicate]
    simp
    omega
  · rw [hB]; simp
  · rw [hB]; exact hT3
  · rw [hB]; exact hS3

/-- C5 at N = 2: a countdown started at 2 minutes (gCountdown_Time = 1,
gSeconds_Count = 59, gMilli_Seconds = 0, as init_countdown leaves them) enters
the expired branch at the 118000th invocation of the handler and at no earlier
one, after 118 executions of `--gSeconds_Count`, not 120; gCountdown_Time and
gSeconds_Count are then 0. -/
theorem countdown_two_minutes :
    (init_countdown { State.init with gCountdown_Time := 1 }).gCountdown_Time = 1
      ∧ (init_countdown { State.init with gCountdown_Time := 1 }).gSeconds_Count = 59
      ∧ (init_countdown { State.init with gCountdown_Time := 1 }).gMilli_Seconds = 0
      ∧ (∀ n, n < 118000 → IsrEvent.expired ∉
          (countdown_run n (init_countdown { State.init with gCountdown_Time := 1 })).2)
      ∧ IsrEvent.expired ∈
          (countdown_run 118000 (init_countdown { State.init with gCountdown_Time := 1 })).2
      ∧ (countdown_run 118000
          (init_countdown { State.init with gCountdown_Time := 1 })).2.count
            IsrEvent.secondDecrement = 118
      ∧ (countdown_run 118000
          (init_countdown { State.init with gCountdown_Time := 1 })).1.gCountdown_Time = 0
      ∧ (countdown_run 118000
          (init_countdown { State.init with gCountdown_Time := 1 })).1.gSeconds_Count = 0 := by
  have h := countdown_run_expiry 2 (init_countdown { State.init with gCountdown_Time := 1 })
    (by norm_num) (by norm_num) rfl rfl rfl
  exact ⟨rfl, rfl, rfl, h.1, h.2.2.1, h.2.1, h.2.2.2.1, h.2.2.2.2⟩

/-- C6 at a running countdown: a 5 minute countdown is running with the load
on; a battery_manager tick at SOC 40 against the limit 50 takes the low battery
override, which calls terminate_countdown: the load is disconnected and the
interrupt disabled, but gCountdown_In_Progress is still TRUE, after
terminate_countdown and on return of battery_manager. -/
theorem terminate_countdown_keeps_in_progress :
    (terminate_countdown
        { init_countdown { State.init with gCountdown_Time := 4 } with
          gLoad_Supply_On := true, PA0 := true }).gCountdown_In_Progress = true
      ∧ (battery_manager (24 / 5) false
        { init_countdown { State.init with gCountdown_Time := 4 } with
          gLoad_Supply_On := true, PA0 := true }).gCountdown_In_Progress = true
      ∧ (battery_manager (24 / 5) false
        { init_countdown { State.init with gCountdown_Time := 4 } with
          gLoad_Supply_On := true, PA0 := true }).gLoad_Supply_On = false
      ∧ (battery_manager (24 / 5) false
        { init_countdown { State.init with gCountdown_Time := 4 } with
          gLoad_Supply_On := true, PA0 := true }).OCIE1A = false := by
  have h40 : soc_calculator (24 / 5) = 40 := by
    norm_num [soc_calculator, BATTERY_MAX_VOLTAGE]
  have h16 : toU16 (40 : ℚ) = 40 := by
    apply toU16_eq_of_bounds <;> norm_num
  refine ⟨rfl, ?_, ?_, ?_⟩
  · simp [battery_manager, h40, load_block, h16, low_battery_block,
      terminate_countdown, charging_block_no_power, init_countdown, State.init,
      DEFAULT_SOC_VALUE, LCDClear, LCDWriteStringXY, LCDWriteIntXY, LOAD_SUPPLY_OFF, BUZZER_ON]
  · simp [battery_manager, h40, load_block, h16, low_battery_block,
      terminate_countdown, charging_block_no_power, init_countdown, State.init,
      DEFAULT_SOC_VALUE, LCDClear, LCDWriteStringXY, LCDWriteIntXY, LOAD_SUPPLY_OFF, BUZZER_ON]
  · simp [battery_manager, h40, load_block, h16, low_battery_block,
      terminate_countdown, charging_block_no_power, init_countdown, State.init,
      DEFAULT_SOC_VALUE, LCDClear, LCDWriteStringXY, LCDWriteIntXY, LOAD_SUPPLY_OFF, BUZZER_ON]

theorem wait_for_hash_none (keys : List Char) (h : '#' ∉ keys) : wait_for_hash keys = none := by
  induction keys with
  | nil => rfl
  | cons k ks ih =>
    have hk : k ≠ '#' := fun e => h (by simp [e])
    have hks : '#' ∉ ks := fun e => h (List.mem_cons_of_mem _ e)
    simp [wait_for_hash, hk, ih hks]

theorem wait_for_hash_some (keys rest : List Char) (h : '#' ∉ keys) :
    wait_for_hash (keys ++ '#' :: rest) = some rest := by
  induction keys with
  | nil => simp [wait_for_hash]
  | cons k ks ih =>
    have hk : k ≠ '#' := fun e => h (by simp [e])
    have hks : '#' ∉ ks := fun e => h (List.mem_cons_of_mem _ e)
    simp [wait_for_hash, hk, ih hks]

/-- C7. Expired countdown is terminal until '#': when the handler reaches
gSeconds_Count = 0 with gCountdown_Time = 0 during a countdown, then for every
key sequence `before` without '#': after reading all of `before` the handler
has not returned and the state is the one left by terminate_countdown and the
PRESS # TO STOP write, whatever the keys were (gCountdown_In_Progress TRUE,
load disconnected); and on `before` followed by '#' and `rest` the handler
reads exactly `before` and the '#', returns with `rest` unread, and the state
differs from the waiting one only in gCountdown_In_Progress = FALSE. -/
theorem expired_terminal_until_hash (s : State) (before rest : List Char)
    (hS : (isr_millis s).1.gSeconds_Count = 0) (hT : (isr_millis s).1.gCountdown_Time = 0)
    (hin : s.gCountdown_In_Progress = true) (hb : '#' ∉ before) :
    TIMER1_COMPA_vect before s =
        { state := LCDWriteStringXY 0 1 "PRESS # TO STOP" (terminate_countdown (isr_millis s).1),
          keys := [], events := (isr_millis s).2 ++ [IsrEvent.expired], returned := false }
      ∧ (TIMER1_COMPA_vect before s).state.gCountdown_In_Progress = true
      ∧ (TIMER1_COMPA_vect before s).state.gLoad_Supply_On = false
      ∧ (TIMER1_COMPA_vect before s).state.PA0 = false
      ∧ (TIMER1_COMPA_vect before s).state.OCIE1A = false
      ∧ TIMER1_COMPA_vect (before ++ '#' :: rest) s =
        { state := { LCDWriteStringXY 0 1 "PRESS # TO STOP"
                       (terminate_countdown (isr_millis s).1) with
                     gCountdown_In_Progress := false },
          keys := rest, events := (isr_millis s).2 ++ [IsrEvent.expired], returned := true } := by
  have hinm : (isr_millis s).1.gCountdown_In_Progress = true := by
    simp only [isr_millis]; split_ifs <;> simpa [LCDWriteIntXY] using hin
  have hw : TIMER1_COMPA_vect before s =
      { state := LCDWriteStringXY 0 1 "PRESS # TO STOP" (terminate_countdown (isr_millis s).1),
        keys := [], events := (isr_millis s).2 ++ [IsrEvent.expired], returned := false } := by
    simp [TIMER1_COMPA_vect, hS, hT, isr_expired, wait_for_hash_none before hb]
  refine ⟨hw, ?_, ?_, ?_, ?_, ?_⟩
  · rw [hw]; simpa [LCDWriteStringXY, terminate_countdown, LOAD_SUPPLY_OFF] using hinm
  · rw [hw]; simp [LCDWriteStringXY, terminate_countdown, LOAD_SUPPLY_OFF]
  · rw [hw]; simp [LCDWriteStringXY, terminate_countdown, LOAD_SUPPLY_OFF]
  · rw [hw]; simp [LCDWriteStringXY, terminate_countdown, LOAD_SUPPLY_OFF]
  · simp [TIMER1_COMPA_vect, hS, hT, isr_expired, wait_for_hash_some before rest hb]

/-- Witness of `expired_terminal_until_hash`: the last millisecond of a
countdown, with the keys 7, * read before the '#'. -/
theorem expired_terminal_until_hash_witness :
    (TIMER1_COMPA_vect ['7', '*']
        { State.init with gCountdown_In_Progress := true, gSeconds_Count := 1,
                          gMilli_Seconds := 999, gLoad_Supply_On := true, OCIE1A := true
        }).returned = false
      ∧ (TIMER1_COMPA_vect (['7', '*'] ++ '#' :: ['5'])
        { State.init with gCountdown_In_Progress := true, gSeconds_Count := 1,
                          gMilli_Seconds := 999, gLoad_Supply_On := true, OCIE1A := true
        }).keys = ['5'] := by
  have h := expired_terminal_until_hash
    { State.init with gCountdown_In_Progress := true, gSeconds_Count := 1,
                      gMilli_Seconds := 999, gLoad_Supply_On := true, OCIE1A := true }
    ['7', '*'] ['5']
    (by simp [isr_millis, State.init, LCDWriteIntXY])
    (by simp [isr_millis, State.init, LCDWriteIntXY]) rfl (by decide)
  exact ⟨by rw [h.1], by rw [h.2.2.2.2.2]⟩

/-! ## Settings menus -/

theorem digitKeys_facts (d : Char) (h : d ∈ digitKeys) :
    d ≠ NUL ∧ 48 ≤ d.toNat ∧ d.toNat ≤ 57 ∧ d ≠ '*' ∧ d ≠ '#' ∧ d ≠ '$' := by
  simp only [digitKeys, List.mem_cons, List.mem_singleton, List.not_mem_nil, or_false] at h
  rcases h with rfl | rfl | rfl | rfl | rfl | rfl | rfl | rfl | rfl | rfl <;> decide

theorem string_to_integer_step (integer : Nat) (d : Char) (hd : d ∈ digitKeys)
    (h : integer ≤ 6552) :
    ((((integer * 10 % 65536 : Nat) : Int) + ((d.toNat : Int) - 48)) % 65536).toNat
      = integer * 10 + (d.toNat - 48) := by
  obtain ⟨-, a, b, -⟩ := digitKeys_facts d hd
  omega

theorem string_to_integer_one (d1 : Char) (h1 : d1 ∈ digitKeys) :
    string_to_integer [d1] = d1.toNat - 48 := by
  obtain ⟨n1, a1, b1, -⟩ := digitKeys_facts d1 h1
  simp only [string_to_integer, cstring, List.takeWhile, n1, ne_eq, not_false_eq_true,
    decide_True, List.foldl]
  rw [string_to_integer_step 0 d1 h1 (by omega)]
  omega

theorem string_to_integer_two (d1 d2 : Char) (h1 : d1 ∈ digitKeys) (h2 : d2 ∈ digitKeys) :
    string_to_integer [d1, d2] = 10 * (d1.toNat - 48) + (d2.toNat - 48) := by
  obtain ⟨n1, a1, b1, -⟩ := digitKeys_facts d1 h1
  obtain ⟨n2, a2, b2, -⟩ := digitKeys_facts d2 h2
  simp only [string_to_integer, cstring, List.takeWhile, n1, n2, ne_eq, not_false_eq_true,
    decide_True, List.foldl]
  rw [string_to_integer_step 0 d1 h1 (by omega),
    string_to_integer_step _ d2 h2 (by omega)]
  omega

theorem string_to_integer_three (d1 d2 d3 : Char) (h1 : d1 ∈ digitKeys) (h2 : d2 ∈ digitKeys)
    (h3 : d3 ∈ digitKeys) :
    string_to_integer [d1, d2, d3]
      = 100 * (d1.toNat - 48) + 10 * (d2.toNat - 48) + (d3.toNat - 48) := by
  obtain ⟨n1, a1, b1, -⟩ := digitKeys_facts d1 h1
  obtain ⟨n2, a2, b2, -⟩ := digitKeys_facts d2 h2
  obtain ⟨n3, a3, b3, -⟩ := digitKeys_facts d3 h3
  simp only [string_to_integer, cstring, List.takeWhile, n1, n2, n3, ne_eq, not_false_eq_true,
    decide_True, List.foldl]
  rw [string_to_integer_step 0 d1 h1 (by omega),
    string_to_integer_step _ d2 h2 (by omega),
    string_to_integer_step _ d3 h3 (by omega)]
  omega

theorem set_soc_limit_loop_skip_first (k : Char) (keys : List Char) (s : State)
    (h : k ∈ ['0', '1', '2', '3', '4', '*', '$']) :
    set_soc_limit_loop (k :: keys) [] s = set_soc_limit_loop keys [] s := by
  simp only [List.mem_cons, List.mem_singleton, List.not_mem_nil, or_false] at h
  rcases h with rfl | rfl | rfl | rfl | rfl | rfl | rfl <;> simp [set_soc_limit_loop]

theorem set_soc_limit_loop_skip_firsts (pre : List Char) :
    ∀ (keys : List Char) (s : State), (∀ k ∈ pre, k ∈ ['0', '1', '2', '3', '4', '*', '$']) →
      set_soc_limit_loop (pre ++ keys) [] s = set_soc_limit_loop keys [] s := by
  induction pre with
  | nil => intro keys s _; rfl
  | cons k ks ih =>
    intro keys s h
    rw [List.cons_append, set_soc_limit_loop_skip_first k _ s (h k (List.mem_cons_self _ _))]
    exact ih keys s (fun x hx => h x (List.mem_cons_of_mem _ hx))

theorem set_soc_limit_loop_skip_second (k d1 : Char) (keys : List Char) (s : State)
    (h : k ∈ ['*', '$']) :
    set_soc_limit_loop (k :: keys) [d1] s = set_soc_limit_loop keys [d1] s := by
  simp only [List.mem_cons, List.mem_singleton, List.not_mem_nil, or_false] at h
  rcases h with rfl | rfl <;> simp [set_soc_limit_loop]

theorem set_soc_limit_loop_skip_seconds (mid : List Char) (d1 : Char) :
    ∀ (keys : List Char) (s : State), (∀ k ∈ mid, k ∈ ['*', '$']) →
      set_soc_limit_loop (mid ++ keys) [d1] s = set_soc_limit_loop keys [d1] s := by
  induction mid with
  | nil => intro keys s _; rfl
  | cons k ks ih =>
    intro keys s h
    rw [List.cons_append, set_soc_limit_loop_skip_second k d1 _ s (h k (List.mem_cons_self _ _))]
    exact ih keys s (fun x hx => h x (List.mem_cons_of_mem _ hx))

theorem set_soc_limit_loop_first (d1 : Char) (keys : List Char) (s : State)
    (h : d1 ∈ ['5', '6', '7', '8', '9']) :
    ∃ s1 : State, set_soc_limit_loop (d1 :: keys) [] s = set_soc_limit_loop keys [d1] s1 := by
  simp only [List.mem_cons, List.mem_singleton, List.not_mem_nil, or_false] at h
  rcases h with rfl | rfl | rfl | rfl | rfl <;> exact ⟨_, by simp [set_soc_limit_loop]; rfl⟩

theorem set_soc_limit_loop_second (d1 d2 : Char) (keys : List Char) (s : State)
    (h : d2 ∈ digitKeys) :
    ∃ s1 : State, set_soc_limit_loop (d2 :: keys) [d1] s = some (s1, keys)
      ∧ s1.gSOC_Limit = string_to_integer [d1, d2] := by
  simp only [digitKeys, List.mem_cons, List.mem_singleton, List.not_mem_nil, or_false] at h
  rcases h with rfl | rfl | rfl | rfl | rfl | rfl | rfl | rfl | rfl | rfl <;>
    exact ⟨_, by simp [set_soc_limit_loop]; rfl, rfl⟩

/-- C10. SOC-limit commit: for every key sequence in which no '#' arrives
before two digits are accepted -- keys `pre` that are neither '#' nor a digit
5..9, then the first digit d1 in 5..9, then keys `mid` that are neither '#'
nor a digit, then the digit d2, then any keys `rest` -- set_soc_limit returns
after reading d2, leaves `rest` unread, and gSOC_Limit is 10*d1 + d2 on
return. -/
theorem soc_limit_commit (s : State) (pre mid rest : List Char) (d1 d2 : Char)
    (hpre : ∀ k ∈ pre, k ∈ keyCodes ∧ k ≠ '#' ∧ k ∉ ['5', '6', '7', '8', '9'])
    (hd1 : d1 ∈ ['5', '6', '7', '8', '9'])
    (hmid : ∀ k ∈ mid, k ∈ keyCodes ∧ k ≠ '#' ∧ k ∉ digitKeys)
    (hd2 : d2 ∈ digitKeys) :
    ∃ s1 : State, set_soc_limit (pre ++ d1 :: (mid ++ d2 :: rest)) s = some (s1, rest)
      ∧ s1.gSOC_Limit = 10 * (d1.toNat - 48) + (d2.toNat - 48) := by
  have hpre' : ∀ k ∈ pre, k ∈ ['0', '1', '2', '3', '4', '*', '$'] := by
    intro k hk
    obtain ⟨h1, h2, h3⟩ := hpre k hk
    simp only [keyCodes, digitKeys, List.cons_append, List.nil_append, List.mem_cons,
      List.mem_singleton, List.not_mem_nil, or_false, not_or] at h1 h3 ⊢
    tauto
  have hmid' : ∀ k ∈ mid, k ∈ ['*', '$'] := by
    intro k hk
    obtain ⟨h1, h2, h3⟩ := hmid k hk
    simp only [keyCodes, digitKeys, List.cons_append, List.nil_append, List.mem_cons,
      List.mem_singleton, List.not_mem_nil, or_false, not_or] at h1 h3 ⊢
    tauto
  have hd1' : d1 ∈ digitKeys := by
    simp only [digitKeys, List.mem_cons, List.mem_singleton, List.not_mem_nil, or_false] at hd1 ⊢
    tauto
  obtain ⟨s1, h1⟩ := set_soc_limit_loop_first d1 (mid ++ d2 :: rest)
    (LCDWriteStringXY 0 0 "SOC LIMIT VALUE:" (LCDClear s)) hd1
  obtain ⟨s2, h2, h3⟩ := set_soc_limit_loop_second d1 d2 rest s1 hd2
  refine ⟨s2, ?_, ?_⟩
  · simp only [set_soc_limit]
    rw [set_soc_limit_loop_skip_firsts pre _ _ hpre', h1,
      set_soc_limit_loop_skip_seconds mid d1 _ _ hmid', h2]
  · rw [h3, string_to_integer_two d1 d2 hd1' hd2]

/-- Witness of `soc_limit_commit`: keys 5, 0 store 50; and keys 3, *, 7, $, 2
store 72. -/
theorem soc_limit_commit_witness :
    (∃ s1 : State, set_soc_limit ([] ++ '5' :: ([] ++ '0' :: [])) State.init = some (s1, [])
        ∧ s1.gSOC_Limit = 50)
      ∧ (∃ s1 : State,
          set_soc_limit (['3', '*'] ++ '7' :: (['$'] ++ '2' :: ['9'])) State.init
            = some (s1, ['9'])
          ∧ s1.gSOC_Limit = 72) :=
  ⟨soc_limit_commit State.init [] [] [] '5' '0' (by simp) (by decide) (by simp) (by decide),
   soc_limit_commit State.init ['3', '*'] ['$'] ['9'] '7' '2' (by decide) (by decide)
     (by decide) (by decide)⟩

theorem set_countdown_commit_fields (input : List Char) (s : State) :
    (set_countdown_commit input s).gCountdown_Time = (string_to_integer input + 65535) % 65536
      ∧ (set_countdown_commit input s).gSeconds_Count = 59
      ∧ (set_countdown_commit input s).gMilli_Seconds = 0
      ∧ (set_countdown_commit input s).gCountdown_In_Progress = true
      ∧ (set_countdown_commit input s).OCIE1A = true := by
  simp [set_countdown_commit, init_countdown, LCDClear, LCDWriteStringXY, LCDWriteIntXY]

theorem set_countdown_time_loop_star (keys input : List Char) (s : State)
    (h : input.length < 3) :
    set_countdown_time_loop ('*' :: keys) input s = set_countdown_time_loop keys input s := by
  simp [set_countdown_time_loop, h]

theorem set_countdown_time_loop_dollar_empty (keys : List Char) (s : State) :
    set_countdown_time_loop ('$' :: keys) [] s = set_countdown_time_loop keys [] s := by
  simp [set_countdown_time_loop]

theorem set_countdown_time_loop_zero_empty (keys : List Char) (s : State) :
    set_countdown_time_loop ('0' :: keys) [] s = set_countdown_time_loop keys [] s := by
  simp [set_countdown_time_loop]

theorem set_countdown_time_loop_skip_firsts (pre : List Char) :
    ∀ (keys : List Char) (s : State), (∀ k ∈ pre, k = '0' ∨ k = '*' ∨ k = '$') →
      set_countdown_time_loop (pre ++ keys) [] s = set_countdown_time_loop keys [] s := by
  induction pre with
  | nil => intro keys s _; rfl
  | cons k ks ih =>
    intro keys s h
    have hk := h k (List.mem_cons_self _ _)
    have hks := ih keys s (fun x hx => h x (List.mem_cons_of_mem _ hx))
    rw [List.cons_append]
    rcases hk with rfl | rfl | rfl
    · rw [set_countdown_time_loop_zero_empty]; exact hks
    · rw [set_countdown_time_loop_star _ _ _ (by simp)]; exact hks
    · rw [set_countdown_time_loop_dollar_empty]; exact hks

theorem set_countdown_time_loop_stars (mid : List Char) :
    ∀ (keys input : List Char) (s : State), input.length < 3 → (∀ k ∈ mid, k = '*') →
      set_countdown_time_loop (mid ++ keys) input s = set_countdown_time_loop keys input s := by
  induction mid with
  | nil => intro keys input s _ _; rfl
  | cons k ks ih =>
    intro keys input s hlen h
    have hk := h k (List.mem_cons_self _ _)
    subst hk
    rw [List.cons_append, set_countdown_time_loop_star _ _ _ hlen]
    exact ih keys input s hlen (fun x hx => h x (List.mem_cons_of_mem _ hx))

theorem set_countdown_time_loop_dollar (keys input : List Char) (s : State)
    (h : 0 < input.length) :
    set_countdown_time_loop ('$' :: keys) input s = some (set_countdown_commit input s, keys) := by
  have h0 : input.length ≠ 0 := by omega
  have h1 : input ≠ [] := by intro e; simp [e] at h
  simp [set_countdown_time_loop, h, h0, h1]

theorem set_countdown_time_loop_digit (d : Char) (keys input : List Char) (s : State)
    (hd : d ∈ digitKeys) (h0 : d ≠ '0' ∨ 0 < input.length) (hlen : input.length < 2) :
    ∃ s1 : State, set_countdown_time_loop (d :: keys) input s
      = set_countdown_time_loop keys (input ++ [d]) s1 := by
  obtain ⟨-, -, -, n1, n2, n3⟩ := digitKeys_facts d hd
  have hz : ¬ (d = '0' ∧ input.length = 0) := by
    rintro ⟨e1, e2⟩
    rcases h0 with h | h
    · exact h e1
    · omega
  have hz' : ¬ (d = '0' ∧ input = []) := by
    rintro ⟨e1, e2⟩; exact hz ⟨e1, by simp [e2]⟩
  have hl : input.length + 1 < 3 := by omega
  exact ⟨_, by simp [set_countdown_time_loop, n1, n2, n3, hz', hl]; rfl⟩

theorem set_countdown_time_loop_third (d : Char) (keys input : List Char) (s : State)
    (hd : d ∈ digitKeys) (hlen : input.length = 2) :
    ∃ s1 : State, set_countdown_time_loop (d :: keys) input s
      = some (set_countdown_commit (input ++ [d]) s1, keys) := by
  obtain ⟨-, -, -, n1, n2, n3⟩ := digitKeys_facts d hd
  have hz' : ¬ (d = '0' ∧ input = []) := by
    rintro ⟨_, e2⟩; simp [e2] at hlen
  exact ⟨_, by simp [set_countdown_time_loop, n1, n2, n3, hz', hlen]; rfl⟩

theorem nonzero_digit_facts (d : Char) (h : d ∈ ['1', '2', '3', '4', '5', '6', '7', '8', '9']) :
    d ∈ digitKeys ∧ d ≠ '0' ∧ 49 ≤ d.toNat := by
  simp only [List.mem_cons, List.mem_singleton, List.not_mem_nil, or_false] at h
  rcases h with rfl | rfl | rfl | rfl | rfl | rfl | rfl | rfl | rfl <;> decide

/-- C8. Countdown commit: for every digit string accepted by
set_countdown_time -- a first digit d1 in 1..9 after keys `pre` that are
skipped ('0', '*', '$' before any digit), then up to two more digits, with
'*' keys `m1`, `m2` in between -- committed by '$' after one or two digits or
by the third digit, the routine returns with the following keys `rest` unread
and the countdown started: gCountdown_Time = value - 1, gSeconds_Count = 59,
gMilli_Seconds = 0, gCountdown_In_Progress = TRUE, compare-match interrupt
enabled.  A '*' at any point of the loop, and a '$' with no digit collected,
leave the input buffer (and the state) unchanged: the loop goes on to the next
key with the same buffer. -/
theorem countdown_commit (s : State) (pre m1 m2 rest : List Char) (d1 d2 d3 : Char)
    (hpre : ∀ k ∈ pre, k = '0' ∨ k = '*' ∨ k = '$')
    (hm1 : ∀ k ∈ m1, k = '*') (hm2 : ∀ k ∈ m2, k = '*')
    (hd1 : d1 ∈ ['1', '2', '3', '4', '5', '6', '7', '8', '9'])
    (hd2 : d2 ∈ digitKeys) (hd3 : d3 ∈ digitKeys) :
    (∃ s1 : State,
        set_countdown_time (pre ++ d1 :: (m1 ++ '$' :: rest)) s = some (s1, rest)
        ∧ s1.gCountdown_Time = (d1.toNat - 48) - 1
        ∧ s1.gSeconds_Count = 59 ∧ s1.gMilli_Seconds = 0
        ∧ s1.gCountdown_In_Progress = true ∧ s1.OCIE1A = true)
      ∧ (∃ s1 : State,
        set_countdown_time (pre ++ d1 :: (m1 ++ d2 :: (m2 ++ '$' :: rest))) s = some (s1, rest)
        ∧ s1.gCountdown_Time = (10 * (d1.toNat - 48) + (d2.toNat - 48)) - 1
        ∧ s1.gSeconds_Count = 59 ∧ s1.gMilli_Seconds = 0
        ∧ s1.gCountdown_In_Progress = true ∧ s1.OCIE1A = true)
      ∧ (∃ s1 : State,
        set_countdown_time (pre ++ d1 :: (m1 ++ d2 :: (m2 ++ d3 :: rest))) s = some (s1, rest)
        ∧ s1.gCountdown_Time
            = (100 * (d1.toNat - 48) + 10 * (d2.toNat - 48) + (d3.toNat - 48)) - 1
        ∧ s1.gSeconds_Count = 59 ∧ s1.gMilli_Seconds = 0
        ∧ s1.gCountdown_In_Progress = true ∧ s1.OCIE1A = true)
      ∧ (∀ (keys input : List Char) (s0 : State), input.length < 3 →
        set_countdown_time_loop ('*' :: keys) input s0 = set_countdown_time_loop keys input s0)
      ∧ (∀ (keys : List Char) (s0 : State),
        set_countdown_time_loop ('$' :: keys) [] s0 = set_countdown_time_loop keys [] s0) := by
  obtain ⟨hd1', hnz, hge⟩ := nonzero_digit_facts d1 hd1
  obtain ⟨-, a1, b1, -⟩ := digitKeys_facts d1 hd1'
  obtain ⟨-, a2, b2, -⟩ := digitKeys_facts d2 hd2
  obtain ⟨-, a3, b3, -⟩ := digitKeys_facts d3 hd3
  refine ⟨?_, ?_, ?_, set_countdown_time_loop_star, set_countdown_time_loop_dollar_empty⟩
  · obtain ⟨s1, h1⟩ := set_countdown_time_loop_digit d1 (m1 ++ '$' :: rest) []
      (LCDWriteStringXY 0 1 "HOLD * TO START"
        (LCDWriteStringXY 0 0 "PRESS # > CANCEL" (LCDClear s))) hd1' (Or.inl hnz) (by simp)
    obtain ⟨hT, hS, hM, hP, hI⟩ := set_countdown_commit_fields [d1] s1
    refine ⟨set_countdown_commit [d1] s1, ?_, ?_, hS, hM, hP, hI⟩
    · simp only [set_countdown_time]
      rw [set_countdown_time_loop_skip_firsts pre _ _ hpre, h1]
      simp only [List.nil_append]
      rw [set_countdown_time_loop_stars m1 _ _ _ (by simp) hm1,
        set_countdown_time_loop_dollar _ _ _ (by simp)]
    · rw [hT, string_to_integer_one d1 hd1']; omega
  · obtain ⟨s1, h1⟩ := set_countdown_time_loop_digit d1 (m1 ++ d2 :: (m2 ++ '$' :: rest)) []
      (LCDWriteStringXY 0 1 "HOLD * TO START"
        (LCDWriteStringXY 0 0 "PRESS # > CANCEL" (LCDClear s))) hd1' (Or.inl hnz) (by simp)
    obtain ⟨s2, h2⟩ := set_countdown_time_loop_digit d2 (m2 ++ '$' :: rest) [d1] s1 hd2
      (Or.inr (by simp)) (by simp)
    obtain ⟨hT, hS, hM, hP, hI⟩ := set_countdown_commit_fields [d1, d2] s2
    refine ⟨set_countdown_commit [d1, d2] s2, ?_, ?_, hS, hM, hP, hI⟩
    · simp only [set_countdown_time]
      rw [set_countdown_time_loop_skip_firsts pre _ _ hpre, h1]
      simp only [List.nil_append]
      rw [set_countdown_time_loop_stars m1 _ _ _ (by simp) hm1, h2]
      simp only [List.singleton_append]
      rw [set_countdown_time_loop_stars m2 _ _ _ (by simp) hm2,
        set_countdown_time_loop_dollar _ _ _ (by simp)]
    · rw [hT, string_to_integer_two d1 d2 hd1' hd2]; omega
  · obtain ⟨s1, h1⟩ := set_countdown_time_loop_digit d1 (m1 ++ d2 :: (m2 ++ d3 :: rest)) []
      (LCDWriteStringXY 0 1 "HOLD * TO START"
        (LCDWriteStringXY 0 0 "PRESS # > CANCEL" (LCDClear s))) hd1' (Or.inl hnz) (by simp)
    obtain ⟨s2, h2⟩ := set_countdown_time_loop_digit d2 (m2 ++ d3 :: rest) [d1] s1 hd2
      (Or.inr (by simp)) (by simp)
    obtain ⟨s3, h3⟩ := set_countdown_time_loop_third d3 rest [d1, d2] s2 hd3 (by simp)
    obtain ⟨hT, hS, hM, hP, hI⟩ := set_countdown_commit_fields [d1, d2, d3] s3
    refine ⟨set_countdown_commit [d1, d2, d3] s3, ?_, ?_, hS, hM, hP, hI⟩
    · simp only [set_countdown_time]
      rw [set_countdown_time_loop_skip_firsts pre _ _ hpre, h1]
      simp only [List.nil_append]
      rw [set_countdown_time_loop_stars m1 _ _ _ (by simp) hm1, h2]
      simp only [List.singleton_append]
      rw [set_countdown_time_loop_stars m2 _ _ _ (by simp) hm2, h3]
      simp
    · rw [hT, string_to_integer_three d1 d2 d3 hd1' hd2 hd3]; omega

/-- Witness of `countdown_commit`: keys 5, $ give gCountdown_Time = 4. -/
theorem countdown_commit_witness :
    ∃ s1 : State,
      set_countdown_time ([] ++ '5' :: ([] ++ '$' :: [])) State.init = some (s1, [])
        ∧ s1.gCountdown_Time = 4
        ∧ s1.gSeconds_Count = 59 ∧ s1.gMilli_Seconds = 0
        ∧ s1.gCountdown_In_Progress = true ∧ s1.OCIE1A = true :=
  (countdown_commit State.init [] [] [] [] '5' '0' '0' (by simp) (by simp) (by simp)
    (by decide) (by decide) (by decide)).1

/-- C9, as stated, fails: after the keys 0, 1, 0 set_countdown_time has not
completed; it is waiting in scan_keypad_input(-1) for a further key, and no
countdown has been started.  A further digit 5 makes it a 105 minute
countdown. -/
theorem countdown_leading_zero_counterexample :
    set_countdown_time ['0', '1', '0'] State.init = none
      ∧ (set_countdown_time ['0', '1', '0', '5'] State.init).map
          (fun r => (r.1.gCountdown_Time, r.2)) = some (104, []) := by
  constructor
  · simp [set_countdown_time, set_countdown_time_loop]
  · simp [set_countdown_time, set_countdown_time_loop, set_countdown_commit, init_countdown,
      LCDClear, LCDWriteStringXY, LCDWriteIntXY]
    decide

/-- C9, amended: set_countdown_time fed the keys 0, 1, 0 suppresses only the
first keystroke's 0 (the buffer then holds 1, 0) and waits for a further key;
when the next key is '$' it returns and a 10-minute countdown is started
(gCountdown_Time = 9, gSeconds_Count = 59, gCountdown_In_Progress = TRUE). -/
theorem countdown_leading_zero (s : State) (keys : List Char) :
    set_countdown_time ['0', '1', '0'] s = none
      ∧ (∃ s1 : State, set_countdown_time ('0' :: '1' :: '0' :: keys) s
          = set_countdown_time_loop keys ['1', '0'] s1)
      ∧ (∃ s2 : State, set_countdown_time ('0' :: '1' :: '0' :: '$' :: keys) s = some (s2, keys)
          ∧ s2.gCountdown_Time = 9 ∧ s2.gSeconds_Count = 59
          ∧ s2.gCountdown_In_Progress = true) := by
  refine ⟨?_, ?_, ?_⟩
  · simp [set_countdown_time, set_countdown_time_loop]
  · exact ⟨_, by simp [set_countdown_time, set_countdown_time_loop]; rfl⟩
  · refine ⟨_, by simp [set_countdown_time, set_countdown_time_loop]; rfl, ?_, ?_, ?_⟩
    · simp [set_countdown_commit, init_countdown, LCDClear, LCDWriteStringXY, LCDWriteIntXY]
      decide
    · simp [set_countdown_commit, init_countdown, LCDClear, LCDWriteStringXY, LCDWriteIntXY]
    · simp [set_countdown_commit, init_countdown, LCDClear, LCDWriteStringXY, LCDWriteIntXY]

/-! ## LED bands and SOC formula -/

/-- C15. LED bands partition [0,100]: for every level (in particular every
level in [0,100]), after led_display(level) PC0 is on iff level >= 85, PC1 iff
70 <= level < 85, PC2 iff 55 <= level < 70, PC3 iff level < 55, and exactly one
of the four is on (the other three are off). -/
theorem led_bands (level : ℚ) (s : State) :
    ((led_display level s).PC0 = true ↔ level ≥ 85)
      ∧ ((led_display level s).PC1 = true ↔ (70 ≤ level ∧ level < 85))
      ∧ ((led_display level s).PC2 = true ↔ (55 ≤ level ∧ level < 70))
      ∧ ((led_display level s).PC3 = true ↔ level < 55)
      ∧ (([(led_display level s).PC0, (led_display level s).PC1,
            (led_display level s).PC2, (led_display level s).PC3].filter
              (fun b => b = true)).length = 1) := by
  by_cases h85 : level ≥ 85
  · have e : led_display level s
        = DISABLE_LED 3 (DISABLE_LED 2 (DISABLE_LED 1 (ENABLE_LED 0 s))) := by
      simp [led_display, h85]
    rw [e]
    simp only [ENABLE_LED, DISABLE_LED]
    refine ⟨?_, ?_, ?_, ?_, ?_⟩ <;> simp <;> intros <;> linarith
  · by_cases h70 : level ≥ 70
    · have e : led_display level s
          = DISABLE_LED 3 (DISABLE_LED 2 (ENABLE_LED 1 (DISABLE_LED 0 s))) := by
        simp [led_display, h85, h70, not_le.mp h85]
      rw [e]
      simp only [ENABLE_LED, DISABLE_LED]
      refine ⟨?_, ?_, ?_, ?_, ?_⟩ <;> simp <;> (try constructor) <;> intros <;> linarith
    · by_cases h55 : level ≥ 55
      · have e : led_display level s
            = DISABLE_LED 3 (ENABLE_LED 2 (DISABLE_LED 1 (DISABLE_LED 0 s))) := by
          simp [led_display, h85, h70, h55, not_le.mp h70]
        rw [e]
        simp only [ENABLE_LED, DISABLE_LED]
        refine ⟨?_, ?_, ?_, ?_, ?_⟩ <;> simp <;> (try constructor) <;> intros <;> linarith
      · have e : led_display level s
            = ENABLE_LED 3 (DISABLE_LED 2 (DISABLE_LED 1 (DISABLE_LED 0 s))) := by
          simp [led_display, h85, h70, h55, not_le.mp h55]
        rw [e]
        simp only [ENABLE_LED, DISABLE_LED]
        refine ⟨?_, ?_, ?_, ?_, ?_⟩ <;> simp <;> intros <;> linarith

/-- C18. SOC formula: for every voltage v in [0, 12] returned by
battery_voltage_level, soc_calculator returns (v / 12) * 100, between 0 and
100; it is monotonic non-decreasing in v; and on an ADC reading adc the SOC is
100*adc/1023 (exact arithmetic), monotonic non-decreasing in adc. -/
theorem soc_formula (v w : ℚ) (adc adc2 : Nat) (h0 : 0 ≤ v) (h12 : v ≤ 12) (hvw : v ≤ w)
    (hadc : adc ≤ adc2) :
    soc_calculator v = (v / 12) * 100
      ∧ 0 ≤ soc_calculator v ∧ soc_calculator v ≤ 100
      ∧ soc_calculator v ≤ soc_calculator w
      ∧ soc_calculator (battery_voltage_level adc) = 100 * (adc : ℚ) / 1023
      ∧ soc_calculator (battery_voltage_level adc) ≤ soc_calculator (battery_voltage_level adc2) := by
  have hq : (adc : ℚ) ≤ (adc2 : ℚ) := by exact_mod_cast hadc
  refine ⟨rfl, ?_, ?_, ?_, ?_, ?_⟩
  · unfold soc_calculator BATTERY_MAX_VOLTAGE; positivity
  · unfold soc_calculator BATTERY_MAX_VOLTAGE; linarith
  · unfold soc_calculator BATTERY_MAX_VOLTAGE; linarith
  · unfold soc_calculator battery_voltage_level BATTERY_MAX_VOLTAGE; ring
  · unfold soc_calculator battery_voltage_level BATTERY_MAX_VOLTAGE
    have : (adc : ℚ) * 12 / 1023 / 12 * 100 = (adc : ℚ) * (100 / 1023) := by ring
    have h2 : (adc2 : ℚ) * 12 / 1023 / 12 * 100 = (adc2 : ℚ) * (100 / 1023) := by ring
    rw [this, h2]
    exact mul_le_mul_of_nonneg_right hq (by norm_num)

/-- Witness of `soc_formula`: 6 V is 50 percent, and ADC reading 1023 is 100
percent. -/
theorem soc_formula_witness :
    soc_calculator 6 = (6 / 12) * 100
      ∧ soc_calculator (battery_voltage_level 1023) = 100 * ((1023 : Nat) : ℚ) / 1023 :=
  ⟨(soc_formula 6 12 1023 1023 (by norm_num) (by norm_num) (by norm_num) (le_refl _)).1,
   (soc_formula 6 12 1023 1023 (by norm_num) (by norm_num) (by norm_num) (le_refl _)).2.2.2.2.1⟩

/-! ## String to integer -/

theorem cstring_digits (ds : List Char) (h : ∀ d ∈ ds, d ∈ digitKeys) : cstring ds = ds := by
  unfold cstring
  rw [List.takeWhile_eq_self_iff]
  intro d hd
  simpa using (digitKeys_facts d (h d hd)).1

theorem string_to_integer_foldl (ds : List Char) (h : ∀ d ∈ ds, d ∈ digitKeys) :
    ∀ a b : Nat, a = b % 65536 →
      ds.foldl (fun integer c =>
          ((((integer * 10 % 65536 : Nat) : Int) + ((c.toNat : Int) - 48)) % 65536).toNat) a
        = ds.foldl (fun acc c => acc * 10 + (c.toNat - 48)) b % 65536 := by
  induction ds with
  | nil => intro a b hab; simpa using hab
  | cons d ds ih =>
    intro a b hab
    simp only [List.foldl_cons]
    apply ih (fun x hx => h x (List.mem_cons_of_mem _ hx))
    obtain ⟨-, lo, hi, -⟩ := digitKeys_facts d (h d (List.mem_cons_self _ _))
    omega

theorem decimal_value_bound (ds : List Char) (h : ∀ d ∈ ds, d ∈ digitKeys) :
    decimal_value ds < 10 ^ ds.length := by
  unfold decimal_value
  have key : ∀ (l : List Char), (∀ d ∈ l, d ∈ digitKeys) → ∀ b n : Nat, b < 10 ^ n →
      l.foldl (fun acc c => acc * 10 + (c.toNat - 48)) b < 10 ^ (n + l.length) := by
    intro l
    induction l with
    | nil => intro _ b n hb; simpa using hb
    | cons d l ih =>
      intro hl b n hb
      simp only [List.foldl_cons, List.length_cons]
      obtain ⟨-, lo, hi, -⟩ := digitKeys_facts d (hl d (List.mem_cons_self _ _))
      have h1 : b * 10 + (d.toNat - 48) < 10 ^ (n + 1) := by
        rw [pow_succ]; omega
      have := ih (fun x hx => hl x (List.mem_cons_of_mem _ hx)) _ (n + 1) h1
      have e : n + 1 + l.length = n + (l.length + 1) := by omega
      rw [e] at this
      exact this
  have := key ds h 0 0 (by norm_num)
  simpa using this

/-- C16. string_to_integer: on every string of decimal digits its result is
the left-to-right fold acc := acc*10 + digit taken modulo 2^16; on every digit
string of length at most 3 the result is the decimal value itself, at most
999, and this holds after every step (for every leading part of the string),
so no 16-bit wrap-around occurs. -/
theorem string_to_integer_decimal (ds : List Char) (h : ∀ d ∈ ds, d ∈ digitKeys) :
    string_to_integer ds = decimal_value ds % 65536
      ∧ (ds.length ≤ 3 →
          string_to_integer ds = decimal_value ds ∧ decimal_value ds ≤ 999
            ∧ ∀ k : Nat, string_to_integer (ds.take k) = decimal_value (ds.take k)
                ∧ decimal_value (ds.take k) < 65536) := by
  have gen : ∀ l : List Char, (∀ d ∈ l, d ∈ digitKeys) →
      string_to_integer l = decimal_value l % 65536 := by
    intro l hl
    unfold string_to_integer decimal_value
    rw [cstring_digits l hl]
    exact string_to_integer_foldl l hl 0 0 rfl
  have small : ∀ l : List Char, (∀ d ∈ l, d ∈ digitKeys) → l.length ≤ 3 →
      decimal_value l ≤ 999 := by
    intro l hl hlen
    have hb := decimal_value_bound l hl
    have hp : 10 ^ l.length ≤ 10 ^ 3 := Nat.pow_le_pow_right (by norm_num) hlen
    have : (10 : Nat) ^ 3 = 1000 := by norm_num
    omega
  refine ⟨gen ds h, fun hlen => ?_⟩
  have h999 := small ds h hlen
  refine ⟨?_, h999, fun k => ?_⟩
  · rw [gen ds h]; omega
  · have hk : ∀ d ∈ ds.take k, d ∈ digitKeys := fun d hd => h d (List.mem_of_mem_take hd)
    have hklen : (ds.take k).length ≤ 3 := by
      rw [List.length_take]; omega
    have hks := small (ds.take k) hk hklen
    refine ⟨?_, by omega⟩
    rw [gen _ hk]; omega

/-- Witness of `string_to_integer_decimal`: the string 999 converts to 999. -/
theorem string_to_integer_decimal_witness :
    string_to_integer ['9', '9', '9'] = decimal_value ['9', '9', '9'] % 65536
      ∧ string_to_integer ['9', '9', '9'] = decimal_value ['9', '9', '9']
      ∧ decimal_value ['9', '9', '9'] ≤ 999 :=
  ⟨(string_to_integer_decimal ['9', '9', '9'] (by decide)).1,
   ((string_to_integer_decimal ['9', '9', '9'] (by decide)).2 (by decide)).1,
   ((string_to_integer_decimal ['9', '9', '9'] (by decide)).2 (by decide)).2.1⟩

/-! ## Countdown field ranges -/

theorem isr_ranges (T0 : Nat) (s : State) (hT0 : T0 < 65536)
    (hM : s.gMilli_Seconds ≤ 999) (hS1 : 1 ≤ s.gSeconds_Count) (hS2 : s.gSeconds_Count ≤ 59)
    (hT : s.gCountdown_Time ≤ T0) :
    (TIMER1_COMPA_vect [] s).state.gMilli_Seconds ≤ 999
      ∧ (TIMER1_COMPA_vect [] s).state.gSeconds_Count ≤ 59
      ∧ (TIMER1_COMPA_vect [] s).state.gCountdown_Time ≤ T0
      ∧ ((TIMER1_COMPA_vect [] s).returned = true →
          1 ≤ (TIMER1_COMPA_vect [] s).state.gSeconds_Count) := by
  by_cases h1 : s.gMilli_Seconds = 999
  · have e1 : (s.gSeconds_Count + 255) % 256 = s.gSeconds_Count - 1 := by omega
    by_cases h2 : s.gSeconds_Count = 1
    · by_cases h3 : s.gCountdown_Time = 0
      · simp [TIMER1_COMPA_vect, isr_millis, isr_expired, wait_for_hash, terminate_countdown,
          LOAD_SUPPLY_OFF, LCDWriteIntXY, LCDWriteStringXY, h1, h2, h3]
      · have e2 : (s.gCountdown_Time + 65535) % 65536 = s.gCountdown_Time - 1 := by omega
        simp [TIMER1_COMPA_vect, isr_millis, isr_minute, LCDWriteIntXY, h1, h2, h3, e2]
        omega
    · have h4 : s.gSeconds_Count - 1 ≠ 0 := by omega
      simp [TIMER1_COMPA_vect, isr_millis, LCDWriteIntXY, h1, e1, h4]
      omega
  · have e1 : (s.gMilli_Seconds + 1) % 65536 = s.gMilli_Seconds + 1 := by omega
    have e2 : s.gMilli_Seconds + 1 ≠ 1000 := by omega
    have e3 : s.gSeconds_Count ≠ 0 := by omega
    simp [TIMER1_COMPA_vect, isr_millis, e1, e2, e3]
    omega

theorem countdown_run_ranges (T0 : Nat) (hT0 : T0 < 65536) (n : Nat) :
    ∀ s : State, s.gMilli_Seconds ≤ 999 → 1 ≤ s.gSeconds_Count → s.gSeconds_Count ≤ 59 →
      s.gCountdown_Time ≤ T0 →
      (countdown_run n s).1.gMilli_Seconds ≤ 999
        ∧ (countdown_run n s).1.gSeconds_Count ≤ 59
        ∧ (countdown_run n s).1.gCountdown_Time ≤ T0 := by
  induction n with
  | zero => intro s hM _ hS2 hT; exact ⟨hM, hS2, hT⟩
  | succ n ih =>
    intro s hM hS1 hS2 hT
    obtain ⟨a, b, c, d⟩ := isr_ranges T0 s hT0 hM hS1 hS2 hT
    simp only [countdown_run]
    by_cases hr : (TIMER1_COMPA_vect [] s).returned = true
    · simp only [hr, if_true]
      exact ih _ a (d hr) b c
    · simp only [hr, if_false]
      exact ⟨a, b, c⟩

/-- C19. Countdown field ranges: from the state init_countdown sets up with
gCountdown_Time = N-1 (1 <= N <= 65536, the range of the 16-bit counter),
after every number n of handler invocations, up to and including the one that
enters the expired branch (where the run stops), gMilli_Seconds is at most 999,
gSeconds_Count is at most 59 (it never wraps to 255) and gCountdown_Time is at
most its starting value N-1 (it never wraps to 65535). -/
theorem countdown_field_ranges (N n : Nat) (s : State) (h1 : 1 ≤ N) (h2 : N ≤ 65536)
    (hT : s.gCountdown_Time = N - 1) :
    (countdown_run n (init_countdown s)).1.gMilli_Seconds ≤ 999
      ∧ (countdown_run n (init_countdown s)).1.gSeconds_Count ≤ 59
      ∧ (countdown_run n (init_countdown s)).1.gCountdown_Time ≤ N - 1 := by
  apply countdown_run_ranges (N - 1) (by omega) n (init_countdown s)
  · simp [init_countdown, LCDClear, LCDWriteStringXY, LCDWriteIntXY]
  · simp [init_countdown, LCDClear, LCDWriteStringXY, LCDWriteIntXY]
  · simp [init_countdown, LCDClear, LCDWriteStringXY, LCDWriteIntXY]
  · simp [init_countdown, LCDClear, LCDWriteStringXY, LCDWriteIntXY, hT]

/-- Witness of `countdown_field_ranges`: a 2 minute countdown after 118000
invocations. -/
theorem countdown_field_ranges_witness :
    (countdown_run 118000
        (init_countdown { State.init with gCountdown_Time := 1 })).1.gSeconds_Count ≤ 59 :=
  (countdown_field_ranges 2 118000 { State.init with gCountdown_Time := 1 }
    (by norm_num) (by norm_num) rfl).2.1

/-! ## Battery manager: toggles -/

theorem replay_toggles_append (l1 l2 : List PortCmd) :
    ∀ f : Bool × Bool, replay_toggles (l1 ++ l2) f = (replay_toggles l1 f).bind (replay_toggles l2) := by
  induction l1 with
  | nil => intro f; simp [replay_toggles]
  | cons c cs ih =>
    intro f
    cases c <;> simp only [List.cons_append, replay_toggles] <;> (try split_ifs) <;>
      simp [ih]

theorem led_display_out (level : ℚ) (s : State) :
    (led_display level s).out = s.out ++ (led_display level s).out.drop s.out.length
      ∧ (∀ f, replay_toggles ((led_display level s).out.drop s.out.length) f = some f)
      ∧ ((led_display level s).out.drop s.out.length).filter is_toggle = [] := by
  unfold led_display
  split_ifs <;> simp [ENABLE_LED, DISABLE_LED, replay_toggles, is_toggle]

theorem load_block_out (soc : ℚ) (s : State) :
    (load_block soc s).out = s.out ++ (load_block soc s).out.drop s.out.length
      ∧ replay_toggles ((load_block soc s).out.drop s.out.length)
          (s.gBuzzer_On, s.gBattery_Charging)
          = some ((load_block soc s).gBuzzer_On, (load_block soc s).gBattery_Charging)
      ∧ (load_block soc s).gBattery_Charging = s.gBattery_Charging
      ∧ (((load_block soc s).out.drop s.out.length).filter is_toggle = []
          ∨ (load_block soc s).gBuzzer_On ≠ s.gBuzzer_On) := by
  by_cases h1 : toU16 soc < s.gSOC_Limit <;> by_cases h2 : toU16 soc > s.gSOC_Limit <;>
    by_cases h3 : toU16 soc < 45 <;> cases h4 : s.gBattery_Charging <;>
    cases h5 : s.gBuzzer_On <;> cases h6 : s.gLoad_Supply_On <;>
    cases h7 : s.gCountdown_In_Progress <;>
    simp [load_block, low_battery_block, sufficient_battery_block, terminate_countdown,
      BUZZER_ON, BUZZER_OFF, LOAD_SUPPLY_ON, LOAD_SUPPLY_OFF, LCDClear, LCDWriteStringXY,
      replay_toggles, is_toggle, h1, h2, h3, h4, h5, h6, h7]

theorem charging_block_out (soc : ℚ) (e : Bool) (s : State) :
    (charging_block soc e s).out = s.out ++ (charging_block soc e s).out.drop s.out.length
      ∧ replay_toggles ((charging_block soc e s).out.drop s.out.length)
          (s.gBuzzer_On, s.gBattery_Charging)
          = some ((charging_block soc e s).gBuzzer_On, (charging_block soc e s).gBattery_Charging)
      ∧ ((((charging_block soc e s).out.drop s.out.length).filter is_toggle = []
            ∧ (charging_block soc e s).gBuzzer_On = s.gBuzzer_On)
          ∨ (charging_block soc e s).gBattery_Charging ≠ s.gBattery_Charging) := by
  by_cases h1 : soc ≥ 95 <;> by_cases h2 : soc < 90 <;> cases e <;>
    cases h3 : s.gBattery_Charging <;> cases h4 : s.gBuzzer_On <;>
    simp [charging_block, BUZZER_OFF, BATTERY_CHARGE_ON, BATTERY_CHARGE_OFF, LCDClear,
      LCDWriteStringXY, replay_toggles, is_toggle, h1, h2, h3, h4]

@[simp] theorem status_block_out (v soc : ℚ) (s : State) :
    (status_block v soc s).out = s.out := by
  unfold status_block; split_ifs <;> simp [LCDClear, LCDWriteStringXY, LCDWriteIntXY]

/-- C17. No redundant toggles: in every battery_manager tick from every state,
the port commands the tick issues, replayed in order against the flags
gBuzzer_On and gBattery_Charging as they are at entry, never meet a buzzer-on,
buzzer-off, charge-on or charge-off command whose flag already holds the value
the command sets, and the replay ends in the flags the tick returns with; and a
tick that returns with both flags as they were at entry has issued no buzzer
or charge command. -/
theorem no_redundant_toggles (v : ℚ) (extPower : Bool) (s : State) :
    (battery_manager v extPower s).out
        = s.out ++ (battery_manager v extPower s).out.drop s.out.length
      ∧ replay_toggles ((battery_manager v extPower s).out.drop s.out.length)
          (s.gBuzzer_On, s.gBattery_Charging)
          = some ((battery_manager v extPower s).gBuzzer_On,
                  (battery_manager v extPower s).gBattery_Charging)
      ∧ ((battery_manager v extPower s).gBuzzer_On = s.gBuzzer_On →
          (battery_manager v extPower s).gBattery_Charging = s.gBattery_Charging →
          ∀ c ∈ (battery_manager v extPower s).out.drop s.out.length, is_toggle c = false) := by
  obtain ⟨a1, a2, a3⟩ := led_display_out (soc_calculator v) s
  obtain ⟨b1, b2, b3, b4⟩ := load_block_out (soc_calculator v) (led_display (soc_calculator v) s)
  obtain ⟨c1, c2, c3⟩ := charging_block_out (soc_calculator v) extPower
    (load_block (soc_calculator v) (led_display (soc_calculator v) s))
  generalize hl1 : (led_display (soc_calculator v) s).out.drop s.out.length = l1 at a1 a2 a3
  generalize hl2 : (load_block (soc_calculator v) (led_display (soc_calculator v) s)).out.drop
    (led_display (soc_calculator v) s).out.length = l2 at b1 b2 b4
  generalize hl3 : (charging_block (soc_calculator v) extPower
    (load_block (soc_calculator v) (led_display (soc_calculator v) s))).out.drop
    (load_block (soc_calculator v) (led_display (soc_calculator v) s)).out.length = l3
    at c1 c2 c3
  have hout : (battery_manager v extPower s).out = s.out ++ (l1 ++ l2 ++ l3) := by
    simp only [battery_manager, status_block_out]
    rw [c1, b1, a1]; simp
  have hdrop : (battery_manager v extPower s).out.drop s.out.length = l1 ++ l2 ++ l3 := by
    rw [hout]; simp
  have hbz : (battery_manager v extPower s).gBuzzer_On
      = (charging_block (soc_calculator v) extPower
          (load_block (soc_calculator v) (led_display (soc_calculator v) s))).gBuzzer_On := by
    simp [battery_manager]
  have hch : (battery_manager v extPower s).gBattery_Charging
      = (charging_block (soc_calculator v) extPower
          (load_block (soc_calculator v) (led_display (soc_calculator v) s))).gBattery_Charging := by
    simp [battery_manager]
  simp only [led_display_gBuzzer_On, led_display_gBattery_Charging] at b2 b3 b4
  rw [hdrop, hbz, hch]
  refine ⟨hout, ?_, ?_⟩
  · rw [replay_toggles_append, replay_toggles_append, a2]
    simp only [Option.some_bind]
    rw [b2]
    simp only [Option.some_bind]
    exact c2
  · intro e1 e2 c hc
    have ht : (l1 ++ l2 ++ l3).filter is_toggle = [] := by
      simp only [List.filter_append, a3, List.nil_append]
      rcases c3 with ⟨c3a, c3b⟩ | c3
      · rcases b4 with b4 | b4
        · simp [b4, c3a]
        · exact absurd (c3b.symm.trans e1) b4
      · exact absurd (e2.trans b3.symm) c3
    have := List.filter_eq_nil_iff.mp ht c hc
    simpa using this

/-- Instance for C17: a tick at SOC 40 against the limit 50 with external
power, entered with buzzer and charging off, turns the buzzer on, then starts
charging and turns the buzzer off again; no command is redundant. -/
theorem no_redundant_toggles_witness :
    replay_toggles ((battery_manager (24 / 5) true State.init).out.drop (State.init).out.length)
        ((State.init).gBuzzer_On, (State.init).gBattery_Charging)
      = some ((battery_manager (24 / 5) true State.init).gBuzzer_On,
              (battery_manager (24 / 5) true State.init).gBattery_Charging) :=
  (no_redundant_toggles (24 / 5) true State.init).2.1

/-! ## Settings menus: cancel -/

theorem settings_unchanged_refl (s : State) : settings_unchanged s s :=
  ⟨rfl, rfl, rfl, rfl, rfl⟩

theorem settings_unchanged_lcd (s s1 : State) (x y : Nat) (msg : String)
    (h : settings_unchanged (LCDWriteStringXY x y msg s) s1) : settings_unchanged s s1 := by
  simpa [settings_unchanged, LCDWriteStringXY] using h

theorem settings_unchanged_clear (s s1 : State)
    (h : settings_unchanged (LCDClear s) s1) : settings_unchanged s s1 := by
  simpa [settings_unchanged, LCDClear] using h

theorem set_soc_limit_loop_cancel (rest : List Char) (pre : List Char) :
    ∀ (input : List Char) (s : State), set_soc_limit_loop pre input s = none →
      ∃ s1 : State, set_soc_limit_loop (pre ++ '#' :: rest) input s = some (s1, rest)
        ∧ settings_unchanged s s1 := by
  induction pre with
  | nil =>
    intro input s _
    exact ⟨s, by simp [set_soc_limit_loop], settings_unchanged_refl s⟩
  | cons k ks ih =>
    intro input s h
    simp only [List.cons_append, set_soc_limit_loop] at h ⊢
    split_ifs at h ⊢
    · exact ih _ _ h
    · exact ih _ _ h
    · obtain ⟨s1, e, f⟩ := ih _ _ h
      exact ⟨s1, e, settings_unchanged_lcd _ _ _ _ _
        (settings_unchanged_lcd _ _ _ _ _ (settings_unchanged_lcd _ _ _ _ _ f))⟩

theorem set_countdown_time_loop_cancel (rest : List Char) (pre : List Char) :
    ∀ (input : List Char) (s : State), set_countdown_time_loop pre input s = none →
      ∃ s1 : State, set_countdown_time_loop (pre ++ '#' :: rest) input s = some (s1, rest)
        ∧ settings_unchanged s s1 := by
  induction pre with
  | nil =>
    intro input s _
    exact ⟨s, by simp [set_countdown_time_loop], settings_unchanged_refl s⟩
  | cons k ks ih =>
    intro input s h
    simp only [List.cons_append, set_countdown_time_loop] at h ⊢
    split_ifs at h ⊢
    · exact ih _ _ h
    · exact ih _ _ h
    · exact ih _ _ h
    · obtain ⟨s1, e, f⟩ := ih _ _ h
      exact ⟨s1, e, settings_unchanged_lcd _ _ _ _ _
        (settings_unchanged_lcd _ _ _ _ _ (settings_unchanged_lcd _ _ _ _ _ f))⟩

theorem settings_choice_none_append (rest : List Char) (pre : List Char)
    (h : settings_choice pre = none) :
    settings_choice (pre ++ '#' :: rest) = some ('#', rest) := by
  induction pre with
  | nil => simp [settings_choice]
  | cons k ks ih =>
    simp only [List.cons_append, settings_choice] at h ⊢
    split_ifs at h ⊢
    exact ih h

theorem settings_choice_some_append (more : List Char) (pre : List Char) (k : Char)
    (ks : List Char) (h : settings_choice pre = some (k, ks)) :
    settings_choice (pre ++ more) = some (k, ks ++ more)
      ∧ (k = '1' ∨ k = '2' ∨ k = '#') := by
  induction pre with
  | nil => simp [settings_choice] at h
  | cons c cs ih =>
    simp only [List.cons_append, settings_choice] at h ⊢
    split_ifs at h ⊢ with hc
    · exact ih h
    · simp only [Option.some.injEq, Prod.mk.injEq] at h
      obtain ⟨rfl, rfl⟩ := h
      refine ⟨rfl, ?_⟩
      by_contra hn
      simp only [not_or] at hn
      exact hc ⟨hn.1, hn.2.1, hn.2.2⟩

/-- C11. Cancel is atomic: for every key sequence `pre` after which the menu
has not yet returned (it has neither committed nor been cancelled: fewer than
two digits accepted in set_soc_limit; fewer than three digits accepted and no
committing '$' in set_countdown_time; in settings, no choice made yet or the
chosen sub-menu still waiting), a '#' as the next key makes the menu return,
with the keys after the '#' unread and with gSOC_Limit, gCountdown_Time,
gSeconds_Count, gMilli_Seconds and gCountdown_In_Progress equal to their values
before the menu was entered. -/
theorem cancel_is_atomic (s : State) (pre rest : List Char) :
    (set_soc_limit pre s = none →
        ∃ s1 : State, set_soc_limit (pre ++ '#' :: rest) s = some (s1, rest)
          ∧ settings_unchanged s s1)
      ∧ (set_countdown_time pre s = none →
        ∃ s1 : State, set_countdown_time (pre ++ '#' :: rest) s = some (s1, rest)
          ∧ settings_unchanged s s1)
      ∧ (settings pre s = none →
        ∃ s1 : State, settings (pre ++ '#' :: rest) s = some (s1, rest)
          ∧ settings_unchanged s s1) := by
  have hsoc : ∀ (keys : List Char) (s0 : State), set_soc_limit keys s0 = none →
      ∃ s1 : State, set_soc_limit (keys ++ '#' :: rest) s0 = some (s1, rest)
        ∧ settings_unchanged s0 s1 := by
    intro keys s0 h
    simp only [set_soc_limit] at h ⊢
    obtain ⟨s1, e, f⟩ := set_soc_limit_loop_cancel rest keys _ _ h
    exact ⟨s1, e, settings_unchanged_clear _ _ (settings_unchanged_lcd _ _ _ _ _ f)⟩
  have hcd : ∀ (keys : List Char) (s0 : State), set_countdown_time keys s0 = none →
      ∃ s1 : State, set_countdown_time (keys ++ '#' :: rest) s0 = some (s1, rest)
        ∧ settings_unchanged s0 s1 := by
    intro keys s0 h
    simp only [set_countdown_time] at h ⊢
    obtain ⟨s1, e, f⟩ := set_countdown_time_loop_cancel rest keys _ _ h
    exact ⟨s1, e, settings_unchanged_clear _ _
      (settings_unchanged_lcd _ _ _ _ _ (settings_unchanged_lcd _ _ _ _ _ f))⟩
  have hframe : ∀ s1 : State,
      settings_unchanged (LCDWriteStringXY 0 0 "PRESS # > CANCEL" (LCDClear
        (LCDWriteStringXY 0 1 "2. SET TIMER (m)" (LCDWriteStringXY 0 0 "1. SET SOC LIMIT"
          (LCDClear s))))) s1 → settings_unchanged s s1 := by
    intro s1 f
    exact settings_unchanged_clear _ _ (settings_unchanged_lcd _ _ _ _ _
      (settings_unchanged_lcd _ _ _ _ _ (settings_unchanged_clear _ _
        (settings_unchanged_lcd _ _ _ _ _ f))))
  refine ⟨hsoc pre s, hcd pre s, ?_⟩
  intro h
  simp only [settings] at h ⊢
  cases hch : settings_choice pre with
  | none =>
    rw [settings_choice_none_append rest pre hch]
    refine ⟨_, by simp, hframe _ (settings_unchanged_refl _)⟩
  | some p =>
    obtain ⟨k, ks⟩ := p
    obtain ⟨e, hk⟩ := settings_choice_some_append ('#' :: rest) pre k ks hch
    rw [hch] at h
    rw [e]
    simp only at h ⊢
    by_cases h1 : k = '1'
    · simp only [h1, if_true] at h ⊢
      obtain ⟨s1, e1, f1⟩ := hsoc ks _ h
      exact ⟨s1, e1, hframe _ (settings_unchanged_lcd _ _ _ _ _ f1)⟩
    · by_cases h2 : k = '2'
      · simp only [h2, if_true] at h ⊢
        have h21 : ¬ ('2' = '1') := by decide
        simp only [h21, if_false] at h ⊢
        obtain ⟨s1, e1, f1⟩ := hcd ks _ h
        exact ⟨s1, e1, hframe _ (settings_unchanged_lcd _ _ _ _ _ f1)⟩
      · simp [h1, h2] at h

/-- Witness of `cancel_is_atomic`: '#' after one accepted digit in
set_soc_limit, after two accepted digits in set_countdown_time, and in settings
after choosing the SOC limit menu and typing one digit. -/
theorem cancel_is_atomic_witness :
    (∃ s1 : State, set_soc_limit (['7', '*'] ++ '#' :: ['1']) State.init = some (s1, ['1'])
        ∧ settings_unchanged State.init s1)
      ∧ (∃ s1 : State,
          set_countdown_time (['1', '2'] ++ '#' :: ['1']) State.init = some (s1, ['1'])
          ∧ settings_unchanged State.init s1)
      ∧ (∃ s1 : State, settings (['5', '1', '6'] ++ '#' :: ['1']) State.init = some (s1, ['1'])
          ∧ settings_unchanged State.init s1) :=
  ⟨(cancel_is_atomic State.init ['7', '*'] ['1']).1
      (by simp [set_soc_limit, set_soc_limit_loop]),
   (cancel_is_atomic State.init ['1', '2'] ['1']).2.1
      (by simp [set_countdown_time, set_countdown_time_loop]),
   (cancel_is_atomic State.init ['5', '1', '6'] ['1']).2.2
      (by simp [settings, settings_choice, set_soc_limit, set_soc_limit_loop])⟩

/-! ## Float formatting -/

set_option maxRecDepth 1000000 in
theorem float_to_string_loops_small :
    ∀ n, n < 1000 →
      float_to_string_count (n + 1) (n : Int) 0 = (Nat.toDigits 10 n).length
        ∧ 1 ≤ (Nat.toDigits 10 n).length ∧ (Nat.toDigits 10 n).length ≤ 3
        ∧ float_to_string_digits (n + 1) (n : Int) (Nat.toDigits 10 n).length
            = (List.range (Nat.toDigits 10 n).length).reverse.zip (Nat.toDigits 10 n).reverse
        ∧ ∀ c ∈ Nat.toDigits 10 n, c ≠ NUL := by
  decide

theorem int_log_two_eq (x : ℚ) (e : Int) (hx : 0 < x) (h1 : (2 : ℚ) ^ e ≤ x)
    (h2 : x < (2 : ℚ) ^ (e + 1)) : Int.log 2 x = e := by
  have a : e ≤ Int.log 2 x := (Int.zpow_le_iff_le_log (by norm_num) hx).mp (by exact_mod_cast h1)
  have b : Int.log 2 x < e + 1 := (Int.lt_zpow_iff_log_lt (by norm_num) hx).mp (by exact_mod_cast h2)
  omega

theorem binary32_round_bounds (x : ℚ) (h0 : 0 ≤ x) :
    0 ≤ binary32_round x ∧ binary32_round x ≤ 2 * x + 1 := by
  have hnx : ¬ x < 0 := not_lt.mpr h0
  have hq0 : (0 : ℚ) < 2 ^ (max (Int.log 2 x) (-126) - 23) := zpow_pos (by norm_num) _
  have hq1 : (2 : ℚ) ^ (max (Int.log 2 x) (-126) - 23) ≤ x + 1 := by
    by_cases he : max (Int.log 2 x) (-126) - 23 ≤ 0
    · have := zpow_le_one_of_nonpos₀ (by norm_num : (1 : ℚ) ≤ 2) he
      linarith
    · have hlog : max (Int.log 2 x) (-126) = Int.log 2 x := by
        rcases max_cases (Int.log 2 x) (-126) with ⟨h, -⟩ | ⟨h, -⟩
        · exact h
        · omega
      have hx : 0 < x := by
        rcases lt_or_eq_of_le h0 with h | h
        · exact h
        · exfalso
          rw [← h, Int.log_zero_right] at he
          norm_num at he
      have a : (2 : ℚ) ^ (Int.log 2 x - 23) ≤ 2 ^ Int.log 2 x :=
        zpow_le_zpow_right₀ (by norm_num) (by omega)
      have b : (2 : ℚ) ^ Int.log 2 x ≤ x := by
        have := Int.zpow_log_le_self (by norm_num : 1 < 2) hx
        exact_mod_cast this
      rw [hlog]
      linarith
  unfold binary32_round
  simp only [abs_of_nonneg h0, hnx, if_false, one_mul]
  generalize (2 : ℚ) ^ (max (Int.log 2 x) (-126) - 23) = q at hq0 hq1
  have hd0 : 0 ≤ x / q := div_nonneg h0 (le_of_lt hq0)
  have hn0 : 0 ≤ ⌊x / q⌋ := Int.floor_nonneg.mpr hd0
  have hn1 : ((⌊x / q⌋ : Int) : ℚ) ≤ x / q := Int.floor_le _
  have hxq : x / q * q = x := div_mul_cancel₀ x (ne_of_gt hq0)
  have key : ∀ m : Int, ⌊x / q⌋ ≤ m → m ≤ ⌊x / q⌋ + 1 →
      0 ≤ (m : ℚ) * q ∧ (m : ℚ) * q ≤ 2 * x + 1 := by
    intro m h1 h2
    have m0 : (0 : ℚ) ≤ (m : ℚ) := by exact_mod_cast le_trans hn0 h1
    have m1 : (m : ℚ) ≤ x / q + 1 := by
      have : (m : ℚ) ≤ ((⌊x / q⌋ : Int) : ℚ) + 1 := by exact_mod_cast h2
      linarith
    refine ⟨mul_nonneg m0 (le_of_lt hq0), ?_⟩
    have : (m : ℚ) * q ≤ (x / q + 1) * q := mul_le_mul_of_nonneg_right m1 (le_of_lt hq0)
    rw [add_mul, hxq, one_mul] at this
    linarith
  split_ifs
  · exact key _ (le_refl _) (by omega)
  · exact key _ (by omega) (le_refl _)
  · exact key _ (le_refl _) (by omega)
  · exact key _ (by omega) (le_refl _)

theorem binary32_round_zero : binary32_round 0 = 0 := by
  simp [binary32_round]

theorem float_to_string_parts (value : ℚ) (h0 : 0 ≤ value) :
    truncToInt value = ((⌊value⌋.toNat : Nat) : Int)
      ∧ toU8 (binary32_round (binary32_round (value - ((truncToInt value : Int) : ℚ)) * 10))
          = ⌊binary32_round (binary32_round (value - ⌊value⌋) * 10)⌋.toNat := by
  have hn : 0 ≤ ⌊value⌋ := Int.floor_nonneg.mpr h0
  have ht : truncToInt value = ⌊value⌋ := truncToInt_of_nonneg value h0
  have hfr0 : 0 ≤ value - (⌊value⌋ : ℚ) := sub_nonneg.mpr (Int.floor_le value)
  have hfr1 : value - (⌊value⌋ : ℚ) < 1 := by
    have := Int.lt_floor_add_one value
    linarith
  obtain ⟨a0, a1⟩ := binary32_round_bounds _ hfr0
  have hp0 : 0 ≤ binary32_round (value - ⌊value⌋) * 10 := by positivity
  obtain ⟨b0, b1⟩ := binary32_round_bounds _ hp0
  have hf0 : 0 ≤ ⌊binary32_round (binary32_round (value - ⌊value⌋) * 10)⌋ :=
    Int.floor_nonneg.mpr b0
  have hf1 : ⌊binary32_round (binary32_round (value - ⌊value⌋) * 10)⌋ < 256 :=
    Int.floor_lt.mpr (by push_cast; linarith)
  refine ⟨?_, ?_⟩
  · rw [ht]; omega
  · rw [ht, toU8, truncToInt_of_nonneg _ b0]
    omega

theorem digitChar_eq (d : Nat) :
    byteChar ((((d % 10 : Nat) : Nat) : Int) + 48) = Nat.digitChar (d % 10) := by
  have h : d % 10 < 10 := Nat.mod_lt _ (by norm_num)
  generalize d % 10 = k at h
  interval_cases k <;> decide

theorem digitChar_ne_NUL (d : Nat) : Nat.digitChar (d % 10) ≠ NUL := by
  have h : d % 10 < 10 := Nat.mod_lt _ (by norm_num)
  generalize d % 10 = k at h
  interval_cases k <;> decide

theorem float_to_string_writes_small (value : ℚ) (unit : Char) (h0 : 0 ≤ value)
    (h1 : value < 1000) :
    float_to_string_writes value unit =
      [(0, NUL)]
        ++ (if unit ≠ ' ' then [((Nat.toDigits 10 ⌊value⌋.toNat).length + 2, unit)] else [])
        ++ [((Nat.toDigits 10 ⌊value⌋.toNat).length + 3, NUL)]
        ++ [((Nat.toDigits 10 ⌊value⌋.toNat).length + 1,
              Nat.digitChar
                (⌊binary32_round (binary32_round (value - ⌊value⌋) * 10)⌋.toNat % 10))]
        ++ [((Nat.toDigits 10 ⌊value⌋.toNat).length, '.')]
        ++ (List.range (Nat.toDigits 10 ⌊value⌋.toNat).length).reverse.zip
            (Nat.toDigits 10 ⌊value⌋.toNat).reverse := by
  obtain ⟨p1, p2⟩ := float_to_string_parts value h0
  have hn : ⌊value⌋.toNat < 1000 := by
    have a : ⌊value⌋ < 1000 := Int.floor_lt.mpr (by exact_mod_cast h1)
    have b := Int.floor_nonneg.mpr h0
    omega
  obtain ⟨q1, q2, q3, q4, -⟩ := float_to_string_loops_small _ hn
  have e1 : ((Nat.toDigits 10 ⌊value⌋.toNat).length + 2) % 256
      = (Nat.toDigits 10 ⌊value⌋.toNat).length + 2 := by omega
  have e2 : ((Nat.toDigits 10 ⌊value⌋.toNat).length + 2 + 255) % 256
      = (Nat.toDigits 10 ⌊value⌋.toNat).length + 1 := by omega
  have e3 : ((Nat.toDigits 10 ⌊value⌋.toNat).length + 1 + 255) % 256
      = (Nat.toDigits 10 ⌊value⌋.toNat).length := by omega
  simp only [float_to_string_writes]
  rw [p2, p1]
  simp only [Int.natAbs_ofNat]
  rw [q1, e1, e2, e3, q4, digitChar_eq]

/-- C20, as stated, fails: 11744051/16777216 is the binary32 value nearest to
0.7 (the `float` 0.7f), inside the range 0 <= value < 1000.  The claim's digit
floor(10 * (value - floor(value))) is 6, so the claim gives 0.6V; the product
(value - 0) * 10 = 6.99999988.. rounds to the binary32 value 7, and
float_to_string returns 0.7V. -/
theorem float_to_string_format_counterexample :
    (0 : ℚ) ≤ 11744051 / 16777216 ∧ (11744051 / 16777216 : ℚ) < 1000
      ∧ binary32_round (11744051 / 16777216) = 11744051 / 16777216
      ∧ Nat.toDigits 10 ⌊(11744051 / 16777216 : ℚ)⌋.toNat = ['0']
      ∧ Nat.digitChar ⌊10 * ((11744051 / 16777216 : ℚ) - ⌊(11744051 / 16777216 : ℚ)⌋)⌋.toNat
          = '6'
      ∧ float_to_string (11744051 / 16777216) 'V' = "0.7V"
      ∧ float_to_string (11744051 / 16777216) 'V' ≠ "0.6V" := by
  have hfl : ⌊(11744051 / 16777216 : ℚ)⌋ = 0 := by
    rw [Int.floor_eq_iff]; norm_num
  have h6 : ⌊10 * ((11744051 / 16777216 : ℚ) - ((0 : Int) : ℚ))⌋ = 6 := by
    rw [Int.floor_eq_iff]; norm_num
  have hr : binary32_round (11744051 / 16777216) = 11744051 / 16777216 := by
    have hl : Int.log 2 |(11744051 / 16777216 : ℚ)| = -1 := by
      apply int_log_two_eq <;> norm_num [abs_of_pos]
    have hf : ⌊(11744051 : ℚ)⌋ = 11744051 := Int.floor_natCast 11744051
    unfold binary32_round
    simp only [hl]
    norm_num [abs_of_pos, hf]
  have hm : binary32_round (11744051 / 16777216 * 10) = 7 := by
    have hl : Int.log 2 |(11744051 / 16777216 * 10 : ℚ)| = 2 := by
      apply int_log_two_eq <;> norm_num [abs_of_pos]
    have hf : ⌊(58720255 / 4 : ℚ)⌋ = 14680063 := by
      rw [Int.floor_eq_iff]; norm_num
    unfold binary32_round
    simp only [hl]
    norm_num [abs_of_pos, hf]
  have h7 : ⌊binary32_round (binary32_round
      ((11744051 / 16777216 : ℚ) - ((0 : Int) : ℚ)) * 10)⌋ = 7 := by
    rw [Int.cast_zero, sub_zero, hr, hm]
    exact Int.floor_natCast 7
  have hs : float_to_string (11744051 / 16777216) 'V' = "0.7V" := by
    unfold float_to_string
    rw [float_to_string_writes_small _ 'V' (by norm_num) (by norm_num), hfl, h7]
    decide
  refine ⟨by norm_num, by norm_num, hr, ?_, ?_, hs, ?_⟩
  · rw [hfl]; decide
  · rw [hfl, h6]; decide
  · rw [hs]; decide

/-- C20, amended. float_to_string format: for every value with
0 <= value < 1000, with `digits` the decimal digits of floor(value) without
leading zeros and `d` the digit floor(p) mod 10, where p is the binary32 result
of (value - floor(value)) * 10, each of the two operations rounded to nearest:
for every unit other than space the buffer starts with digits, '.', d, unit,
NUL, so the string returned is digits, '.', d and then unit; for unit = space
the buffer starts with digits, '.', d, NUL and the string returned is digits,
'.', d.  When the difference and the product are binary32 values themselves
(no rounding), d is the digit floor(10 * (value - floor(value))). -/
theorem float_to_string_format (value : ℚ) (unit : Char) (h0 : 0 ≤ value)
    (h1 : value < 1000) :
    (unit ≠ ' ' →
        (gString_after (float_to_string_writes value unit)).take
            ((Nat.toDigits 10 ⌊value⌋.toNat).length + 4)
          = Nat.toDigits 10 ⌊value⌋.toNat
              ++ ['.', Nat.digitChar
                    (⌊binary32_round (binary32_round (value - ⌊value⌋) * 10)⌋.toNat % 10),
                  unit, NUL])
      ∧ (unit ≠ ' ' → unit ≠ NUL →
        float_to_string value unit
          = String.mk (Nat.toDigits 10 ⌊value⌋.toNat
              ++ ['.', Nat.digitChar
                    (⌊binary32_round (binary32_round (value - ⌊value⌋) * 10)⌋.toNat % 10),
                  unit]))
      ∧ ((gString_after (float_to_string_writes value ' ')).take
            ((Nat.toDigits 10 ⌊value⌋.toNat).length + 3)
          = Nat.toDigits 10 ⌊value⌋.toNat
              ++ ['.', Nat.digitChar
                    (⌊binary32_round (binary32_round (value - ⌊value⌋) * 10)⌋.toNat % 10),
                  NUL])
      ∧ float_to_string value ' '
          = String.mk (Nat.toDigits 10 ⌊value⌋.toNat
              ++ ['.', Nat.digitChar
                    (⌊binary32_round (binary32_round (value - ⌊value⌋) * 10)⌋.toNat % 10)])
      ∧ (binary32_round (value - ⌊value⌋) = value - ⌊value⌋ →
          binary32_round ((value - ⌊value⌋) * 10) = (value - ⌊value⌋) * 10 →
          ⌊binary32_round (binary32_round (value - ⌊value⌋) * 10)⌋.toNat % 10
            = ⌊10 * (value - ⌊value⌋)⌋.toNat) := by
  have hn : ⌊value⌋.toNat < 1000 := by
    have a : ⌊value⌋ < 1000 := Int.floor_lt.mpr (by exact_mod_cast h1)
    have b := Int.floor_nonneg.mpr h0
    omega
  have hfd : Nat.digitChar
      (⌊binary32_round (binary32_round (value - ⌊value⌋) * 10)⌋.toNat % 10) ≠ NUL :=
    digitChar_ne_NUL _
  have hexact : binary32_round (value - ⌊value⌋) = value - ⌊value⌋ →
      binary32_round ((value - ⌊value⌋) * 10) = (value - ⌊value⌋) * 10 →
      ⌊binary32_round (binary32_round (value - ⌊value⌋) * 10)⌋.toNat % 10
        = ⌊10 * (value - ⌊value⌋)⌋.toNat := by
    intro e1 e2
    rw [e1, e2, mul_comm]
    have hfr0 : 0 ≤ value - (⌊value⌋ : ℚ) := sub_nonneg.mpr (Int.floor_le value)
    have hfr1 : value - (⌊value⌋ : ℚ) < 1 := by
      have := Int.lt_floor_add_one value
      linarith
    have hq0 : 0 ≤ 10 * (value - (⌊value⌋ : ℚ)) := by positivity
    have hf0 : 0 ≤ ⌊10 * (value - (⌊value⌋ : ℚ))⌋ := Int.floor_nonneg.mpr hq0
    have hf1 : ⌊10 * (value - (⌊value⌋ : ℚ))⌋ < 10 :=
      Int.floor_lt.mpr (by push_cast; linarith)
    omega
  obtain ⟨-, q2, q3, -, hdig⟩ := float_to_string_loops_small _ hn
  have r1 : (List.range 1).reverse = [0] := by decide
  have r2 : (List.range 2).reverse = [1, 0] := by decide
  have r3 : (List.range 3).reverse = [2, 1, 0] := by decide
  have hdot : ('.' = NUL) = False := by simp; decide
  have main : (unit ≠ ' ' →
        (gString_after (float_to_string_writes value unit)).take
            ((Nat.toDigits 10 ⌊value⌋.toNat).length + 4)
          = Nat.toDigits 10 ⌊value⌋.toNat
              ++ ['.', Nat.digitChar
                    (⌊binary32_round (binary32_round (value - ⌊value⌋) * 10)⌋.toNat % 10),
                  unit, NUL])
      ∧ (unit ≠ ' ' → unit ≠ NUL →
        float_to_string value unit
          = String.mk (Nat.toDigits 10 ⌊value⌋.toNat
              ++ ['.', Nat.digitChar
                    (⌊binary32_round (binary32_round (value - ⌊value⌋) * 10)⌋.toNat % 10),
                  unit]))
      ∧ ((gString_after (float_to_string_writes value ' ')).take
            ((Nat.toDigits 10 ⌊value⌋.toNat).length + 3)
          = Nat.toDigits 10 ⌊value⌋.toNat
              ++ ['.', Nat.digitChar
                    (⌊binary32_round (binary32_round (value - ⌊value⌋) * 10)⌋.toNat % 10),
                  NUL])
      ∧ float_to_string value ' '
          = String.mk (Nat.toDigits 10 ⌊value⌋.toNat
              ++ ['.', Nat.digitChar
                    (⌊binary32_round (binary32_round (value - ⌊value⌋) * 10)⌋.toNat % 10)]) := by
    unfold float_to_string
    rw [float_to_string_writes_small value unit h0 h1,
      float_to_string_writes_small value ' ' h0 h1]
    generalize Nat.toDigits 10 ⌊value⌋.toNat = ds at q2 q3 hdig
    generalize Nat.digitChar
      (⌊binary32_round (binary32_round (value - ⌊value⌋) * 10)⌋.toNat % 10) = fd at hfd
    match ds, q2, q3, hdig with
    | [a], _, _, hdig =>
      have ha : a ≠ NUL := hdig a (by simp)
      refine ⟨fun hu => ?_, fun hu hz => ?_, ?_, ?_⟩ <;>
        simp [gString_after, gString_calloc, List.replicate, cstring, List.takeWhile, r1, r2, r3,
          hdot, *]
    | [a, b], _, _, hdig =>
      have ha : a ≠ NUL := hdig a (by simp)
      have hb : b ≠ NUL := hdig b (by simp)
      refine ⟨fun hu => ?_, fun hu hz => ?_, ?_, ?_⟩ <;>
        simp [gString_after, gString_calloc, List.replicate, cstring, List.takeWhile, r1, r2, r3,
          hdot, *]
    | [a, b, c], _, _, hdig =>
      have ha : a ≠ NUL := hdig a (by simp)
      have hb : b ≠ NUL := hdig b (by simp)
      have hc : c ≠ NUL := hdig c (by simp)
      refine ⟨fun hu => ?_, fun hu hz => ?_, ?_, ?_⟩ <;>
        simp [gString_after, gString_calloc, List.replicate, cstring, List.takeWhile, r1, r2, r3,
          hdot, *]
  exact ⟨main.1, main.2.1, main.2.2.1, main.2.2.2, hexact⟩

/-- Witness of `float_to_string_format`: 40.0 with '%' gives 40.0%. -/
theorem float_to_string_format_witness :
    float_to_string 40 '%' = "40.0%" := by
  have h := (float_to_string_format 40 '%' (by norm_num) (by norm_num)).2.1
    (by decide) (by decide)
  rw [h]
  have e1 : ⌊(40 : ℚ)⌋ = 40 := Int.floor_natCast 40
  have e2 : ⌊binary32_round (binary32_round ((40 : ℚ) - ((40 : Int) : ℚ)) * 10)⌋ = 0 := by
    norm_num [binary32_round_zero]
  rw [e1, e2]
  decide

/-! ## Matrix keypad -/

theorem scan_columns_idle (pin : KeypadPins) (w t : Nat) (hpin : ∀ u c r, pin u c r = false) :
    scan_columns pin w [0, 1, 2, 3] t = some (none, t + 12) := by
  simp [scan_columns, scan_column, hpin]

theorem scan_loop_idle_pos (pin : KeypadPins) (w : Nat) (hpin : ∀ u c r, pin u c r = false)
    (cycles : Int) (hc : cycles > 0) (n : Nat) :
    ∀ (fuel t : Nat), n < fuel →
      scan_loop pin w fuel cycles (n : Int) t = some (NUL, t + 12 * n) := by
  induction n with
  | zero =>
    intro fuel t hf
    obtain ⟨f, rfl⟩ : ∃ f, fuel = f + 1 := ⟨fuel - 1, by omega⟩
    simp [scan_loop]
  | succ n ih =>
    intro fuel t hf
    obtain ⟨f, rfl⟩ : ∃ f, fuel = f + 1 := ⟨fuel - 1, by omega⟩
    have hne : ((n + 1 : Nat) : Int) ≠ 0 := by omega
    have hsub : ((n + 1 : Nat) : Int) - 1 = (n : Int) := by omega
    simp only [scan_loop, hne, if_false, scan_columns_idle pin w t hpin, hc, if_true, hsub]
    rw [ih f (t + 12) (by omega)]
    congr 2
    omega

theorem scan_loop_idle_neg (pin : KeypadPins) (w : Nat) (hpin : ∀ u c r, pin u c r = false)
    (cycles count : Int) (hc : ¬ cycles > 0) (hn : count ≠ 0) (fuel : Nat) :
    ∀ t : Nat, scan_loop pin w fuel cycles count t = none := by
  induction fuel with
  | zero => intro t; rfl
  | succ f ih =>
    intro t
    simp only [scan_loop, hn, if_false, scan_columns_idle pin w t hpin, hc]
    exact ih (t + 12)

theorem scan_key_mem (pin : KeypadPins) (w c r t : Nat) (k : Char) (t1 : Nat)
    (hc : c < 4) (hr4 : 4 ≤ r) (hr6 : r ≤ 6)
    (h : scan_key pin w c r t = some (k, t1)) : k ∈ keyCodes := by
  unfold scan_key at h
  split_ifs at h with hh
  · simp only [Option.some.injEq, Prod.mk.injEq] at h
    rw [← h.1]
    split_ifs <;> decide
  · cases hw : wait_release pin c r w t with
    | none => simp [hw] at h
    | some t2 =>
      simp only [hw, Option.some.injEq, Prod.mk.injEq] at h
      rw [← h.1]
      have hr : r = 4 ∨ r = 5 ∨ r = 6 := by omega
      interval_cases c <;> rcases hr with rfl | rfl | rfl <;>
        first
        | (simp at hh; done)
        | decide

theorem scan_column_mem (pin : KeypadPins) (w c t : Nat) (k : Char) (t1 : Nat) (hc : c < 4)
    (h : scan_column pin w c t = some (some k, t1)) : k ∈ keyCodes := by
  unfold scan_column at h
  split_ifs at h
  · cases hs : scan_key pin w c 4 (t + 1) with
    | none => simp [hs] at h
    | some p =>
      obtain ⟨k2, t2⟩ := p
      simp only [hs, Option.map_some', Option.some.injEq, Prod.mk.injEq] at h
      rw [← h.1]
      exact scan_key_mem pin w c 4 (t + 1) k2 t2 hc (by omega) (by omega) hs
  · cases hs : scan_key pin w c 5 (t + 2) with
    | none => simp [hs] at h
    | some p =>
      obtain ⟨k2, t2⟩ := p
      simp only [hs, Option.map_some', Option.some.injEq, Prod.mk.injEq] at h
      rw [← h.1]
      exact scan_key_mem pin w c 5 (t + 2) k2 t2 hc (by omega) (by omega) hs
  · cases hs : scan_key pin w c 6 (t + 3) with
    | none => simp [hs] at h
    | some p =>
      obtain ⟨k2, t2⟩ := p
      simp only [hs, Option.map_some', Option.some.injEq, Prod.mk.injEq] at h
      rw [← h.1]
      exact scan_key_mem pin w c 6 (t + 3) k2 t2 hc (by omega) (by omega) hs
  · simp at h

theorem scan_columns_mem (pin : KeypadPins) (w : Nat) (k : Char) (t1 : Nat) :
    ∀ (cs : List Nat) (t : Nat), (∀ c ∈ cs, c < 4) →
      scan_columns pin w cs t = some (some k, t1) → k ∈ keyCodes := by
  intro cs
  induction cs with
  | nil => intro t _ h; simp [scan_columns] at h
  | cons c cs ih =>
    intro t hcs h
    unfold scan_columns at h
    cases hs : scan_column pin w c t with
    | none => simp [hs] at h
    | some p =>
      obtain ⟨o, t2⟩ := p
      cases o with
      | none =>
        simp only [hs] at h
        exact ih t2 (fun c hc => hcs c (List.mem_cons_of_mem _ hc)) h
      | some k2 =>
        simp only [hs, Option.some.injEq, Prod.mk.injEq] at h
        have := scan_column_mem pin w c t k2 t2 (hcs c (List.mem_cons_self _ _)) hs
        rw [← h.1]
        exact this

theorem scan_loop_mem (pin : KeypadPins) (w : Nat) (cycles : Int) (k : Char) (t1 : Nat) :
    ∀ (fuel : Nat) (count : Int) (t : Nat),
      scan_loop pin w fuel cycles count t = some (k, t1) →
        (k ∈ keyCodes ∨ (k = NUL ∧ 0 < cycles)) ∨ (k = NUL ∧ count = 0) := by
  intro fuel
  induction fuel with
  | zero => intro count t h; simp [scan_loop] at h
  | succ f ih =>
    intro count t h
    by_cases hz : count = 0
    · simp only [scan_loop, hz, if_true, Option.some.injEq, Prod.mk.injEq] at h
      exact Or.inr ⟨h.1.symm, hz⟩
    · simp only [scan_loop, hz, if_false] at h
      cases hs : scan_columns pin w [0, 1, 2, 3] t with
      | none => simp [hs] at h
      | some p =>
        obtain ⟨o, t2⟩ := p
        cases o with
        | some k2 =>
          simp only [hs, Option.some.injEq, Prod.mk.injEq] at h
          have := scan_columns_mem pin w k2 t2 [0, 1, 2, 3] t (by decide) hs
          rw [← h.1]
          exact Or.inl (Or.inl this)
        | none =>
          simp only [hs] at h
          by_cases hc : cycles > 0
          · rcases ih _ _ h with h1 | h1
            · exact Or.inl h1
            · exact Or.inl (Or.inr ⟨h1.1, hc⟩)
          · simp only [hc, if_false] at h
            rcases ih _ _ h with h1 | h1
            · exact Or.inl h1
            · exact absurd h1.2 hz

/-- C13. No-key sentinel: when no input line reads active, for every
cycles >= 0 scan_keypad_input(cycles) returns NUL after exactly `cycles` full
column-scan cycles (12 reads each; `fuel`, the bound on the number of cycles
followed, only has to exceed `cycles`); NUL is none of the 13 key codes; when
no input line reads active, for every cycles < 0 the routine has not returned
after any number `fuel` of cycles; and whatever the input lines read, a call
with cycles < 0 that returns returns one of the 13 key codes, never NUL. -/
theorem no_key_sentinel (pin : KeypadPins) (cycles : Int) (fuel t : Nat) :
    ((∀ u c r, pin u c r = false) → 0 ≤ cycles → cycles < fuel →
        scan_keypad_input pin fuel cycles t = some (NUL, t + 12 * cycles.toNat))
      ∧ NUL ∉ keyCodes
      ∧ ((∀ u c r, pin u c r = false) → cycles < 0 → -32768 ≤ cycles →
          scan_keypad_input pin fuel cycles t = none)
      ∧ (cycles < 0 → -32768 ≤ cycles → ∀ (k : Char) (t1 : Nat),
          scan_keypad_input pin fuel cycles t = some (k, t1) → k ∈ keyCodes ∧ k ≠ NUL) := by
  refine ⟨?_, by decide, ?_, ?_⟩
  · intro hpin h0 hf
    have hlt : ¬ cycles < 0 := by omega
    simp only [scan_keypad_input, hlt, if_false]
    by_cases hz : cycles = 0
    · subst hz
      obtain ⟨f, rfl⟩ : ∃ f, fuel = f + 1 := ⟨fuel - 1, by omega⟩
      simp [scan_loop]
    · have hpos : cycles > 0 := by omega
      have e : cycles = ((cycles.toNat : Nat) : Int) := by omega
      have := scan_loop_idle_pos pin fuel hpin cycles hpos cycles.toNat fuel t (by omega)
      rw [← e] at this
      exact this
  · intro hpin hneg hmin
    simp only [scan_keypad_input, hneg, if_true]
    apply scan_loop_idle_neg pin fuel hpin
    · omega
    · unfold int16; omega
  · intro hneg hmin k t1 h
    simp only [scan_keypad_input, hneg, if_true] at h
    have hne : int16 (-1 * cycles) ≠ 0 := by unfold int16; omega
    have hk : k ∈ keyCodes := by
      rcases scan_loop_mem pin fuel cycles k t1 fuel _ t h with (h1 | h1) | h1
      · exact h1
      · omega
      · exact absurd h1.2 hne
    refine ⟨hk, ?_⟩
    intro e
    rw [e] at hk
    exact absurd hk (by decide)

/-- Witness of `no_key_sentinel`: scan_keypad_input(5000), the call of
central_hub, returns NUL after 5000 cycles; scan_keypad_input(-1) has not
returned after 5001 cycles; and scan_keypad_input(-1), with the PB1/PB5 key
pressed from read 40 to read 69, returns the key code '5'. -/
theorem no_key_sentinel_witness :
    scan_keypad_input (fun _ _ _ => false) 5001 5000 0 = some (NUL, 0 + 12 * (5000 : Int).toNat)
      ∧ scan_keypad_input (fun _ _ _ => false) 5001 (-1) 0 = none
      ∧ scan_keypad_input (fun u c r => decide (c = 1 ∧ r = 5 ∧ 40 ≤ u ∧ u < 70)) 100 (-1) 0
          = some ('5', 71)
      ∧ '5' ∈ keyCodes ∧ '5' ≠ NUL :=
  ⟨(no_key_sentinel (fun _ _ _ => false) 5000 5001 0).1 (fun _ _ _ => rfl)
      (by norm_num) (by norm_num),
   (no_key_sentinel (fun _ _ _ => false) (-1) 5001 0).2.2.1 (fun _ _ _ => rfl)
      (by norm_num) (by norm_num),
   by decide,
   (no_key_sentinel (fun u c r => decide (c = 1 ∧ r = 5 ∧ 40 ≤ u ∧ u < 70)) (-1) 100 0).2.2.2
      (by norm_num) (by norm_num) '5' 71 (by decide)⟩

theorem wait_release_spec (pin : KeypadPins) (c r rel : Nat) (hrel : pin rel c r = false)
    (fuel : Nat) :
    ∀ t0 : Nat, (∀ u, t0 ≤ u → u < rel → pin u c r = true) → t0 ≤ rel → rel - t0 < fuel →
      wait_release pin c r fuel t0 = some (rel + 1) := by
  induction fuel with
  | zero => intro t0 _ _ hf; omega
  | succ f ih =>
    intro t0 hheld hle hf
    by_cases e : t0 = rel
    · subst e
      simp [wait_release, hrel]
    · have hp : pin t0 c r = true := hheld t0 (le_refl _) (by omega)
      simp only [wait_release, hp, if_true]
      exact ih (t0 + 1) (fun u hu hu2 => hheld u (by omega) hu2) (by omega) (by omega)

theorem hold_loop_fst (pin : KeypadPins) (fuel : Nat) :
    ∀ (ic t : Nat), ic + fuel = 601 → 1 ≤ fuel →
      ((hold_loop pin fuel ic t).1 > 599 ↔ ∀ i, i < 600 - ic → pin (t + i) 3 4 = true) := by
  induction fuel with
  | zero => intro ic t _ h; omega
  | succ f ih =>
    intro ic t hsum _
    by_cases hic : ic < 600
    · by_cases hp : pin t 3 4 = true
      · simp only [hold_loop, hp, hic, and_self, if_true]
        rw [ih (ic + 1) (t + 1) (by omega) (by omega)]
        constructor
        · intro h i hi
          by_cases hi0 : i = 0
          · subst hi0; simpa using hp
          · have := h (i - 1) (by omega)
            have e : t + 1 + (i - 1) = t + i := by omega
            rw [e] at this
            exact this
        · intro h i hi
          have := h (i + 1) (by omega)
          have e : t + (i + 1) = t + 1 + i := by omega
          rw [e] at this
          exact this
      · have hp2 : pin t 3 4 = false := by simpa using hp
        have e : (hold_loop pin (f + 1) ic t).1 = ic := by simp [hold_loop, hp2]
        rw [e]
        constructor
        · intro h; omega
        · intro h
          have := h 0 (by omega)
          rw [Nat.add_zero, hp2] at this
          exact absurd this (by decide)
    · have e : ic = 600 := by omega
      subst e
      simp [hold_loop]

theorem scan_columns_idle_key (pin : KeypadPins) (w kc kr t : Nat)
    (hkc : kc < 4) (hkr4 : 4 ≤ kr) (hkr6 : kr ≤ 6)
    (honly : ∀ u c r, ¬ (c = kc ∧ r = kr) → pin u c r = false)
    (hoff : pin (t + (3 * kc + (kr - 4))) kc kr = false) :
    scan_columns pin w [0, 1, 2, 3] t = some (none, t + 12) := by
  have hkr : kr = 4 ∨ kr = 5 ∨ kr = 6 := by omega
  interval_cases kc <;> rcases hkr with rfl | rfl | rfl <;>
    (simp only [Nat.reduceMul, Nat.reduceSub, Nat.reduceAdd, Nat.add_zero] at hoff
     simp [scan_columns, scan_column, honly, hoff, Nat.add_assoc])

theorem scan_columns_key (pin : KeypadPins) (w kc kr t rel : Nat)
    (hkc : kc < 4) (hkr4 : 4 ≤ kr) (hkr6 : kr ≤ 6)
    (honly : ∀ u c r, ¬ (c = kc ∧ r = kr) → pin u c r = false)
    (hheld : ∀ u, t + (3 * kc + (kr - 4)) ≤ u → u < rel → pin u kc kr = true)
    (hrel : pin rel kc kr = false)
    (hseen : t + (3 * kc + (kr - 4)) < rel)
    (hw : rel - t < w) (hnh : ¬ (kc = 3 ∧ kr = 4)) :
    scan_columns pin w [0, 1, 2, 3] t = some (some (key_char kc kr), rel + 1) := by
  have hdet : pin (t + (3 * kc + (kr - 4))) kc kr = true := hheld _ (le_refl _) hseen
  have hwr : wait_release pin kc kr w (t + (3 * kc + (kr - 4) + 1)) = some (rel + 1) :=
    wait_release_spec pin kc kr rel hrel w _
      (fun u hu hu2 => hheld u (by omega) hu2) (by omega) (by omega)
  have hkr : kr = 4 ∨ kr = 5 ∨ kr = 6 := by omega
  interval_cases kc <;> rcases hkr with rfl | rfl | rfl <;>
    first
    | (simp at hnh; done)
    | (simp only [Nat.reduceMul, Nat.reduceSub, Nat.reduceAdd, Nat.add_zero] at hwr hdet
       simp [scan_columns, scan_column, scan_key, honly, hdet, hwr, key_char, Nat.add_assoc])

theorem scan_columns_hold_key (pin : KeypadPins) (w t : Nat)
    (honly : ∀ u c r, ¬ (c = 3 ∧ r = 4) → pin u c r = false)
    (hdet : pin (t + 9) 3 4 = true) :
    scan_columns pin w [0, 1, 2, 3] t
      = some (some (if (hold_loop pin 601 0 (t + 10)).1 > 599 then '$' else '*'),
          (hold_loop pin 601 0 (t + 10)).2) := by
  simp [scan_columns, scan_column, scan_key, honly, hdet, Nat.add_assoc]

theorem scan_loop_find (pin : KeypadPins) (w : Nat) (cycles : Int) (k : Char) (t1 : Nat)
    (j : Nat) :
    ∀ (fuel : Nat) (count : Int) (t : Nat),
      (∀ i, i < j → scan_columns pin w [0, 1, 2, 3] (t + 12 * i) = some (none, t + 12 * i + 12)) →
      scan_columns pin w [0, 1, 2, 3] (t + 12 * j) = some (some k, t1) →
      j < fuel → (cycles > 0 → (j : Int) < count) → (¬ cycles > 0 → count ≠ 0) →
      scan_loop pin w fuel cycles count t = some (k, t1) := by
  induction j with
  | zero =>
    intro fuel count t _ hfound hf hpos hneg
    obtain ⟨f, rfl⟩ : ∃ f, fuel = f + 1 := ⟨fuel - 1, by omega⟩
    have hne : count ≠ 0 := by
      by_cases hc : cycles > 0
      · have := hpos hc; omega
      · exact hneg hc
    simp only [Nat.mul_zero, Nat.add_zero] at hfound
    simp only [scan_loop, hne, if_false, hfound]
  | succ j ih =>
    intro fuel count t hidle hfound hf hpos hneg
    obtain ⟨f, rfl⟩ : ∃ f, fuel = f + 1 := ⟨fuel - 1, by omega⟩
    have hne : count ≠ 0 := by
      by_cases hc : cycles > 0
      · have := hpos hc; omega
      · exact hneg hc
    have h0 := hidle 0 (by omega)
    simp only [Nat.mul_zero, Nat.add_zero] at h0
    simp only [scan_loop, hne, if_false, h0]
    apply ih f _ (t + 12)
    · intro i hi
      have := hidle (i + 1) (by omega)
      have e : t + 12 * (i + 1) = t + 12 + 12 * i := by omega
      rw [e] at this
      exact this
    · have e : t + 12 + 12 * j = t + 12 * (j + 1) := by omega
      rw [e]
      exact hfound
    · omega
    · intro hc
      have := hpos hc
      simp only [hc, if_true]
      omega
    · intro hc
      simp only [hc, if_false]
      exact hneg hc

theorem scan_keypad_input_find (pin : KeypadPins) (fuel t j : Nat) (cycles : Int)
    (hcy : cycles < 0 ∨ (j : Int) < cycles) (hmin : -32768 ≤ cycles) (hf : j < fuel)
    (k : Char) (t1 : Nat)
    (hidle : ∀ i, i < j →
      scan_columns pin fuel [0, 1, 2, 3] (t + 12 * i) = some (none, t + 12 * i + 12))
    (h : scan_columns pin fuel [0, 1, 2, 3] (t + 12 * j) = some (some k, t1)) :
    scan_keypad_input pin fuel cycles t = some (k, t1) := by
  unfold scan_keypad_input
  apply scan_loop_find pin fuel cycles k t1 j fuel _ t hidle h hf
  · intro hc
    have : ¬ cycles < 0 := by omega
    simp only [this, if_false]
    omega
  · intro hc
    unfold int16
    split_ifs <;> omega

/-- C14. Key decoding: exactly one key is pressed, the one on driven line PBkc
and sampled line PBkr.  The routine, called at read `t` with cycles < 0 or
cycles > j, samples the key's line once in every column-scan cycle (12 reads);
the key reads inactive at its sample in each of the first `j` cycles (it is
pressed while the routine waits; j = 0: it is down when the routine first
samples it), reads active from its sample in cycle `j` until it reads inactive
at read `rel`.  Then scan_keypad_input returns the character of the table
PB0: 1 2 3, PB1: 4 5 6, PB2: 7 8 9, PB3: * or $, 0, # (columns PB4, PB5, PB6),
on return the key has been released; for the PB3/PB4 key it returns '$' if
the line reads active on all 600 hold samples (the reads after the one that
found the key) and '*' otherwise. -/
theorem key_decoding (pin : KeypadPins) (kc kr t rel fuel j : Nat) (cycles : Int)
    (hkc : kc < 4) (hkr4 : 4 ≤ kr) (hkr6 : kr ≤ 6)
    (honly : ∀ u c r, ¬ (c = kc ∧ r = kr) → pin u c r = false)
    (hfirst : ∀ i, i < j → pin (t + 12 * i + (3 * kc + (kr - 4))) kc kr = false)
    (hheld : ∀ u, t + 12 * j + (3 * kc + (kr - 4)) ≤ u → u < rel → pin u kc kr = true)
    (hrel : pin rel kc kr = false)
    (hseen : t + 12 * j + (3 * kc + (kr - 4)) < rel)
    (hcy : cycles < 0 ∨ (j : Int) < cycles) (hmin : -32768 ≤ cycles)
    (hfuel : rel - t < fuel) :
    (¬ (kc = 3 ∧ kr = 4) →
        scan_keypad_input pin fuel cycles t = some (key_char kc kr, rel + 1))
      ∧ (kc = 3 ∧ kr = 4 →
        ∃ (k : Char) (t1 : Nat), scan_keypad_input pin fuel cycles t = some (k, t1)
          ∧ ((∀ i, i < 600 → pin (t + 12 * j + 10 + i) 3 4 = true) → k = '$')
          ∧ (¬ (∀ i, i < 600 → pin (t + 12 * j + 10 + i) 3 4 = true) → k = '*'))
      ∧ [[key_char 0 4, key_char 0 5, key_char 0 6], [key_char 1 4, key_char 1 5, key_char 1 6],
          [key_char 2 4, key_char 2 5, key_char 2 6], [key_char 3 5, key_char 3 6]]
          = [['1', '2', '3'], ['4', '5', '6'], ['7', '8', '9'], ['0', '#']] := by
  have hidle : ∀ i, i < j →
      scan_columns pin fuel [0, 1, 2, 3] (t + 12 * i) = some (none, t + 12 * i + 12) :=
    fun i hi => scan_columns_idle_key pin fuel kc kr (t + 12 * i) hkc hkr4 hkr6 honly (hfirst i hi)
  refine ⟨?_, ?_, by decide⟩
  · intro hnh
    exact scan_keypad_input_find pin fuel t j cycles hcy hmin (by omega) _ _ hidle
      (scan_columns_key pin fuel kc kr (t + 12 * j) rel hkc hkr4 hkr6 honly hheld hrel hseen
        (by omega) hnh)
  · rintro ⟨rfl, rfl⟩
    have hdet : pin (t + 12 * j + 9) 3 4 = true := hheld _ (by omega) (by omega)
    have hh := hold_loop_fst pin 601 0 (t + 12 * j + 10) (by omega) (by omega)
    refine ⟨_, _, scan_keypad_input_find pin fuel t j cycles hcy hmin (by omega) _ _ hidle
      (scan_columns_hold_key pin fuel (t + 12 * j) honly hdet), ?_, ?_⟩
    · intro hA
      have := hh.mpr (by simpa using hA)
      simp [this]
    · intro hA
      have hB : ¬ (hold_loop pin 601 0 (t + 12 * j + 10)).1 > 599 :=
        fun h => hA (by simpa using hh.mp h)
      simp [hB]

/-- Witness of `key_decoding`: scan_keypad_input(-1) is called at read 0 and
the key on PB1/PB5 is pressed while it waits, from read 40 to read 69: the
routine samples the key's line at the reads 4, 16, 28 (inactive) and 40 (active,
cycle j = 3), and returns '5' once the key is released. -/
theorem key_decoding_witness :
    scan_keypad_input (fun u c r => decide (c = 1 ∧ r = 5 ∧ 40 ≤ u ∧ u < 70)) 100 (-1) 0
      = some (key_char 1 5, 70 + 1) :=
  (key_decoding (fun u c r => decide (c = 1 ∧ r = 5 ∧ 40 ≤ u ∧ u < 70)) 1 5 0 70 100 3 (-1)
    (by norm_num) (by norm_num) (by norm_num)
    (by intro u c r h; simp only [decide_eq_false_iff_not]; tauto)
    (by intro i hi; simp only [decide_eq_false_iff_not]; omega)
    (by intro u h1 h2; simp only [decide_eq_true_eq]; exact ⟨trivial, trivial, by omega, h2⟩)
    (by simp) (by norm_num) (by norm_num) (by norm_num) (by norm_num)).1
    (by norm_num)

set_option maxRecDepth 100000 in
/-- C12 at the bottom-left key: the PB3/PB4 key is held for one contiguous
span, the reads 0..699, and read by successive calls of scan_keypad_input(-1).
The first call counts 600 active hold samples and returns '$' without waiting
for the release; the second call finds the key still pressed and returns '*':
two key events from one press. -/
theorem hold_key_press_read_twice :
    scan_keypad_input (fun u c r => decide (c = 3 ∧ r = 4 ∧ u < 700)) 10 (-1) 0
        = some ('$', 611)
      ∧ scan_keypad_input (fun u c r => decide (c = 3 ∧ r = 4 ∧ u < 700)) 10 (-1) 611
        = some ('*', 701) := by
  decide

/-! ## SOC limit range -/

theorem keyCodes_cases (k : Char) (h : k ∈ keyCodes) :
    k ∈ ['0', '1', '2', '3', '4'] ∨ k ∈ ['5', '6', '7', '8', '9'] ∨ k = '*' ∨ k = '#'
      ∨ k = '$' := by
  simp only [keyCodes, digitKeys, List.cons_append, List.nil_append, List.mem_cons,
    List.mem_singleton, List.not_mem_nil, or_false] at h ⊢
  tauto

theorem set_soc_limit_loop_range (keys : List Char) :
    ∀ (input : List Char) (s s1 : State) (rest : List Char),
      (∀ k ∈ keys, k ∈ keyCodes) →
      (input = [] ∨ ∃ d ∈ ['5', '6', '7', '8', '9'], input = [d]) →
      50 ≤ s.gSOC_Limit → s.gSOC_Limit ≤ 99 →
      set_soc_limit_loop keys input s = some (s1, rest) →
      50 ≤ s1.gSOC_Limit ∧ s1.gSOC_Limit ≤ 99 := by
  induction keys with
  | nil => intro input s s1 rest _ _ _ _ h; simp [set_soc_limit_loop] at h
  | cons k ks ih =>
    intro input s s1 rest hk hin h50 h99 h
    have hks : ∀ x ∈ ks, x ∈ keyCodes := fun x hx => hk x (List.mem_cons_of_mem _ hx)
    have hkc := keyCodes_cases k (hk k (List.mem_cons_self _ _))
    rcases hin with rfl | ⟨d, hd, rfl⟩
    · rcases hkc with h04 | h59 | rfl | rfl | rfl
      · rw [set_soc_limit_loop_skip_first k ks s (by
          simp only [List.mem_cons, List.mem_singleton, List.not_mem_nil, or_false] at h04 ⊢
          tauto)] at h
        exact ih [] s s1 rest hks (Or.inl rfl) h50 h99 h
      · have hmem := h59
        simp only [List.mem_cons, List.mem_singleton, List.not_mem_nil, or_false] at h59
        rcases h59 with rfl | rfl | rfl | rfl | rfl <;>
          (simp [set_soc_limit_loop] at h
           refine ih _ _ s1 rest hks (Or.inr ⟨_, hmem, rfl⟩) ?_ ?_ h
           · exact h50
           · exact h99)
      · rw [set_soc_limit_loop_skip_first '*' ks s (by decide)] at h
        exact ih [] s s1 rest hks (Or.inl rfl) h50 h99 h
      · simp [set_soc_limit_loop] at h
        obtain ⟨rfl, -⟩ := h
        exact ⟨h50, h99⟩
      · rw [set_soc_limit_loop_skip_first '$' ks s (by decide)] at h
        exact ih [] s s1 rest hks (Or.inl rfl) h50 h99 h
    · have hd' : 53 ≤ d.toNat ∧ d.toNat ≤ 57 ∧ d ∈ digitKeys := by
        simp only [List.mem_cons, List.mem_singleton, List.not_mem_nil, or_false] at hd
        rcases hd with rfl | rfl | rfl | rfl | rfl <;> decide
      have hdigit : k ∈ digitKeys → 50 ≤ s1.gSOC_Limit ∧ s1.gSOC_Limit ≤ 99 := by
        intro hkd
        obtain ⟨s2, e, f⟩ := set_soc_limit_loop_second d k ks s hkd
        rw [e] at h
        simp only [Option.some.injEq, Prod.mk.injEq] at h
        obtain ⟨rfl, -⟩ := h
        obtain ⟨-, lo, hi, -⟩ := digitKeys_facts k hkd
        rw [f, string_to_integer_two d k hd'.2.2 hkd]
        omega
      rcases hkc with h04 | h59 | rfl | rfl | rfl
      · exact hdigit (by
          simp only [digitKeys, List.mem_cons, List.mem_singleton, List.not_mem_nil,
            or_false] at h04 ⊢
          tauto)
      · exact hdigit (by
          simp only [digitKeys, List.mem_cons, List.mem_singleton, List.not_mem_nil,
            or_false] at h59 ⊢
          tauto)
      · rw [set_soc_limit_loop_skip_second '*' d ks s (by decide)] at h
        exact ih [d] s s1 rest hks (Or.inr ⟨d, hd, rfl⟩) h50 h99 h
      · simp [set_soc_limit_loop] at h
        obtain ⟨rfl, -⟩ := h
        exact ⟨h50, h99⟩
      · rw [set_soc_limit_loop_skip_second '$' d ks s (by decide)] at h
        exact ih [d] s s1 rest hks (Or.inr ⟨d, hd, rfl⟩) h50 h99 h

theorem set_soc_limit_loop_rest (keys : List Char) :
    ∀ (input : List Char) (s s1 : State) (rest : List Char),
      set_soc_limit_loop keys input s = some (s1, rest) → ∀ x ∈ rest, x ∈ keys := by
  induction keys with
  | nil => intro input s s1 rest h; simp [set_soc_limit_loop] at h
  | cons k ks ih =>
    intro input s s1 rest h x hx
    simp only [set_soc_limit_loop] at h
    split_ifs at h <;>
      first
      | (simp only [Option.some.injEq, Prod.mk.injEq] at h
         obtain ⟨-, rfl⟩ := h
         exact List.mem_cons_of_mem _ hx)
      | exact List.mem_cons_of_mem _ (ih _ _ _ _ h x hx)

theorem set_countdown_time_loop_rest (keys : List Char) :
    ∀ (input : List Char) (s s1 : State) (rest : List Char),
      set_countdown_time_loop keys input s = some (s1, rest) →
      (∀ x ∈ rest, x ∈ keys) ∧ s1.gSOC_Limit = s.gSOC_Limit := by
  induction keys with
  | nil => intro input s s1 rest h; simp [set_countdown_time_loop] at h
  | cons k ks ih =>
    intro input s s1 rest h
    simp only [set_countdown_time_loop] at h
    split_ifs at h <;>
      first
      | (simp only [Option.some.injEq, Prod.mk.injEq] at h
         obtain ⟨rfl, rfl⟩ := h
         exact ⟨fun x hx => List.mem_cons_of_mem _ hx, by
           simp [set_countdown_commit, init_countdown, LCDClear, LCDWriteStringXY,
             LCDWriteIntXY]⟩)
      | (obtain ⟨a, b⟩ := ih _ _ _ _ h
         exact ⟨fun x hx => List.mem_cons_of_mem _ (a x hx), by
           simpa [LCDWriteStringXY] using b⟩)

theorem settings_choice_rest (keys : List Char) :
    ∀ (k : Char) (rest : List Char), settings_choice keys = some (k, rest) →
      ∀ x ∈ rest, x ∈ keys := by
  induction keys with
  | nil => intro k rest h; simp [settings_choice] at h
  | cons c cs ih =>
    intro k rest h x hx
    simp only [settings_choice] at h
    split_ifs at h
    · exact List.mem_cons_of_mem _ (ih _ _ h x hx)
    · simp only [Option.some.injEq, Prod.mk.injEq] at h
      obtain ⟨-, rfl⟩ := h
      exact List.mem_cons_of_mem _ hx

theorem settings_range (keys : List Char) (s s1 : State) (rest : List Char)
    (hk : ∀ k ∈ keys, k ∈ keyCodes) (h50 : 50 ≤ s.gSOC_Limit) (h99 : s.gSOC_Limit ≤ 99)
    (h : settings keys s = some (s1, rest)) :
    50 ≤ s1.gSOC_Limit ∧ s1.gSOC_Limit ≤ 99 ∧ ∀ x ∈ rest, x ∈ keys := by
  simp only [settings] at h
  cases hch : settings_choice keys with
  | none => rw [hch] at h; simp at h
  | some p =>
    obtain ⟨k, ks⟩ := p
    rw [hch] at h
    simp only at h
    have hsub := settings_choice_rest keys k ks hch
    split_ifs at h
    · simp only [set_soc_limit] at h
      have r := set_soc_limit_loop_range ks [] _ s1 rest (fun x hx => hk x (hsub x hx))
        (Or.inl rfl) (by simpa [LCDClear, LCDWriteStringXY] using h50)
        (by simpa [LCDClear, LCDWriteStringXY] using h99) h
      exact ⟨r.1, r.2, fun x hx => hsub x (set_soc_limit_loop_rest ks _ _ _ _ h x hx)⟩
    · simp only [set_countdown_time] at h
      obtain ⟨a, b⟩ := set_countdown_time_loop_rest ks _ _ _ _ h
      have e : s1.gSOC_Limit = s.gSOC_Limit := by
        simpa [LCDClear, LCDWriteStringXY] using b
      exact ⟨by omega, by omega, fun x hx => hsub x (a x hx)⟩
    · simp only [Option.some.injEq, Prod.mk.injEq] at h
      obtain ⟨rfl, rfl⟩ := h
      exact ⟨by simpa [LCDClear, LCDWriteStringXY] using h50,
        by simpa [LCDClear, LCDWriteStringXY] using h99, hsub⟩

theorem settings_sessions_range (n : Nat) :
    ∀ (keys : List Char) (s s1 : State) (rest : List Char),
      (∀ k ∈ keys, k ∈ keyCodes) → 50 ≤ s.gSOC_Limit → s.gSOC_Limit ≤ 99 →
      settings_sessions n keys s = some (s1, rest) →
      50 ≤ s1.gSOC_Limit ∧ s1.gSOC_Limit ≤ 99 := by
  induction n with
  | zero =>
    intro keys s s1 rest _ h50 h99 h
    simp only [settings_sessions, Option.some.injEq, Prod.mk.injEq] at h
    obtain ⟨rfl, -⟩ := h
    exact ⟨h50, h99⟩
  | succ n ih =>
    intro keys s s1 rest hk h50 h99 h
    simp only [settings_sessions] at h
    cases hs : settings keys s with
    | none => rw [hs] at h; simp at h
    | some p =>
      obtain ⟨s2, r2⟩ := p
      rw [hs] at h
      simp only at h
      obtain ⟨a, b, c⟩ := settings_range keys s s2 r2 hk h50 h99 hs
      exact ih r2 s2 s1 rest (fun x hx => hk x (c x hx)) a b h

/-- C21. SOC limit stays in [50, 99]: starting from the default gSOC_Limit = 50
(and from every state with the limit in 50..99), whenever set_soc_limit,
settings, or any number of successive settings sessions return after
processing key events (the 13 key codes; committed or cancelled),
50 <= gSOC_Limit <= 99, so the cutoff is never below the buzzer threshold 45. -/
theorem soc_limit_range (keys : List Char) (s s1 : State) (rest : List Char) (n : Nat)
    (hk : ∀ k ∈ keys, k ∈ keyCodes) (h50 : 50 ≤ s.gSOC_Limit) (h99 : s.gSOC_Limit ≤ 99) :
    (State.init).gSOC_Limit = 50
      ∧ (set_soc_limit keys s = some (s1, rest) →
          50 ≤ s1.gSOC_Limit ∧ s1.gSOC_Limit ≤ 99 ∧ 45 ≤ s1.gSOC_Limit)
      ∧ (settings keys s = some (s1, rest) →
          50 ≤ s1.gSOC_Limit ∧ s1.gSOC_Limit ≤ 99 ∧ 45 ≤ s1.gSOC_Limit)
      ∧ (settings_sessions n keys s = some (s1, rest) →
          50 ≤ s1.gSOC_Limit ∧ s1.gSOC_Limit ≤ 99 ∧ 45 ≤ s1.gSOC_Limit)
      ∧ (settings_sessions n keys State.init = some (s1, rest) →
          50 ≤ s1.gSOC_Limit ∧ s1.gSOC_Limit ≤ 99 ∧ 45 ≤ s1.gSOC_Limit) := by
  refine ⟨rfl, ?_, ?_, ?_, ?_⟩
  · intro h
    simp only [set_soc_limit] at h
    have r := set_soc_limit_loop_range keys [] _ s1 rest hk (Or.inl rfl)
      (by simpa [LCDClear, LCDWriteStringXY] using h50)
      (by simpa [LCDClear, LCDWriteStringXY] using h99) h
    exact ⟨r.1, r.2, by omega⟩
  · intro h
    obtain ⟨a, b, -⟩ := settings_range keys s s1 rest hk h50 h99 h
    exact ⟨a, b, by omega⟩
  · intro h
    obtain ⟨a, b⟩ := settings_sessions_range n keys s s1 rest hk h50 h99 h
    exact ⟨a, b, by omega⟩
  · intro h
    obtain ⟨a, b⟩ := settings_sessions_range n keys State.init s1 rest hk
      (by decide) (by decide) h
    exact ⟨a, b, by omega⟩

/-- Witness of `soc_limit_range`: the session 1, 7, 2 from the default state
stores 72. -/
theorem soc_limit_range_witness :
    ∃ s1 : State, settings ['1', '7', '2'] State.init = some (s1, [])
      ∧ 50 ≤ s1.gSOC_Limit ∧ s1.gSOC_Limit ≤ 99 ∧ 45 ≤ s1.gSOC_Limit := by
  have e : ∃ s1 : State, settings ['1', '7', '2'] State.init = some (s1, []) :=
    ⟨_, by simp [settings, settings_choice, set_soc_limit, set_soc_limit_loop]; rfl⟩
  obtain ⟨s1, h⟩ := e
  exact ⟨s1, h, (soc_limit_range ['1', '7', '2'] State.init s1 [] 1 (by decide) (by decide)
    (by decide)).2.2.1 h⟩

/-! ## Countdown start value -/

theorem set_countdown_time_loop_commit (keys : List Char) :
    ∀ (input : List Char) (s s1 : State) (rest : List Char),
      (∀ k ∈ keys, k ∈ keyCodes) → (∀ d ∈ input, d ∈ digitKeys) → input.length < 3 →
      (∀ d tl, input = d :: tl → d ≠ '0') →
      set_countdown_time_loop keys input s = some (s1, rest) →
      (s1.gCountdown_In_Progress = s.gCountdown_In_Progress
          ∧ s1.gCountdown_Time = s.gCountdown_Time)
        ∨ ∃ (input1 : List Char) (s0 : State), s1 = set_countdown_commit input1 s0
            ∧ (∀ d ∈ input1, d ∈ digitKeys) ∧ 1 ≤ input1.length ∧ input1.length ≤ 3
            ∧ (∀ d tl, input1 = d :: tl → d ≠ '0') := by
  induction keys with
  | nil => intro input s s1 rest _ _ _ _ h; simp [set_countdown_time_loop] at h
  | cons k ks ih =>
    intro input s s1 rest hk hdig hlen hnz h
    have hks : ∀ x ∈ ks, x ∈ keyCodes := fun x hx => hk x (List.mem_cons_of_mem _ hx)
    have hkc := keyCodes_cases k (hk k (List.mem_cons_self _ _))
    simp only [set_countdown_time_loop] at h
    split_ifs at h with c1 c2 c3 c4 c5 c6
    · exact ih input s s1 rest hks hdig hlen hnz h
    · exact ih input s s1 rest hks hdig hlen hnz h
    · simp only [Option.some.injEq, Prod.mk.injEq] at h
      obtain ⟨rfl, -⟩ := h
      exact Or.inl ⟨rfl, rfl⟩
    · simp only [Option.some.injEq, Prod.mk.injEq] at h
      obtain ⟨rfl, -⟩ := h
      exact Or.inr ⟨input, s, rfl, hdig, c4.2, by omega, hnz⟩
    · exact ih input s s1 rest hks hdig hlen hnz h
    · have hnd : k ≠ '$' := by
        intro e
        by_cases hl : input.length = 0
        · exact c5 ⟨e, hl⟩
        · exact c4 ⟨e, by omega⟩
      have hkd : k ∈ digitKeys := by
        rcases hkc with h04 | h59 | e | e | e
        · simp only [digitKeys, List.mem_cons, List.mem_singleton, List.not_mem_nil,
            or_false] at h04 ⊢
          rcases h04 with e | e | e | e | e <;> simp [e]
        · simp only [digitKeys, List.mem_cons, List.mem_singleton, List.not_mem_nil,
            or_false] at h59 ⊢
          rcases h59 with e | e | e | e | e <;> simp [e]
        · exact absurd e c2
        · exact absurd e c3
        · exact absurd e hnd
      have hdig2 : ∀ d ∈ input ++ [k], d ∈ digitKeys := by
        intro d hd
        rcases List.mem_append.mp hd with hd | hd
        · exact hdig d hd
        · simp only [List.mem_singleton] at hd; rw [hd]; exact hkd
      have hnz2 : ∀ d tl, input ++ [k] = d :: tl → d ≠ '0' := by
        intro d tl e
        cases input with
        | nil =>
          simp only [List.nil_append, List.cons.injEq] at e
          intro e0
          exact c1 ⟨by rw [e.1, e0], rfl⟩
        | cons a as =>
          simp only [List.cons_append, List.cons.injEq] at e
          rw [← e.1]
          exact hnz a as rfl
      rcases ih _ _ s1 rest hks hdig2 c6 hnz2 h with ⟨a, b⟩ | r
      · exact Or.inl ⟨by simpa [LCDWriteStringXY] using a, by simpa [LCDWriteStringXY] using b⟩
      · exact Or.inr r
    · have hnd : k ≠ '$' := by
        intro e
        by_cases hl : input.length = 0
        · exact c5 ⟨e, hl⟩
        · exact c4 ⟨e, by omega⟩
      have hkd : k ∈ digitKeys := by
        rcases hkc with h04 | h59 | e | e | e
        · simp only [digitKeys, List.mem_cons, List.mem_singleton, List.not_mem_nil,
            or_false] at h04 ⊢
          rcases h04 with e | e | e | e | e <;> simp [e]
        · simp only [digitKeys, List.mem_cons, List.mem_singleton, List.not_mem_nil,
            or_false] at h59 ⊢
          rcases h59 with e | e | e | e | e <;> simp [e]
        · exact absurd e c2
        · exact absurd e c3
        · exact absurd e hnd
      have hdig2 : ∀ d ∈ input ++ [k], d ∈ digitKeys := by
        intro d hd
        rcases List.mem_append.mp hd with hd | hd
        · exact hdig d hd
        · simp only [List.mem_singleton] at hd; rw [hd]; exact hkd
      have hnz2 : ∀ d tl, input ++ [k] = d :: tl → d ≠ '0' := by
        intro d tl e
        cases input with
        | nil =>
          simp only [List.nil_append, List.cons.injEq] at e
          intro e0
          exact c1 ⟨by rw [e.1, e0], rfl⟩
        | cons a as =>
          simp only [List.cons_append, List.cons.injEq] at e
          rw [← e.1]
          exact hnz a as rfl
      simp only [Option.some.injEq, Prod.mk.injEq] at h
      obtain ⟨rfl, -⟩ := h
      refine Or.inr ⟨input ++ [k], _, rfl, hdig2, by simp, ?_, hnz2⟩
      simp only [List.length_append, List.length_singleton]
      omega

theorem committed_value_range (input : List Char) (hdig : ∀ d ∈ input, d ∈ digitKeys)
    (h1 : 1 ≤ input.length) (h3 : input.length ≤ 3)
    (hnz : ∀ d tl, input = d :: tl → d ≠ '0') :
    1 ≤ string_to_integer input ∧ string_to_integer input ≤ 999 := by
  have first_facts : ∀ d : Char, d ∈ digitKeys → d ≠ '0' → 49 ≤ d.toNat ∧ d.toNat ≤ 57 := by
    intro d hd hne
    simp only [digitKeys, List.mem_cons, List.mem_singleton, List.not_mem_nil, or_false] at hd
    rcases hd with rfl | rfl | rfl | rfl | rfl | rfl | rfl | rfl | rfl | rfl <;>
      first
      | exact absurd rfl hne
      | decide
  match input, hdig, h1, h3, hnz with
  | [a], hdig, _, _, hnz =>
    have ha := first_facts a (hdig a (by simp)) (hnz a [] rfl)
    rw [string_to_integer_one a (hdig a (by simp))]
    omega
  | [a, b], hdig, _, _, hnz =>
    have ha := first_facts a (hdig a (by simp)) (hnz a [b] rfl)
    obtain ⟨-, lb, ub, -⟩ := digitKeys_facts b (hdig b (by simp))
    rw [string_to_integer_two a b (hdig a (by simp)) (hdig b (by simp))]
    omega
  | [a, b, c], hdig, _, _, hnz =>
    have ha := first_facts a (hdig a (by simp)) (hnz a [b, c] rfl)
    obtain ⟨-, lb, ub, -⟩ := digitKeys_facts b (hdig b (by simp))
    obtain ⟨-, lc, uc, -⟩ := digitKeys_facts c (hdig c (by simp))
    rw [string_to_integer_three a b c (hdig a (by simp)) (hdig b (by simp)) (hdig c (by simp))]
    omega

/-- C22. No underflow at countdown start: whenever set_countdown_time returns
on a sequence of key codes, either it was cancelled (gCountdown_In_Progress and
gCountdown_Time are as at entry) or it committed a buffer `input` of 1 to 3
digits whose first digit is not 0: then the converted value is between 1 and
999, the 16-bit subtraction string_to_integer(input) - 1 does not wrap, and
gCountdown_Time passed to init_countdown is value - 1, in 0..998.  In
particular this is so whenever the routine is entered with no countdown in
progress and returns with one in progress. -/
theorem countdown_start_no_underflow (keys : List Char) (s s1 : State) (rest : List Char)
    (hk : ∀ k ∈ keys, k ∈ keyCodes)
    (h : set_countdown_time keys s = some (s1, rest)) :
    ((s1.gCountdown_In_Progress = s.gCountdown_In_Progress
          ∧ s1.gCountdown_Time = s.gCountdown_Time)
        ∨ ∃ (input : List Char) (s0 : State), s1 = set_countdown_commit input s0
            ∧ 1 ≤ string_to_integer input ∧ string_to_integer input ≤ 999
            ∧ (string_to_integer input + 65535) % 65536 = string_to_integer input - 1
            ∧ s1.gCountdown_Time = string_to_integer input - 1
            ∧ s1.gCountdown_Time ≤ 998)
      ∧ (s.gCountdown_In_Progress = false → s1.gCountdown_In_Progress = true →
          ∃ (input : List Char) (s0 : State), s1 = set_countdown_commit input s0
            ∧ 1 ≤ string_to_integer input ∧ string_to_integer input ≤ 999
            ∧ s1.gCountdown_Time = string_to_integer input - 1
            ∧ s1.gCountdown_Time ≤ 998) := by
  simp only [set_countdown_time] at h
  have key := set_countdown_time_loop_commit keys [] _ s1 rest hk (by simp) (by simp)
    (by intro d tl e; simp at e) h
  have commit : ∀ (input : List Char) (s0 : State), s1 = set_countdown_commit input s0 →
      (∀ d ∈ input, d ∈ digitKeys) → 1 ≤ input.length → input.length ≤ 3 →
      (∀ d tl, input = d :: tl → d ≠ '0') →
      1 ≤ string_to_integer input ∧ string_to_integer input ≤ 999
        ∧ (string_to_integer input + 65535) % 65536 = string_to_integer input - 1
        ∧ s1.gCountdown_Time = string_to_integer input - 1
        ∧ s1.gCountdown_Time ≤ 998 := by
    intro input s0 e hdig h1 h3 hnz
    obtain ⟨a, b⟩ := committed_value_range input hdig h1 h3 hnz
    have hT := (set_countdown_commit_fields input s0).1
    rw [← e] at hT
    refine ⟨a, b, by omega, by omega, by omega⟩
  constructor
  · rcases key with ⟨a, b⟩ | ⟨input, s0, e, hdig, h1, h3, hnz⟩
    · exact Or.inl ⟨by simpa [LCDClear, LCDWriteStringXY] using a,
        by simpa [LCDClear, LCDWriteStringXY] using b⟩
    · exact Or.inr ⟨input, s0, e, commit input s0 e hdig h1 h3 hnz⟩
  · intro hs hc
    rcases key with ⟨a, _⟩ | ⟨input, s0, e, hdig, h1, h3, hnz⟩
    · have a2 : s1.gCountdown_In_Progress = s.gCountdown_In_Progress := by
        simpa [LCDClear, LCDWriteStringXY] using a
      rw [hs, hc] at a2
      exact absurd a2 (by decide)
    · obtain ⟨c1, c2, -, c4, c5⟩ := commit input s0 e hdig h1 h3 hnz
      exact ⟨input, s0, e, c1, c2, c4, c5⟩

/-- Witness of `countdown_start_no_underflow`: the keys 0, 1, 0, $ from the
default state start a countdown with gCountdown_Time at most 998. -/
theorem countdown_start_no_underflow_witness :
    ∃ s1 : State, set_countdown_time ['0', '1', '0', '$'] State.init = some (s1, [])
      ∧ ∃ (input : List Char) (s0 : State), s1 = set_countdown_commit input s0
            ∧ 1 ≤ string_to_integer input ∧ string_to_integer input ≤ 999
            ∧ s1.gCountdown_Time = string_to_integer input - 1
            ∧ s1.gCountdown_Time ≤ 998 := by
  have e : ∃ s1 : State, set_countdown_time ['0', '1', '0', '$'] State.init = some (s1, [])
      ∧ s1.gCountdown_In_Progress = true :=
    ⟨_, by simp [set_countdown_time, set_countdown_time_loop]; rfl,
      (set_countdown_commit_fields _ _).2.2.2.1⟩
  obtain ⟨s1, h, hp⟩ := e
  exact ⟨s1, h, (countdown_start_no_underflow ['0', '1', '0', '$'] State.init s1 []
    (by decide) h).2 rfl hp⟩

/-! ## Formatting buffer -/

theorem float_to_string_writes_bound (value : ℚ) (unit : Char) (h0 : 0 ≤ value)
    (h1 : value < 1000) :
    ∀ w ∈ float_to_string_writes value unit, w.1 ≤ 6 := by
  have hn : ⌊value⌋.toNat < 1000 := by
    have a : ⌊value⌋ < 1000 := Int.floor_lt.mpr (by exact_mod_cast h1)
    have b := Int.floor_nonneg.mpr h0
    omega
  obtain ⟨-, q2, q3, -, -⟩ := float_to_string_loops_small _ hn
  rw [float_to_string_writes_small value unit h0 h1]
  intro w hw
  simp only [List.mem_append, List.mem_singleton] at hw
  rcases hw with ((((hw | hw) | hw) | hw) | hw) | hw
  · rw [hw]; simp
  · split_ifs at hw
    · simp only [List.mem_singleton] at hw; rw [hw]; simp only []; omega
    · simp at hw
  · rw [hw]; simp only []; omega
  · rw [hw]; simp only []; omega
  · rw [hw]; simp only []; omega
  · obtain ⟨a, b⟩ := w
    have := (List.of_mem_zip hw).1
    simp only [List.mem_reverse, List.mem_range] at this
    simp only []
    omega

theorem float_to_string_strlen (value : ℚ) (unit : Char) (h0 : 0 ≤ value)
    (h1 : value < 1000) :
    strlen (gString_after (float_to_string_writes value unit)) ≤ 6 := by
  have hn : ⌊value⌋.toNat < 1000 := by
    have a : ⌊value⌋ < 1000 := Int.floor_lt.mpr (by exact_mod_cast h1)
    have b := Int.floor_nonneg.mpr h0
    omega
  obtain ⟨-, q2, q3, -, hdig⟩ := float_to_string_loops_small _ hn
  have r1 : (List.range 1).reverse = [0] := by decide
  have r2 : (List.range 2).reverse = [1, 0] := by decide
  have r3 : (List.range 3).reverse = [2, 1, 0] := by decide
  unfold strlen
  rw [float_to_string_writes_small value unit h0 h1]
  generalize Nat.toDigits 10 ⌊value⌋.toNat = ds at q2 q3 hdig
  generalize Nat.digitChar
    (⌊binary32_round (binary32_round (value - ⌊value⌋) * 10)⌋.toNat % 10) = fd
  match ds, q2, q3, hdig with
  | [a], _, _, _ =>
    by_cases hu : unit = ' ' <;>
      simp [gString_after, gString_calloc, List.replicate, cstring, List.takeWhile, r1, hu] <;>
      repeat' split <;> simp
  | [a, b], _, _, _ =>
    by_cases hu : unit = ' ' <;>
      simp [gString_after, gString_calloc, List.replicate, cstring, List.takeWhile, r2, hu] <;>
      repeat' split <;> simp
  | [a, b, c], _, _, _ =>
    by_cases hu : unit = ' ' <;>
      simp [gString_after, gString_calloc, List.replicate, cstring, List.takeWhile, r3, hu] <;>
      repeat' split <;> simp

theorem float_to_string_count_step (fuel m c : Nat) (hf : 1 ≤ fuel) (hm : 10 ≤ m) :
    float_to_string_count fuel (m : Int) c
      = float_to_string_count (fuel - 1) ((m / 10 : Nat) : Int) ((c + 1) % 256) := by
  obtain ⟨f, rfl⟩ : ∃ f, fuel = f + 1 := ⟨fuel - 1, by omega⟩
  have e : (m : Int).tdiv 10 = ((m / 10 : Nat) : Int) := (Int.ofNat_tdiv m 10).symm
  have hne : ((m / 10 : Nat) : Int) ≠ 0 := by
    have : 1 ≤ m / 10 := by omega
    omega
  simp only [float_to_string_count, e, hne, ne_eq, not_false_eq_true, if_true,
    Nat.add_sub_cancel]

theorem float_to_string_count_last (fuel m c : Nat) (hf : 1 ≤ fuel) (hm : m < 10) :
    float_to_string_count fuel (m : Int) c = (c + 1) % 256 := by
  obtain ⟨f, rfl⟩ : ∃ f, fuel = f + 1 := ⟨fuel - 1, by omega⟩
  have e : (m : Int).tdiv 10 = ((m / 10 : Nat) : Int) := (Int.ofNat_tdiv m 10).symm
  have hz : ((m / 10 : Nat) : Int) = 0 := by
    have : m / 10 = 0 := by omega
    omega
  simp only [float_to_string_count, e, hz, ne_eq, not_true_eq_false, if_false]

theorem float_to_string_count_large (n : Nat) (h1 : 1000 ≤ n) (h2 : n < 32768) :
    float_to_string_count (n + 1) (n : Int) 0 = 4
      ∨ float_to_string_count (n + 1) (n : Int) 0 = 5 := by
  rw [float_to_string_count_step (n + 1) n 0 (by omega) (by omega),
    float_to_string_count_step _ (n / 10) _ (by omega) (by omega),
    float_to_string_count_step _ (n / 10 / 10) _ (by omega) (by omega)]
  by_cases h : n < 10000
  · left
    rw [float_to_string_count_last _ (n / 10 / 10 / 10) _ (by omega) (by omega)]
  · right
    rw [float_to_string_count_step _ (n / 10 / 10 / 10) _ (by omega) (by omega),
      float_to_string_count_last _ (n / 10 / 10 / 10 / 10) _ (by omega) (by omega)]

theorem float_to_string_writes_large (value : ℚ) (unit : Char) (h1 : 1000 ≤ value)
    (h2 : value < 32768) (hu : unit ≠ ' ') :
    ∃ w ∈ float_to_string_writes value unit, w.1 = 7 := by
  have h0 : 0 ≤ value := by linarith
  obtain ⟨p1, -⟩ := float_to_string_parts value h0
  have hn1 : 1000 ≤ ⌊value⌋.toNat := by
    have a : (1000 : Int) ≤ ⌊value⌋ := Int.le_floor.mpr (by exact_mod_cast h1)
    omega
  have hn2 : ⌊value⌋.toNat < 32768 := by
    have a : ⌊value⌋ < 32768 := Int.floor_lt.mpr (by exact_mod_cast h2)
    have b := Int.floor_nonneg.mpr h0
    omega
  have hc := float_to_string_count_large _ hn1 hn2
  simp only [float_to_string_writes]
  rw [p1]
  simp only [Int.natAbs_ofNat]
  rcases hc with hc | hc
  · rw [hc]
    exact ⟨(7, NUL), by simp, rfl⟩
  · rw [hc]
    exact ⟨(7, unit), by simp [hu], rfl⟩

/-- C23. Formatting buffer is never overrun: for every ADC reading in 0..1023
the SOC is at most 100 and the battery voltage at most 12; float_to_string
applied to the SOC with unit '%' and to the voltage with unit 'V' writes only
indices 0..6 of its 7 byte buffer, and the string is NUL terminated within the
buffer (its length is at most 6); a value of 1000 or more (and below 32768, the
range of the conversion to int) with a unit other than space writes index 7. -/
theorem formatting_buffer_bounds (adc : Nat) (hadc : adc ≤ 1023) :
    gString_calloc.length = 7
      ∧ soc_calculator (battery_voltage_level adc) ≤ 100
      ∧ battery_voltage_level adc ≤ 12
      ∧ (∀ w ∈ float_to_string_writes (soc_calculator (battery_voltage_level adc)) '%',
          w.1 ≤ 6)
      ∧ (∀ w ∈ float_to_string_writes (battery_voltage_level adc) 'V', w.1 ≤ 6)
      ∧ strlen (gString_after
          (float_to_string_writes (soc_calculator (battery_voltage_level adc)) '%')) ≤ 6
      ∧ strlen (gString_after (float_to_string_writes (battery_voltage_level adc) 'V')) ≤ 6
      ∧ (∀ (value : ℚ) (unit : Char), 1000 ≤ value → value < 32768 → unit ≠ ' ' →
          ∃ w ∈ float_to_string_writes value unit, w.1 = 7) := by
  have hq : (adc : ℚ) ≤ 1023 := by exact_mod_cast hadc
  have hq0 : (0 : ℚ) ≤ (adc : ℚ) := Nat.cast_nonneg adc
  have hv0 : 0 ≤ battery_voltage_level adc := by
    unfold battery_voltage_level BATTERY_MAX_VOLTAGE; positivity
  have hv12 : battery_voltage_level adc ≤ 12 := by
    unfold battery_voltage_level BATTERY_MAX_VOLTAGE
    rw [div_le_iff₀ (by norm_num)]; linarith
  have hs0 : 0 ≤ soc_calculator (battery_voltage_level adc) := by
    rw [soc_calculator_adc]; positivity
  have hs100 : soc_calculator (battery_voltage_level adc) ≤ 100 := by
    rw [soc_calculator_adc, div_le_iff₀ (by norm_num)]; linarith
  exact ⟨rfl, hs100, hv12,
    float_to_string_writes_bound _ '%' hs0 (by linarith),
    float_to_string_writes_bound _ 'V' hv0 (by linarith),
    float_to_string_strlen _ '%' hs0 (by linarith),
    float_to_string_strlen _ 'V' hv0 (by linarith),
    fun value unit a b c => float_to_string_writes_large value unit a b c⟩

/-- Witness of `formatting_buffer_bounds`: the full-scale reading 1023 (SOC
100.0, 12.0 V). -/
theorem formatting_buffer_bounds_witness :
    (∀ w ∈ float_to_string_writes (soc_calculator (battery_voltage_level 1023)) '%', w.1 ≤ 6)
      ∧ strlen (gString_after
          (float_to_string_writes (soc_calculator (battery_voltage_level 1023)) '%')) ≤ 6
      ∧ ∃ w ∈ float_to_string_writes 1000 '%', w.1 = 7 :=
  ⟨(formatting_buffer_bounds 1023 (le_refl _)).2.2.2.1,
   (formatting_buffer_bounds 1023 (le_refl _)).2.2.2.2.2.1,
   (formatting_buffer_bounds 1023 (le_refl _)).2.2.2.2.2.2.2 1000 '%' (le_refl _)
     (by norm_num) (by decide)⟩

end BatteryBot
